import Mathlib

/-!
# RetroPlug: the audio-side call handlers and the video frame read

A shallow embedding of

* `src/controller/AudioController.cpp` : `AudioController::setNode`, the handlers the audio
  node registers for every call type;
* `src/ui/EmulatorView.cpp` : the video read sequence of `EmulatorView::Draw`.

Shared pointers are modelled as optional object identities (`none` is the empty pointer), the
objects they point to live in stores indexed by identity.  A handler returns `none` when it
dereferences an empty pointer or indexes outside the slot table; otherwise it returns the new
controller state, the value written to the response and the list of operations it invoked on
the scripting layer and on the emulation cores, in program order.
-/

set_option autoImplicit false

namespace RetroPlug

/-! ## Data model -/

/-- The index of an instance slot (`InstanceIndex`). -/
abbrev InstanceIndex := Nat

/-- The identity of a `SameBoyPlug` object. -/
abbrev PlugId := Nat

/-- A `SameBoyPlugPtr`: a shared pointer to an emulation core, `none` when empty. -/
abbrev SameBoyPlugPtr := Option PlugId

/-- The identity of an `AudioLuaContext` object. -/
abbrev LuaId := Nat

/-- An `AudioLuaContextPtr`: a shared pointer to a scripting layer, `none` when empty. -/
abbrev AudioLuaContextPtr := Option LuaId

/-- The hardware models, as registered in `setupCommon` (LuaHelpers.cpp, lines 73-79). -/
inductive GameboyModel where
  | Auto
  | Agb
  | CgbC
  | CgbE
  | DmgB
  deriving DecidableEq, Repr

/-- The save kinds, as registered in `setupCommon` (LuaHelpers.cpp, lines 68-71). -/
inductive SaveStateType where
  | Sram
  | State
  deriving DecidableEq, Repr

/-- The fields of `SameBoySettings` registered in `setupCommon` (LuaHelpers.cpp, lines 86-89). -/
structure SameBoySettings where
  model : GameboyModel
  gameLink : Bool
  deriving DecidableEq, Repr

/-- The fields of `Project::Settings` registered in `setupCommon` (LuaHelpers.cpp, lines 97-103);
the routing and layout enumerations are kept as their ordinal. -/
structure Project.Settings where
  audioRouting : Nat
  midiRouting : Nat
  layout : Nat
  zoom : Nat
  saveType : SaveStateType
  deriving DecidableEq, Repr

/-- The contents of a `DataBuffer<char>`. -/
abbrev DataBuffer := List Nat

/-- A `DataBufferPtr`: a shared pointer to a data buffer, `none` when empty. -/
abbrev DataBufferPtr := Option DataBuffer

/-- Modelled from the spec: the blob returned by `serializeInstances` and `serializeInstance`
(AudioLuaContext.cpp and the scripts are missing; the spec calls the blob opaque).  The model
keeps what the blob carries, one record per serialised instance: its index and its component
data.  The empty string is the blob without a record. -/
abbrev Blob := List (InstanceIndex × String)

/-! ## The scripting layer -/

/-- Modelled from the spec: the state of an `AudioLuaContext` (only AudioLuaContext.h is present).
The layer mirrors the instance lifecycle events and keeps bookkeeping per instance index:
`instances` lists the tracked indices with their component data, `active` is the index last
activated, `initialised` holds the timing parameters of the last `init`, and `menuResults`
the menu results delivered so far, newest first. -/
structure AudioLuaContext where
  initialised : Option (Nat × Nat)
  instances : List (InstanceIndex × String)
  active : InstanceIndex
  menuResults : List Int
  deriving DecidableEq, Repr

namespace AudioLuaContext

/-- Modelled from the spec: `AudioLuaContext::init` (definition missing).  The layer is set up
afresh for the processing context and the timing parameters given: nothing is tracked yet. -/
def init (_l : AudioLuaContext) (timeInfo sampleRate : Nat) : AudioLuaContext :=
  { initialised := some (timeInfo, sampleRate), instances := [], active := 0, menuResults := [] }

/-- The component data the layer keeps for `idx`, the empty default when `idx` is not tracked. -/
def componentData (l : AudioLuaContext) (idx : InstanceIndex) : String :=
  match l.instances.find? (fun e => e.1 == idx) with
  | some e => e.2
  | none => ""

/-- Modelled from the spec: `AudioLuaContext::addInstance` (definition missing).  The layer
starts tracking `idx` with fresh bookkeeping for the instance put there. -/
def addInstance (l : AudioLuaContext) (idx : InstanceIndex) (_inst : SameBoyPlugPtr) :
    AudioLuaContext :=
  { l with instances := (idx, "") :: l.instances.filter (fun e => e.1 != idx) }

/-- Modelled from the spec: `AudioLuaContext::duplicateInstance` (definition missing).  The
layer starts tracking `targetIdx` with a copy of the bookkeeping of `sourceIdx`. -/
def duplicateInstance (l : AudioLuaContext) (sourceIdx targetIdx : InstanceIndex)
    (_inst : SameBoyPlugPtr) : AudioLuaContext :=
  { l with instances :=
      (targetIdx, l.componentData sourceIdx) :: l.instances.filter (fun e => e.1 != targetIdx) }

/-- Modelled from the spec: `AudioLuaContext::removeInstance` (definition missing).  The layer
stops tracking `index`. -/
def removeInstance (l : AudioLuaContext) (index : InstanceIndex) : AudioLuaContext :=
  { l with instances := l.instances.filter (fun e => e.1 != index) }

/-- Modelled from the spec: `AudioLuaContext::setActive` (definition missing). -/
def setActive (l : AudioLuaContext) (idx : InstanceIndex) : AudioLuaContext :=
  { l with active := idx }

/-- Modelled from the spec: `AudioLuaContext::onMenuResult` (definition missing).  The layer
is handed the identifier of the chosen menu entry. -/
def onMenuResult (l : AudioLuaContext) (id : Int) : AudioLuaContext :=
  { l with menuResults := id :: l.menuResults }

/-- Modelled from the spec: `AudioLuaContext::serializeInstance` (definition missing).  The blob
holds the record of `index`, and is empty when the layer does not track `index`. -/
def serializeInstance (l : AudioLuaContext) (index : InstanceIndex) : Blob :=
  l.instances.filter (fun e => e.1 == index)

/-- Modelled from the spec: `AudioLuaContext::serializeInstances` (definition missing).  The blob
holds the records of all tracked instances. -/
def serializeInstances (l : AudioLuaContext) : Blob :=
  l.instances

/-- Modelled from the spec: `AudioLuaContext::deserializeInstances` (definition missing).  The
layer rebuilds its per-instance bookkeeping from the records of the blob. -/
def deserializeInstances (l : AudioLuaContext) (data : Blob) : AudioLuaContext :=
  { l with instances := data }

/-- The set of instance indices the layer tracks. -/
def tracked (l : AudioLuaContext) (idx : InstanceIndex) : Prop :=
  ∃ e ∈ l.instances, e.1 = idx

end AudioLuaContext

/-! ## The processing context -/

/-- Modelled from the spec: the state of the `ProcessingContext` (ProcessingContext.h is missing):
a table of `MAX_INSTANCES` instance slots, each holding at most one emulation core, and the
project settings.  `MAX_INSTANCES` is a constant whose declaration is missing; it is a parameter
of every operation that indexes the table, and only the entries below it are slots. -/
structure ProcessingContext where
  instances : InstanceIndex → SameBoyPlugPtr
  settings : Project.Settings

/-- Modelled from the spec: the state of a `SameBoyPlug`, the emulation core (SameBoyPlug.h is
missing; the spec lists its operation surface): its settings, the ROM installed and the
battery-backed save data. -/
structure SameBoyPlug where
  settings : SameBoySettings
  rom : DataBufferPtr
  battery : DataBuffer
  deriving DecidableEq, Repr

namespace SameBoyPlug

/-- The accessor `SameBoyPlug::getSettings`. -/
def getSettings (p : SameBoyPlug) : SameBoySettings := p.settings

/-- Modelled from the spec: `SameBoyPlug::reset(model, fast)` (definition missing). -/
def reset (p : SameBoyPlug) (model : GameboyModel) (_fast : Bool) : SameBoyPlug :=
  { p with settings := { p.settings with model := model } }

/-- Modelled from the spec: `SameBoyPlug::setRomData(buffer)` (definition missing). -/
def setRomData (p : SameBoyPlug) (buffer : DataBufferPtr) : SameBoyPlug :=
  { p with rom := buffer }

/-- Modelled from the spec: `SameBoyPlug::loadBattery(data, size, reset)` (definition missing). -/
def loadBattery (p : SameBoyPlug) (data : DataBuffer) (size : Nat) (_reset : Bool) : SameBoyPlug :=
  { p with battery := data.take size }

/-- Modelled from the spec: `SameBoyPlug::saveBattery` (definition missing). -/
def saveBattery (p : SameBoyPlug) : DataBuffer := p.battery

end SameBoyPlug

/-- The store of `SameBoyPlug` objects, by identity. -/
abbrev PlugStore := PlugId → SameBoyPlug

/-- The response of `calls::FetchState`; its three fields are the ones registered in
UiLuaContext.cpp (lines 243-246), each an array over the instance slots. -/
structure FetchStateResponse where
  srams : InstanceIndex → DataBufferPtr
  states : InstanceIndex → DataBufferPtr
  components : InstanceIndex → Blob

/-- The request of `calls::FetchState`; its declaration is missing and the handler only passes
it on. -/
abbrev FetchStateRequest := Nat

namespace ProcessingContext

/-- Modelled from the spec: `ProcessingContext::getInstance` (definition missing), the non-owning
lookup of slot `idx`.  An index outside the table is an error. -/
def getInstance (MAX_INSTANCES : Nat) (pc : ProcessingContext) (idx : InstanceIndex) :
    Option SameBoyPlugPtr :=
  if idx < MAX_INSTANCES then some (pc.instances idx) else none

/-- Modelled from the spec: `ProcessingContext::swapInstance` (definition missing).  Slot `idx`
receives the new object and the previous one is returned. -/
def swapInstance (MAX_INSTANCES : Nat) (pc : ProcessingContext) (idx : InstanceIndex)
    (inst : SameBoyPlugPtr) : Option (SameBoyPlugPtr × ProcessingContext) :=
  if idx < MAX_INSTANCES then
    some (pc.instances idx, { pc with instances := Function.update pc.instances idx inst })
  else none

/-- Modelled from the spec: `ProcessingContext::removeInstance` (definition missing).  Slot `idx`
is detached and returned, the slot is left empty. -/
def removeInstance (MAX_INSTANCES : Nat) (pc : ProcessingContext) (idx : InstanceIndex) :
    Option (SameBoyPlugPtr × ProcessingContext) :=
  if idx < MAX_INSTANCES then
    some (pc.instances idx, { pc with instances := Function.update pc.instances idx none })
  else none

/-- Modelled from the spec: `ProcessingContext::duplicateInstance` (definition missing).  The
configuration of the object in slot `sourceIdx` is cloned into the new object, which is placed
at `targetIdx`; the previous occupant of the target slot is returned. -/
def duplicateInstance (MAX_INSTANCES : Nat) (pc : ProcessingContext) (plugs : PlugStore)
    (sourceIdx targetIdx : InstanceIndex) (inst : SameBoyPlugPtr) :
    Option (SameBoyPlugPtr × ProcessingContext × PlugStore) :=
  if sourceIdx < MAX_INSTANCES ∧ targetIdx < MAX_INSTANCES then
    let plugs1 : PlugStore :=
      match pc.instances sourceIdx, inst with
      | some s, some p => Function.update plugs p (plugs s)
      | _, _ => plugs
    some (pc.instances targetIdx,
      { pc with instances := Function.update pc.instances targetIdx inst }, plugs1)
  else none

/-- Modelled from the spec: `ProcessingContext::resetInstance` (definition missing).  The object
in slot `idx` is reinitialised in place with the given model; an empty slot is left alone. -/
def resetInstance (MAX_INSTANCES : Nat) (pc : ProcessingContext) (plugs : PlugStore)
    (idx : InstanceIndex) (model : GameboyModel) : Option PlugStore :=
  if idx < MAX_INSTANCES then
    match pc.instances idx with
    | some p => some (Function.update plugs p ((plugs p).reset model true))
    | none => some plugs
  else none

/-- Modelled from the spec: `ProcessingContext::setSettings` (definition missing). -/
def setSettings (pc : ProcessingContext) (settings : Project.Settings) : ProcessingContext :=
  { pc with settings := settings }

/-- Modelled from the spec: `ProcessingContext::fetchState` (definition missing).  For each
populated slot a state snapshot, the battery-backed save data, is written into the response. -/
def fetchState (MAX_INSTANCES : Nat) (pc : ProcessingContext) (plugs : PlugStore)
    (_req : FetchStateRequest) (state : FetchStateResponse) : FetchStateResponse :=
  { state with
    srams := fun i =>
      if i < MAX_INSTANCES then
        match pc.instances i with
        | some p => some (plugs p).saveBattery
        | none => state.srams i
      else state.srams i }

/-- The number of populated slots. -/
def populated (MAX_INSTANCES : Nat) (pc : ProcessingContext) : Nat :=
  (List.range MAX_INSTANCES).countP (fun i => (pc.instances i).isSome)

end ProcessingContext

/-! ## The audio controller -/

/-- The operations of `AudioLuaContext` that the handlers invoke, with their arguments. -/
inductive LuaCall where
  | init (timeInfo sampleRate : Nat)
  | addInstance (idx : InstanceIndex) (inst : SameBoyPlugPtr)
  | duplicateInstance (sourceIdx targetIdx : InstanceIndex) (inst : SameBoyPlugPtr)
  | removeInstance (index : InstanceIndex)
  | setActive (idx : InstanceIndex)
  | onMenuResult (id : Int)
  | serializeInstance (index : InstanceIndex)
  | serializeInstances
  | deserializeInstances (data : Blob)
  deriving DecidableEq, Repr

/-- The operations of the emulation core that the handlers invoke, with their arguments. -/
inductive CoreCall where
  | loadBattery (data : DataBuffer) (size : Nat) (reset : Bool)
  | setRomData (buffer : DataBufferPtr)
  | reset (model : GameboyModel) (fast : Bool)
  | pressButtons (presses : List Nat) (pressCount : Nat)
  deriving DecidableEq, Repr

/-- One operation invoked by a handler on a collaborator: on the scripting layer `l` or on the
emulation core `p`. -/
inductive Call where
  | lua (l : LuaId) (c : LuaCall)
  | core (p : PlugId) (c : CoreCall)
  deriving DecidableEq, Repr

/-- The state the handlers of `AudioController::setNode` capture: the members `_lua`,
`_processingContext`, `_timeInfo` and `_sampleRate` (the latter two are only passed on), and
the objects behind the shared pointers. -/
structure AudioController where
  _lua : AudioLuaContextPtr
  _processingContext : ProcessingContext
  _timeInfo : Nat
  _sampleRate : Nat
  luas : LuaId → AudioLuaContext
  plugs : PlugStore

/-- What a handler that ran to completion leaves behind: the controller state, the value of its
response parameter and the operations it invoked, in program order. -/
structure Outcome (ρ : Type) where
  state : AudioController
  response : ρ
  calls : List Call

/-- The request of `calls::SwapInstance` (`d.idx`, `d.instance`). -/
structure InstanceSwapDesc where
  idx : InstanceIndex
  inst : SameBoyPlugPtr
  deriving DecidableEq, Repr

/-- The request of `calls::DuplicateInstance` (`d.sourceIdx`, `d.targetIdx`, `d.instance`). -/
structure InstanceDuplicateDesc where
  sourceIdx : InstanceIndex
  targetIdx : InstanceIndex
  inst : SameBoyPlugPtr
  deriving DecidableEq, Repr

/-- The request of `calls::ResetInstance` (`d.idx`, `d.model`). -/
structure ResetInstanceDesc where
  idx : InstanceIndex
  model : GameboyModel
  deriving DecidableEq, Repr

/-- The request of `calls::SetSram` and `calls::SetRom` (`req.idx`, `req.buffer`, `req.reset`). -/
structure SetDataRequest where
  idx : InstanceIndex
  buffer : DataBufferPtr
  reset : Bool
  deriving DecidableEq, Repr

/-- The request of `calls::PressButtons`, a `ButtonStream<32>` (`presses.idx`,
`presses.presses`, `presses.pressCount`). -/
structure ButtonStream where
  idx : InstanceIndex
  presses : List Nat
  pressCount : Nat
  deriving DecidableEq, Repr

namespace AudioController

/-- The handler of `calls::SwapLuaContext` (AudioController.cpp, lines 9-23). -/
def onSwapLuaContext (ac : AudioController) (ctx : AudioLuaContextPtr) :
    Option (Outcome AudioLuaContextPtr) :=
  -- lines 10-13: std::string componentData; if (_lua) componentData = _lua->serializeInstances();
  let componentData : Blob :=
    match ac._lua with
    | some l => (ac.luas l).serializeInstances
    | none => []
  let calls1 : List Call :=
    match ac._lua with
    | some l => [Call.lua l LuaCall.serializeInstances]
    | none => []
  -- line 15: other = _lua;
  let other := ac._lua
  -- line 16: ctx->init(&_processingContext, _timeInfo, _sampleRate);
  match ctx with
  | none => none
  | some c =>
    let luas1 := Function.update ac.luas c ((ac.luas c).init ac._timeInfo ac._sampleRate)
    let calls2 := calls1 ++ [Call.lua c (LuaCall.init ac._timeInfo ac._sampleRate)]
    -- lines 18-20: if (!componentData.empty()) ctx->deserializeInstances(componentData);
    let luas2 :=
      if componentData ≠ [] then
        Function.update luas1 c ((luas1 c).deserializeInstances componentData)
      else luas1
    let calls3 :=
      if componentData ≠ [] then
        calls2 ++ [Call.lua c (LuaCall.deserializeInstances componentData)]
      else calls2
    -- line 22: _lua = ctx;
    some { state := { ac with _lua := some c, luas := luas2 }, response := other, calls := calls3 }

/-- The handler of `calls::SwapInstance` (AudioController.cpp, lines 25-28). -/
def onSwapInstance (MAX_INSTANCES : Nat) (ac : AudioController) (d : InstanceSwapDesc) :
    Option (Outcome SameBoyPlugPtr) :=
  -- line 26: _lua->addInstance(d.idx, d.instance);
  match ac._lua with
  | none => none
  | some l =>
    let luas1 := Function.update ac.luas l ((ac.luas l).addInstance d.idx d.inst)
    -- line 27: other = _processingContext.swapInstance(d.idx, d.instance);
    match ac._processingContext.swapInstance MAX_INSTANCES d.idx d.inst with
    | none => none
    | some (old, pc1) =>
      some { state := { ac with luas := luas1, _processingContext := pc1 }, response := old,
             calls := [Call.lua l (LuaCall.addInstance d.idx d.inst)] }

/-- The handler of `calls::DuplicateInstance` (AudioController.cpp, lines 30-33). -/
def onDuplicateInstance (MAX_INSTANCES : Nat) (ac : AudioController) (d : InstanceDuplicateDesc) :
    Option (Outcome SameBoyPlugPtr) :=
  -- line 31: other = _processingContext.duplicateInstance(d.sourceIdx, d.targetIdx, d.instance);
  match ac._processingContext.duplicateInstance MAX_INSTANCES ac.plugs d.sourceIdx d.targetIdx
      d.inst with
  | none => none
  | some (old, pc1, plugs1) =>
    -- line 32: _lua->duplicateInstance(d.sourceIdx, d.targetIdx, d.instance);
    match ac._lua with
    | none => none
    | some l =>
      let luas1 :=
        Function.update ac.luas l ((ac.luas l).duplicateInstance d.sourceIdx d.targetIdx d.inst)
      some { state := { ac with luas := luas1, _processingContext := pc1, plugs := plugs1 },
             response := old,
             calls := [Call.lua l (LuaCall.duplicateInstance d.sourceIdx d.targetIdx d.inst)] }

/-- The handler of `calls::ResetInstance` (AudioController.cpp, lines 35-37). -/
def onResetInstance (MAX_INSTANCES : Nat) (ac : AudioController) (d : ResetInstanceDesc) :
    Option (Outcome Unit) :=
  match ac._processingContext.resetInstance MAX_INSTANCES ac.plugs d.idx d.model with
  | none => none
  | some plugs1 => some { state := { ac with plugs := plugs1 }, response := (), calls := [] }

/-- The handler of `calls::TakeInstance` (AudioController.cpp, lines 39-42). -/
def onTakeInstance (MAX_INSTANCES : Nat) (ac : AudioController) (idx : InstanceIndex) :
    Option (Outcome SameBoyPlugPtr) :=
  -- line 40: _lua->removeInstance(idx);
  match ac._lua with
  | none => none
  | some l =>
    let luas1 := Function.update ac.luas l ((ac.luas l).removeInstance idx)
    -- line 41: other = _processingContext.removeInstance(idx);
    match ac._processingContext.removeInstance MAX_INSTANCES idx with
    | none => none
    | some (old, pc1) =>
      some { state := { ac with luas := luas1, _processingContext := pc1 }, response := old,
             calls := [Call.lua l (LuaCall.removeInstance idx)] }

/-- The handler of `calls::SetActive` (AudioController.cpp, lines 44-46). -/
def onSetActive (ac : AudioController) (idx : InstanceIndex) : Option (Outcome Unit) :=
  match ac._lua with
  | none => none
  | some l =>
    some { state := { ac with luas := Function.update ac.luas l ((ac.luas l).setActive idx) },
           response := (), calls := [Call.lua l (LuaCall.setActive idx)] }

/-- The handler of `calls::UpdateSettings` (AudioController.cpp, lines 48-50). -/
def onUpdateSettings (ac : AudioController) (settings : Project.Settings) : Option (Outcome Unit) :=
  some { state := { ac with _processingContext := ac._processingContext.setSettings settings },
         response := (), calls := [] }

/-- The loop of the `calls::FetchState` handler (AudioController.cpp, lines 53-57), over the
indices still to visit: for a populated slot `i` the entry `state.components[i]` is assigned
`_lua->serializeInstance(i)`. -/
def fetchComponents (MAX_INSTANCES : Nat) (ac : AudioController) :
    List InstanceIndex → (InstanceIndex → Blob) → List Call →
      Option ((InstanceIndex → Blob) × List Call)
  | [], components, calls => some (components, calls)
  | i :: rest, components, calls =>
    match ac._processingContext.getInstance MAX_INSTANCES i with
    | none => none
    | some none => fetchComponents MAX_INSTANCES ac rest components calls
    | some (some _) =>
      match ac._lua with
      | none => none
      | some l =>
        fetchComponents MAX_INSTANCES ac rest
          (Function.update components i ((ac.luas l).serializeInstance i))
          (calls ++ [Call.lua l (LuaCall.serializeInstance i)])

/-- The handler of `calls::FetchState` (AudioController.cpp, lines 52-60); `state` is the
response as the caller supplied it. -/
def onFetchState (MAX_INSTANCES : Nat) (ac : AudioController) (req : FetchStateRequest)
    (state : FetchStateResponse) : Option (Outcome FetchStateResponse) :=
  match fetchComponents MAX_INSTANCES ac (List.range MAX_INSTANCES) state.components [] with
  | none => none
  | some (components, calls) =>
    -- line 59: _processingContext.fetchState(req, state);
    some { state := ac,
           response := ac._processingContext.fetchState MAX_INSTANCES ac.plugs req
             { state with components := components },
           calls := calls }

/-- The handler of `calls::SetSram` (AudioController.cpp, lines 62-69). -/
def onSetSram (MAX_INSTANCES : Nat) (ac : AudioController) (req : SetDataRequest) :
    Option (Outcome DataBufferPtr) :=
  -- line 63: SameBoyPlugPtr inst = _processingContext.getInstance(req.idx);
  match ac._processingContext.getInstance MAX_INSTANCES req.idx with
  | none => none
  | some none => some { state := ac, response := req.buffer, calls := [] }
  | some (some p) =>
    -- line 65: inst->loadBattery(req.buffer->data(), req.buffer->size(), req.reset);
    match req.buffer with
    | none => none
    | some b =>
      some { state := { ac with plugs :=
                          Function.update ac.plugs p ((ac.plugs p).loadBattery b b.length req.reset) },
             response := req.buffer,
             calls := [Call.core p (CoreCall.loadBattery b b.length req.reset)] }

/-- The handler of `calls::SetRom` (AudioController.cpp, lines 71-81). -/
def onSetRom (MAX_INSTANCES : Nat) (ac : AudioController) (req : SetDataRequest) :
    Option (Outcome DataBufferPtr) :=
  -- line 72: SameBoyPlugPtr inst = _processingContext.getInstance(req.idx);
  match ac._processingContext.getInstance MAX_INSTANCES req.idx with
  | none => none
  | some none => some { state := ac, response := req.buffer, calls := [] }
  | some (some p) =>
    -- line 74: inst->setRomData(req.buffer.get());
    let plugs1 := Function.update ac.plugs p ((ac.plugs p).setRomData req.buffer)
    let calls1 := [Call.core p (CoreCall.setRomData req.buffer)]
    -- lines 75-77: if (req.reset) inst->reset(inst->getSettings().model, true);
    if req.reset then
      let model := (plugs1 p).getSettings.model
      some { state := { ac with plugs := Function.update plugs1 p ((plugs1 p).reset model true) },
             response := req.buffer,
             calls := calls1 ++ [Call.core p (CoreCall.reset model true)] }
    else
      some { state := { ac with plugs := plugs1 }, response := req.buffer, calls := calls1 }

/-- The handler of `calls::PressButtons` (AudioController.cpp, lines 83-88). -/
def onPressButtons (MAX_INSTANCES : Nat) (ac : AudioController) (presses : ButtonStream) :
    Option (Outcome Unit) :=
  match ac._processingContext.getInstance MAX_INSTANCES presses.idx with
  | none => none
  | some none => some { state := ac, response := (), calls := [] }
  | some (some p) =>
    -- line 86: instance->pressButtons(presses.presses.data(), presses.pressCount);
    some { state := ac, response := (),
           calls := [Call.core p (CoreCall.pressButtons presses.presses presses.pressCount)] }

/-- The handler of `calls::ContextMenuResult` (AudioController.cpp, lines 90-92). -/
def onContextMenuResult (ac : AudioController) (id : Int) : Option (Outcome Unit) :=
  match ac._lua with
  | none => none
  | some l =>
    some { state := { ac with luas := Function.update ac.luas l ((ac.luas l).onMenuResult id) },
           response := (), calls := [Call.lua l (LuaCall.onMenuResult id)] }

end AudioController

/-! ## The video ring buffer and its consumer -/

/-- Modelled from the spec: the video ring buffer `bus->video` (the class is missing): a
bounded single-producer, single-consumer byte queue.  `queued` holds the bytes written and not
yet read, oldest first; it never holds more than `capacity` bytes. -/
structure RingBuffer where
  capacity : Nat
  queued : List Nat
  deriving DecidableEq, Repr

namespace RingBuffer

/-- Modelled from the spec: `readAvailable`, the number of bytes queued for the consumer. -/
def readAvailable (rb : RingBuffer) : Nat := rb.queued.length

/-- Modelled from the spec: `write`.  The producer never blocks: the bytes are queued, and
when the buffer overflows the oldest bytes are overwritten. -/
def write (rb : RingBuffer) (data : List Nat) : RingBuffer :=
  { rb with queued := (rb.queued ++ data).drop ((rb.queued ++ data).length - rb.capacity) }

/-- Modelled from the spec: `advanceRead(count)`, the consumer skips `count` queued bytes. -/
def advanceRead (rb : RingBuffer) (count : Nat) : RingBuffer :=
  { rb with queued := rb.queued.drop count }

/-- Modelled from the spec: `read(target, count)`, the consumer moves the `count` oldest queued
bytes (or as many as there are) to the start of `target`.  Returns the buffer and `target`. -/
def read (rb : RingBuffer) (target : List Nat) (count : Nat) : RingBuffer × List Nat :=
  ({ rb with queued := rb.queued.drop count },
    rb.queued.take count ++ target.drop (rb.queued.take count).length)

/-- The producer writes the given frames one after the other, without a read in between. -/
def writeAll (rb : RingBuffer) (frames : List (List Nat)) : RingBuffer :=
  frames.foldl write rb

end RingBuffer

namespace EmulatorView

/-- The video read of `EmulatorView::Draw` (EmulatorView.cpp, lines 104-111), on the video ring
buffer and the scratch buffer `_videoScratch`; returns both.  `VIDEO_FRAME_SIZE` is a constant
whose declaration is missing. -/
def drawReadVideo (VIDEO_FRAME_SIZE : Nat) (video : RingBuffer) (_videoScratch : List Nat) :
    RingBuffer × List Nat :=
  -- line 104: size_t available = bus->video.readAvailable();
  let available := video.readAvailable
  if available > 0 then
    -- lines 107-109: skip to the latest frame
    let video1 :=
      if available > VIDEO_FRAME_SIZE then video.advanceRead (available - VIDEO_FRAME_SIZE)
      else video
    -- line 111: bus->video.read((char*)_videoScratch, VIDEO_FRAME_SIZE);
    video1.read _videoScratch VIDEO_FRAME_SIZE
  else (video, _videoScratch)

end EmulatorView

/-! ## The states the handlers can reach -/

/-- Modelled from the spec: the state in which the audio node starts (the constructors of
`AudioController` and `ProcessingContext` are missing): every slot is created empty and no
scripting layer has been installed yet. -/
def Initial (MAX_INSTANCES : Nat) (ac : AudioController) : Prop :=
  ac._lua = none ∧ ∀ i, i < MAX_INSTANCES → ac._processingContext.instances i = none

/-- One call handled to completion: `Step n ac ac1` when some handler registered by `setNode`,
run in state `ac` on some request, leaves the state `ac1`. -/
inductive Step (MAX_INSTANCES : Nat) (ac : AudioController) : AudioController → Prop where
  | swapLuaContext (ctx : AudioLuaContextPtr) (o : Outcome AudioLuaContextPtr)
      (h : AudioController.onSwapLuaContext ac ctx = some o) : Step MAX_INSTANCES ac o.state
  | swapInstance (d : InstanceSwapDesc) (o : Outcome SameBoyPlugPtr)
      (h : AudioController.onSwapInstance MAX_INSTANCES ac d = some o) :
      Step MAX_INSTANCES ac o.state
  | duplicateInstance (d : InstanceDuplicateDesc) (o : Outcome SameBoyPlugPtr)
      (h : AudioController.onDuplicateInstance MAX_INSTANCES ac d = some o) :
      Step MAX_INSTANCES ac o.state
  | resetInstance (d : ResetInstanceDesc) (o : Outcome Unit)
      (h : AudioController.onResetInstance MAX_INSTANCES ac d = some o) :
      Step MAX_INSTANCES ac o.state
  | takeInstance (idx : InstanceIndex) (o : Outcome SameBoyPlugPtr)
      (h : AudioController.onTakeInstance MAX_INSTANCES ac idx = some o) :
      Step MAX_INSTANCES ac o.state
  | setActive (idx : InstanceIndex) (o : Outcome Unit)
      (h : AudioController.onSetActive ac idx = some o) : Step MAX_INSTANCES ac o.state
  | updateSettings (settings : Project.Settings) (o : Outcome Unit)
      (h : AudioController.onUpdateSettings ac settings = some o) : Step MAX_INSTANCES ac o.state
  | fetchState (req : FetchStateRequest) (state : FetchStateResponse)
      (o : Outcome FetchStateResponse)
      (h : AudioController.onFetchState MAX_INSTANCES ac req state = some o) :
      Step MAX_INSTANCES ac o.state
  | setSram (req : SetDataRequest) (o : Outcome DataBufferPtr)
      (h : AudioController.onSetSram MAX_INSTANCES ac req = some o) :
      Step MAX_INSTANCES ac o.state
  | setRom (req : SetDataRequest) (o : Outcome DataBufferPtr)
      (h : AudioController.onSetRom MAX_INSTANCES ac req = some o) :
      Step MAX_INSTANCES ac o.state
  | pressButtons (presses : ButtonStream) (o : Outcome Unit)
      (h : AudioController.onPressButtons MAX_INSTANCES ac presses = some o) :
      Step MAX_INSTANCES ac o.state
  | contextMenuResult (id : Int) (o : Outcome Unit)
      (h : AudioController.onContextMenuResult ac id = some o) : Step MAX_INSTANCES ac o.state

/-- The states the controller can be in: those the handlers lead to from a start state.  Between
two calls nothing else changes the controller state. -/
inductive Reachable (MAX_INSTANCES : Nat) : AudioController → Prop where
  | initial (ac : AudioController) (h : Initial MAX_INSTANCES ac) : Reachable MAX_INSTANCES ac
  | step (ac ac1 : AudioController) (hr : Reachable MAX_INSTANCES ac)
      (hs : Step MAX_INSTANCES ac ac1) : Reachable MAX_INSTANCES ac1

/-- The scripting layer covers the processing context: a scripting layer is installed as soon as
one slot is populated, and it tracks every populated slot. -/
def Mirrors (MAX_INSTANCES : Nat) (ac : AudioController) : Prop :=
  ∀ i, i < MAX_INSTANCES → (ac._processingContext.instances i).isSome →
    ∃ l, ac._lua = some l ∧ (ac.luas l).tracked i

/-- The scripting layer `l` is in sync with the processing context: the instance indices it
tracks are exactly the populated slots. -/
def InSync (MAX_INSTANCES : Nat) (ac : AudioController) (l : LuaId) : Prop :=
  ∀ i, (ac.luas l).tracked i ↔ (i < MAX_INSTANCES ∧ (ac._processingContext.instances i).isSome)

/-! ## Concrete states -/

/-- A scripting layer that has not been initialised and tracks nothing. -/
def blankLua : AudioLuaContext :=
  { initialised := none, instances := [], active := 0, menuResults := [] }

/-- An emulation core in its default configuration. -/
def blankPlug : SameBoyPlug :=
  { settings := { model := GameboyModel.Auto, gameLink := false }, rom := none, battery := [] }

/-- Project settings, all at their first value. -/
def blankSettings : Project.Settings :=
  { audioRouting := 0, midiRouting := 0, layout := 0, zoom := 0, saveType := SaveStateType.Sram }

/-- The controller before any call was handled: no scripting layer, every slot empty. -/
def startState : AudioController :=
  { _lua := none,
    _processingContext := { instances := fun _ => none, settings := blankSettings },
    _timeInfo := 0, _sampleRate := 44100,
    luas := fun _ => blankLua, plugs := fun _ => blankPlug }

/-- The state in which a handler leaves the controller, or the state it started from when it
did not complete. -/
def stateAfter {ρ : Type} (ac : AudioController) (r : Option (Outcome ρ)) : AudioController :=
  match r with
  | some o => o.state
  | none => ac

/-- The start state after `SwapLuaContext` installed the scripting layer 0. -/
def installedState : AudioController :=
  stateAfter startState (AudioController.onSwapLuaContext startState (some 0))

/-- Then `SwapInstance{0, 7}` put the emulation core 7 into slot 0. -/
def runningState : AudioController :=
  stateAfter installedState
    (AudioController.onSwapInstance 2 installedState { idx := 0, inst := some 7 })

/-- Then `SwapInstance{1, 7}` put the same emulation core into slot 1. -/
def sharedState : AudioController :=
  stateAfter runningState
    (AudioController.onSwapInstance 2 runningState { idx := 1, inst := some 7 })

/-- A response of `calls::FetchState` as the caller supplies it: every entry empty. -/
def blankResponse : FetchStateResponse :=
  { srams := fun _ => none, states := fun _ => none, components := fun _ => [] }

/-! ## Setting up the message bus -/

/-- The call types named in the constructor of `RetroPlugController` and in
`AudioController::setNode` (`calls::...`). -/
inductive CallType where
  | LoadRom
  | SwapInstance
  | TakeInstance
  | DuplicateInstance
  | ResetInstance
  | TransmitVideo
  | UpdateSettings
  | PressButtons
  | FetchState
  | ContextMenuResult
  | SwapLuaContext
  | SetActive
  | SetSram
  | SetRom
  deriving DecidableEq, Repr

/-- The node types (`NodeTypes::Ui`, `NodeTypes::Audio`). -/
inductive NodeTypes where
  | Ui
  | Audio
  deriving DecidableEq, Repr

/-- One operation issued while the bus is set up, as written in the source: on the bus
(`addCall`, `createNode`, `start`), on a node (`onCall` for `on<T>`, registering the handler of
a call type;
`reserveChunks` on its allocator) or the hand-over of a node to a member whose `setNode` is
missing (`_proxy.setNode`, `_processingContext.setNode`). -/
inductive BusOp where
  | addCall (call : CallType) (capacity : Nat)
  | createNode (type : NodeTypes) (peers : List NodeTypes)
  | proxySetNode
  | reserveChunks (chunkSize count : Nat)
  | processingContextSetNode
  | onCall (node : NodeTypes) (call : CallType)
  | start
  deriving DecidableEq, Repr

namespace BusOp

/-- The operation is an `addCall`. -/
def isAddCall : BusOp → Bool
  | addCall _ _ => true
  | _ => false

/-- The operation is a `createNode`. -/
def isCreateNode : BusOp → Bool
  | createNode _ _ => true
  | _ => false

/-- The operation registers a handler (`node->on<T>`). -/
def isOn : BusOp → Bool
  | onCall _ _ => true
  | _ => false

/-- The operation is `start`. -/
def isStart : BusOp → Bool
  | start => true
  | _ => false

end BusOp

/-- The operations of `AudioController::setNode` (AudioController.cpp, lines 3-93), in program
order, for the node it is given: the reservation of line 5, the hand-over of line 7 and the
twelve handler registrations. -/
def AudioController.setNode (node : NodeTypes) : List BusOp :=
  [ BusOp.reserveChunks (160 * 144 * 4) 16,
    BusOp.processingContextSetNode,
    BusOp.onCall node CallType.SwapLuaContext,
    BusOp.onCall node CallType.SwapInstance,
    BusOp.onCall node CallType.DuplicateInstance,
    BusOp.onCall node CallType.ResetInstance,
    BusOp.onCall node CallType.TakeInstance,
    BusOp.onCall node CallType.SetActive,
    BusOp.onCall node CallType.UpdateSettings,
    BusOp.onCall node CallType.FetchState,
    BusOp.onCall node CallType.SetSram,
    BusOp.onCall node CallType.SetRom,
    BusOp.onCall node CallType.PressButtons,
    BusOp.onCall node CallType.ContextMenuResult ]

/-- The bus operations of the constructor of `RetroPlugController` (RetroPlugController.cpp,
lines 27-45), in program order.  In `x.setNode(_bus.createNode(...))` the node is created
before it is handed over. -/
def RetroPlugController.busOps : List BusOp :=
  [ BusOp.addCall CallType.LoadRom 4,
    BusOp.addCall CallType.SwapInstance 4,
    BusOp.addCall CallType.TakeInstance 4,
    BusOp.addCall CallType.DuplicateInstance 1,
    BusOp.addCall CallType.ResetInstance 4,
    BusOp.addCall CallType.TransmitVideo 16,
    BusOp.addCall CallType.UpdateSettings 4,
    BusOp.addCall CallType.PressButtons 32,
    BusOp.addCall CallType.FetchState 1,
    BusOp.addCall CallType.ContextMenuResult 1,
    BusOp.addCall CallType.SwapLuaContext 4,
    BusOp.addCall CallType.SetActive 4,
    BusOp.addCall CallType.SetSram 4,
    BusOp.addCall CallType.SetRom 4,
    BusOp.createNode NodeTypes.Ui [NodeTypes.Audio],
    BusOp.proxySetNode,
    BusOp.createNode NodeTypes.Audio [NodeTypes.Ui] ]
  ++ AudioController.setNode NodeTypes.Audio
  ++ [ BusOp.start ]

/-- Every operation of kind `p` is issued before every operation of kind `q`. -/
def Precedes (p q : BusOp → Bool) (ops : List BusOp) : Prop :=
  ∀ i, i < ops.length → ∀ j, j < ops.length →
    (ops.get? i).any p = true → (ops.get? j).any q = true → i < j

instance Precedes.decidable (p q : BusOp → Bool) (ops : List BusOp) :
    Decidable (Precedes p q ops) := by
  unfold Precedes; infer_instance

/-- The call types that `ops` registers with `addCall`, in program order. -/
def addedCalls (ops : List BusOp) : List CallType :=
  match ops with
  | [] => []
  | BusOp.addCall c _ :: rest => c :: addedCalls rest
  | _ :: rest => addedCalls rest

/-- The capacity the first `addCall` for `call` among `ops` registers, if there is one. -/
def capacityOf (ops : List BusOp) (call : CallType) : Option Nat :=
  match ops with
  | [] => none
  | BusOp.addCall c capacity :: rest => if c = call then some capacity else capacityOf rest call
  | _ :: rest => capacityOf rest call

/-- The call types of the handlers that `ops` registers on `node`, in program order. -/
def registeredOn (ops : List BusOp) (node : NodeTypes) : List CallType :=
  match ops with
  | [] => []
  | BusOp.onCall n c :: rest => if n = node then c :: registeredOn rest node else registeredOn rest node
  | _ :: rest => registeredOn rest node

/-- The call types for which `AudioController::setNode` registers a handler, in the order of
the source. -/
def audioCalls : List CallType :=
  [ CallType.SwapLuaContext, CallType.SwapInstance, CallType.DuplicateInstance,
    CallType.ResetInstance, CallType.TakeInstance, CallType.SetActive, CallType.UpdateSettings,
    CallType.FetchState, CallType.SetSram, CallType.SetRom, CallType.PressButtons,
    CallType.ContextMenuResult ]

/-! ## Call channels -/

/-- Modelled from the spec: a call channel (the message bus and its channels are missing from
the sources): the capacity fixed by `addCall` and the pending requests, oldest first. -/
structure CallChannel (α : Type) where
  capacity : Nat
  pending : List α
  deriving DecidableEq, Repr

namespace CallChannel

/-- Modelled from the spec: the channel `addCall<T>(capacity)` registers, empty. -/
def create (α : Type) (capacity : Nat) : CallChannel α :=
  { capacity := capacity, pending := [] }

/-- Modelled from the spec: `enqueue(request) -> accepted | rejected`.  The request is rejected
when the channel is at capacity, and queued behind the pending ones otherwise; `true` stands
for accepted. -/
def enqueue {α : Type} (ch : CallChannel α) (request : α) : Bool × CallChannel α :=
  if ch.pending.length < ch.capacity then
    (true, { ch with pending := ch.pending ++ [request] })
  else (false, ch)

/-- Enqueue the requests one after the other, without a drain in between; returns the answer
to each and the channel. -/
def enqueueAll {α : Type} (ch : CallChannel α) : List α → List Bool × CallChannel α
  | [] => ([], ch)
  | request :: rest =>
    (((ch.enqueue request).1 :: ((ch.enqueue request).2.enqueueAll rest).1),
      ((ch.enqueue request).2.enqueueAll rest).2)

/-- Modelled from the spec: `drain(handler)`.  The pending requests are popped in FIFO order and
the handler is invoked on each, threading the state `σ` of the draining thread. -/
def drain {α σ : Type} (ch : CallChannel α) (handler : σ → α → σ) (s : σ) : σ × CallChannel α :=
  (ch.pending.foldl handler s, { ch with pending := [] })

end CallChannel

/-- The audio thread drains the `PressButtons` channel: the handler of `calls::PressButtons` runs
on each pending stream, oldest first.  Returns the controller state and the operations invoked,
or `none` when a handler did not complete, and the drained channel. -/
def AudioController.drainPressButtons (MAX_INSTANCES : Nat) (ch : CallChannel ButtonStream)
    (ac : AudioController) : Option (AudioController × List Call) × CallChannel ButtonStream :=
  ch.drain
    (fun acc presses =>
      match acc with
      | none => none
      | some (ac1, calls) =>
        match AudioController.onPressButtons MAX_INSTANCES ac1 presses with
        | none => none
        | some o => some (o.state, calls ++ o.calls))
    (some (ac, []))

/-! ## The gamepad -/

namespace AxisButtons

/-- The number of axis buttons, `AxisButtons::COUNT` (RetroPlugController.cpp, lines 8-18):
two direction flags for each of the four stick axes. -/
def COUNT : Nat := 8

end AxisButtons

/-- The value of a `float`: not a number, an infinity or a rational. -/
inductive AxisValue where
  | nan
  | negInf
  | posInf
  | finite (value : ℚ)

/-- The constant `AXIS_BUTTON_THRESHOLD = 0.5f` (RetroPlugController.cpp, line 22). -/
def AXIS_BUTTON_THRESHOLD : ℚ := 1 / 2

namespace AxisValue

/-- The comparison `val < t` of a `float` with a finite `t`. -/
def lt (val : AxisValue) (t : ℚ) : Bool :=
  match val with
  | nan => false
  | negInf => true
  | posInf => false
  | finite value => decide (value < t)

/-- The comparison `val > t` of a `float` with a finite `t`. -/
def gt (val : AxisValue) (t : ℚ) : Bool :=
  match val with
  | nan => false
  | negInf => false
  | posInf => true
  | finite value => decide (value > t)

end AxisValue

/-- The state `processPad` works on: the flags `_padButtons`, and the calls
`_uiLua.onPadButton(button, down)` issued so far, in program order. -/
structure PadRun where
  _padButtons : Nat → Bool
  events : List (Nat × Bool)

/-- The statement pair `_padButtons[b] = down; _uiLua.onPadButton(b, down);`. -/
def PadRun.press (s : PadRun) (b : Nat) (down : Bool) : PadRun :=
  { _padButtons := Function.update s._padButtons b down, events := s.events ++ [(b, down)] }

namespace RetroPlugController

/-- The body of the axis loop of `processPad` for axis `i` (RetroPlugController.cpp, lines
111-145); `axis i` is the reading `_padManager->GetDevice(_padId)->GetFloat(i)`. -/
def axisStep (axis : Nat → AxisValue) (s : PadRun) (i : Nat) : PadRun :=
  let val := axis i
  let l := i * 2
  let r := i * 2 + 1
  if val.lt (-AXIS_BUTTON_THRESHOLD) = true then
    if s._padButtons l = false then
      let s1 := if s._padButtons r = true then s.press r false else s
      s1.press l true
    else s
  else if val.gt AXIS_BUTTON_THRESHOLD = true then
    if s._padButtons r = false then
      let s1 := if s._padButtons l = true then s.press l false else s
      s1.press r true
    else s
  else
    let s1 := if s._padButtons l = true then s.press l false else s
    if s1._padButtons r = true then s1.press r false else s1

/-- The axis loop of `processPad` (RetroPlugController.cpp, lines 110-146). -/
def axisLoop (axis : Nat → AxisValue) (s : PadRun) : PadRun :=
  (List.range (AxisButtons.COUNT / 2)).foldl (axisStep axis) s

/-- The button loop of `processPad` (RetroPlugController.cpp, lines 148-155); `button idx` is
the reading `GetBool(idx)`.  `PadButtonStart` and `PadButtonCount_` are constants of the
gamepad library. -/
def buttonLoop (PadButtonStart PadButtonCount_ : Nat) (button : Nat → Bool) (s : PadRun) :
    PadRun :=
  (List.range PadButtonCount_).foldl
    (fun s i =>
      let idx := PadButtonStart + i
      let down := button idx
      if s._padButtons idx ≠ down then s.press idx down else s)
    s

/-- The function `processPad` (RetroPlugController.cpp, lines 107-156) on the flags
`_padButtons`, for the device readings `axis` and `button` that `_padManager->Update()` made
current.  Returns the new flags and the `onPadButton` calls issued. -/
def processPad (PadButtonStart PadButtonCount_ : Nat) (axis : Nat → AxisValue)
    (button : Nat → Bool) (_padButtons : Nat → Bool) : PadRun :=
  buttonLoop PadButtonStart PadButtonCount_ button
    (axisLoop axis { _padButtons := _padButtons, events := [] })

/-- The flags `_padButtons` that can occur: all clear after the constructor
(`memset(_padButtons, 0, ...)`, line 47), then whatever `processPad` leaves. -/
inductive PadReachable (PadButtonStart PadButtonCount_ : Nat) : (Nat → Bool) → Prop where
  | clear : PadReachable PadButtonStart PadButtonCount_ (fun _ => false)
  | step (pad : Nat → Bool) (axis : Nat → AxisValue) (button : Nat → Bool)
      (h : PadReachable PadButtonStart PadButtonCount_ pad) :
      PadReachable PadButtonStart PadButtonCount_
        (processPad PadButtonStart PadButtonCount_ axis button pad)._padButtons

end RetroPlugController

/-- What one pass of the axis loop makes of the direction flags `(l, r)` of an axis that
reads `val`. -/
def axisTarget (val : AxisValue) (l r : Bool) : Bool × Bool :=
  if val.lt (-AXIS_BUTTON_THRESHOLD) = true then
    if l = false then (true, false) else (l, r)
  else if val.gt AXIS_BUTTON_THRESHOLD = true then
    if r = false then (false, true) else (l, r)
  else (false, false)

/-- The `onPadButton` calls one pass of the axis loop issues for axis `i` that reads `val`,
when its direction flags are `(l, r)`. -/
def axisEvents (val : AxisValue) (i : Nat) (l r : Bool) : List (Nat × Bool) :=
  if val.lt (-AXIS_BUTTON_THRESHOLD) = true then
    if l = false then (if r = true then [(i * 2 + 1, false)] else []) ++ [(i * 2, true)] else []
  else if val.gt AXIS_BUTTON_THRESHOLD = true then
    if r = false then (if l = true then [(i * 2, false)] else []) ++ [(i * 2 + 1, true)] else []
  else (if l = true then [(i * 2, false)] else []) ++ (if r = true then [(i * 2 + 1, false)] else [])

/-! ## Menus -/

/-- A menu item: `MenuItemBase` with its subclasses `Menu` (a sub-menu), `Action`, `Title`,
`Select`, `MultiSelect` and `Separator`, carrying what `Menu.cpp` reads through the getters
`getName`, `getItems`, `getFunction`, `isActive`, `getChecked` and `getValue`.  A callback
(`std::function`) is `none` when it is unset and `some f`, with `f` naming the callable, when it
is set.  A menu is handled through the list of its items; the name of the root menu is never
read. -/
inductive MenuItemBase where
  | subMenu (name : String) (items : List MenuItemBase)
  | action (name : String) (function : Option Nat) (active : Bool)
  | title (name : String)
  | select (name : String) (checked : Bool) (function : Option Nat) (active : Bool)
  | multiSelect (items : List String) (value : Int) (function : Option Nat) (active : Bool)
  | separator

/-- Modelled from the spec: `Menu::separator` is declared in `Menu.h`, which is not among the
sources; it appends a separator to the menu. -/
def Menu.separator (target : List MenuItemBase) : List MenuItemBase :=
  target ++ [MenuItemBase.separator]

/-- Modelled from the spec: `Menu::subMenu` is declared in `Menu.h`, which is not among the
sources; it appends a new, empty sub-menu of the given name and hands it back, here as the
position of the new item. -/
def Menu.subMenu (target : List MenuItemBase) (name : String) : List MenuItemBase :=
  target ++ [MenuItemBase.subMenu name []]

/-- Modelled from the spec: `Menu::action` is declared in `Menu.h`, which is not among the
sources; it appends a new active action. -/
def Menu.action (target : List MenuItemBase) (name : String) (function : Option Nat) :
    List MenuItemBase :=
  target ++ [MenuItemBase.action name function true]

/-- Modelled from the spec: `Menu::title` is declared in `Menu.h`, which is not among the
sources; it appends a new title. -/
def Menu.title (target : List MenuItemBase) (name : String) : List MenuItemBase :=
  target ++ [MenuItemBase.title name]

/-- Modelled from the spec: `Menu::select` is declared in `Menu.h`, which is not among the
sources; it appends a new active select item. -/
def Menu.select (target : List MenuItemBase) (name : String) (checked : Bool)
    (function : Option Nat) : List MenuItemBase :=
  target ++ [MenuItemBase.select name checked function true]

/-- Modelled from the spec: `Menu::multiSelect` is declared in `Menu.h`, which is not among the
sources; it appends a new active multi-select item. -/
def Menu.multiSelect (target : List MenuItemBase) (items : List String) (value : Int)
    (function : Option Nat) : List MenuItemBase :=
  target ++ [MenuItemBase.multiSelect items value function true]

/-- The function `findSubMenu` of `Menu.cpp`: the first item of `source` that is a sub-menu named
`name`, given by its position and its items, or `none` (the null pointer). -/
def findSubMenu : List MenuItemBase → String → Option (Nat × List MenuItemBase)
  | [], _ => none
  | MenuItemBase.subMenu n items :: rest, name =>
    if n = name then some (0, items)
    else (findSubMenu rest name).map (fun found => (found.1 + 1, found.2))
  | _ :: rest, name => (findSubMenu rest name).map (fun found => (found.1 + 1, found.2))

/-- The statement `if (!separated) { target->separator(); separated = true; }` of `mergeMenu`,
as far as the menu goes. -/
def Menu.separate (separated : Bool) (target : List MenuItemBase) : List MenuItemBase :=
  if separated then target else Menu.separator target

mutual
/-- The loop of `mergeMenu` over the items of the source that are still to come, from the current
value of `separated` and the current items of the target; the result is the target at the end. -/
def mergeMenuLoop : List MenuItemBase → Bool → List MenuItemBase → List MenuItemBase
  | [], _, target => target
  | itemBase :: rest, separated, target =>
    match mergeMenuItem itemBase separated target with
    | (separated1, target1) => mergeMenuLoop rest separated1 target1
/-- The body of the loop of `mergeMenu`: the `switch` on the type of one source item.  The call
`mergeMenu(item, targetMenu)` works on the sub-menu `targetMenu` points to, which is the item of
the target at the position found or just created. -/
def mergeMenuItem : MenuItemBase → Bool → List MenuItemBase → Bool × List MenuItemBase
  | MenuItemBase.subMenu name items, separated, target =>
    match findSubMenu target name with
    | some (i, targetItems) =>
      (separated, target.set i (MenuItemBase.subMenu name (mergeMenuLoop items false targetItems)))
    | none =>
      (true, (Menu.subMenu (Menu.separate separated target) name).set
        (Menu.separate separated target).length
        (MenuItemBase.subMenu name (mergeMenuLoop items false [])))
  | MenuItemBase.action name function _, separated, target =>
    (true, Menu.action (Menu.separate separated target) name function)
  | MenuItemBase.title name, separated, target =>
    (true, Menu.title (Menu.separate separated target) name)
  | MenuItemBase.select name checked function _, separated, target =>
    (true, Menu.select (Menu.separate separated target) name checked function)
  | MenuItemBase.multiSelect items value function _, separated, target =>
    (true, Menu.multiSelect (Menu.separate separated target) items value function)
  | MenuItemBase.separator, _, target => (true, Menu.separator target)
end

/-- The function `mergeMenu` of `Menu.cpp`, on the items of `source` and of `target`: the items of
`target` after the call.  The two menus are separate trees. -/
def mergeMenu (source target : List MenuItemBase) : List MenuItemBase :=
  mergeMenuLoop source false target

/-- Whether an item is a sub-menu named `n`. -/
def MenuItemBase.isSubMenuNamed (n : String) : MenuItemBase → Bool
  | MenuItemBase.subMenu m _ => decide (m = n)
  | _ => false

/-- The number of top-level sub-menus of a menu that are named `n`. -/
def subMenuCount (n : String) (menu : List MenuItemBase) : Nat :=
  menu.countP (MenuItemBase.isSubMenuNamed n)

/-- The item lists of the top-level sub-menus of a menu that are named `n`, in order. -/
def subMenusNamed (n : String) : List MenuItemBase → List (List MenuItemBase)
  | [] => []
  | MenuItemBase.subMenu m items :: rest =>
    if m = n then items :: subMenusNamed n rest else subMenusNamed n rest
  | _ :: rest => subMenusNamed n rest

/-- A source menu with two sub-menus named `a` and one named `b`. -/
def sourceMenu : List MenuItemBase :=
  [MenuItemBase.subMenu "a" [MenuItemBase.action "y" (some 1) true],
    MenuItemBase.subMenu "a" [MenuItemBase.title "t"], MenuItemBase.subMenu "b" []]

/-- A target menu with a title and two sub-menus named `a`. -/
def targetMenu : List MenuItemBase :=
  [MenuItemBase.title "top", MenuItemBase.subMenu "a" [MenuItemBase.action "x" none true],
    MenuItemBase.subMenu "a" []]

/-- A menu item without the items of the sub-menu it may be: the type of the item and what it
carries itself.  Two items with the same outline differ at most in what a sub-menu holds. -/
def MenuItemBase.outline : MenuItemBase → MenuItemBase
  | MenuItemBase.subMenu name _ => MenuItemBase.subMenu name []
  | item => item

/-- Whether a source item is a sub-menu whose name `findSubMenu` finds in `target`. -/
def MenuItemBase.isPresentSubMenu (target : List MenuItemBase) : MenuItemBase → Bool
  | MenuItemBase.subMenu name _ => (findSubMenu target name).isSome
  | _ => false

/-! ## Popup menus -/

/-- Modelled from the spec: the flags of an item of an `IPopupMenu`, a class of the iPlug library
that is not among the sources, as far as `createMenu` passes them. -/
inductive IPopupMenu.Flags where
  | kNoFlags
  | kDisabled
  | kTitle
  deriving DecidableEq, Repr

/-- Modelled from the spec: `IPopupMenu::Item` of the iPlug library, not among the sources: the
text, the flags, the check mark and the tag of a popup item.  The tag is `none` until `SetTag`
gives it a value. -/
structure IPopupMenu.Item where
  text : String
  flags : IPopupMenu.Flags
  checked : Bool
  tag : Option Nat
  deriving DecidableEq, Repr

/-- Modelled from the spec: `IPopupMenu::Item::SetTag`. -/
def IPopupMenu.Item.SetTag (item : IPopupMenu.Item) (tag : Nat) : IPopupMenu.Item :=
  { item with tag := some tag }

/-- Modelled from the spec: `IPopupMenu::Item::SetChecked`. -/
def IPopupMenu.Item.SetChecked (item : IPopupMenu.Item) (checked : Bool) : IPopupMenu.Item :=
  { item with checked := checked }

/-- What an `IPopupMenu` holds in one place: an item, a sub-menu with its text, or a separator.
A popup menu is handled through the list of its entries. -/
inductive IPopupMenu.Entry where
  | item (item : IPopupMenu.Item)
  | subMenu (text : String) (menu : List IPopupMenu.Entry)
  | separator

/-- Modelled from the spec: `IPopupMenu::AddItem(str, index, flags)` of the iPlug library appends
a new item, unchecked and without a tag, and hands it back; here the item is appended as the
calls `SetChecked` and `SetTag` that follow leave it. -/
def IPopupMenu.AddItem (target : List IPopupMenu.Entry) (item : IPopupMenu.Item) :
    List IPopupMenu.Entry :=
  target ++ [IPopupMenu.Entry.item item]

/-- Modelled from the spec: `IPopupMenu::AddItem(str, pSubmenu)` of the iPlug library appends an
entry that opens the sub-menu; here the sub-menu is given as `createMenu` fills it. -/
def IPopupMenu.AddSubMenu (target : List IPopupMenu.Entry) (text : String)
    (menu : List IPopupMenu.Entry) : List IPopupMenu.Entry :=
  target ++ [IPopupMenu.Entry.subMenu text menu]

/-- Modelled from the spec: `IPopupMenu::AddSeparator` of the iPlug library appends a
separator. -/
def IPopupMenu.AddSeparator (target : List IPopupMenu.Entry) : List IPopupMenu.Entry :=
  target ++ [IPopupMenu.Entry.separator]

/-- A callback that `createMenu` pushes onto `callbacks`, given by the lambda it is and by what
the lambda captures:
`[item]() { item->getFunction()(); }` for an action,
`[popupItem, item]() { item->getFunction()(!popupItem->GetChecked()); }` for a select item,
`[item, i]() { item->getFunction()(i); }` for the entry `i` of a multi-select item. -/
inductive MenuCallback where
  | action (item : MenuItemBase)
  | select (popupItem : IPopupMenu.Item) (item : MenuItemBase)
  | multiSelect (item : MenuItemBase) (i : Nat)

/-- The loop of the `MultiSelect` case of `createMenu`, from the index `i` over the names that
are still to come; `item` is the multi-select item, `value` its value and `function` its
function. -/
def createMultiSelect (item : MenuItemBase) (value : Int) (function : Option Nat) :
    Nat → List String → List IPopupMenu.Entry → List MenuCallback →
      List IPopupMenu.Entry × List MenuCallback
  | _, [], target, callbacks => (target, callbacks)
  | i, itemName :: names, target, callbacks =>
    if function.isSome then
      createMultiSelect item value function (i + 1) names
        (IPopupMenu.AddItem target
          ((({ text := itemName, flags := IPopupMenu.Flags.kNoFlags, checked := false,
               tag := none } : IPopupMenu.Item).SetChecked
            (decide ((i : Int) = value))).SetTag callbacks.length))
        (callbacks ++ [MenuCallback.multiSelect item i])
    else
      createMultiSelect item value function (i + 1) names
        (IPopupMenu.AddItem target
          (({ text := itemName, flags := IPopupMenu.Flags.kNoFlags, checked := false,
              tag := none } : IPopupMenu.Item).SetChecked (decide ((i : Int) = value))))
        callbacks

mutual
/-- The function `createMenu` of `Menu.cpp`, on the entries of `target`, the items of `source`
and the list `callbacks`: the entries of `target` and the list `callbacks` after the call. -/
def createMenu : List IPopupMenu.Entry → List MenuItemBase → List MenuCallback →
    List IPopupMenu.Entry × List MenuCallback
  | target, [], callbacks => (target, callbacks)
  | target, itemBase :: rest, callbacks =>
    match createMenuItem target itemBase callbacks with
    | (target1, callbacks1) => createMenu target1 rest callbacks1
/-- The body of the loop of `createMenu`: the `switch` on the type of one source item. -/
def createMenuItem : List IPopupMenu.Entry → MenuItemBase → List MenuCallback →
    List IPopupMenu.Entry × List MenuCallback
  | target, MenuItemBase.subMenu name items, callbacks =>
    match createMenu [] items callbacks with
    | (subMenu, callbacks1) => (IPopupMenu.AddSubMenu target name subMenu, callbacks1)
  | target, MenuItemBase.action name function active, callbacks =>
    if active && function.isSome then
      (IPopupMenu.AddItem target
        (({ text := name,
            flags := if active then IPopupMenu.Flags.kNoFlags else IPopupMenu.Flags.kDisabled,
            checked := false, tag := none } : IPopupMenu.Item).SetTag callbacks.length),
        callbacks ++ [MenuCallback.action (MenuItemBase.action name function active)])
    else
      (IPopupMenu.AddItem target
        { text := name,
          flags := if active then IPopupMenu.Flags.kNoFlags else IPopupMenu.Flags.kDisabled,
          checked := false, tag := none },
        callbacks)
  | target, MenuItemBase.title name, callbacks =>
    (IPopupMenu.AddItem target
      { text := name, flags := IPopupMenu.Flags.kTitle, checked := false, tag := none },
      callbacks)
  | target, MenuItemBase.select name checked function active, callbacks =>
    if function.isSome then
      (IPopupMenu.AddItem target
        ((({ text := name,
             flags := if active then IPopupMenu.Flags.kNoFlags else IPopupMenu.Flags.kDisabled,
             checked := false, tag := none } : IPopupMenu.Item).SetChecked checked).SetTag
          callbacks.length),
        callbacks ++ [MenuCallback.select
          ((({ text := name,
               flags := if active then IPopupMenu.Flags.kNoFlags else IPopupMenu.Flags.kDisabled,
               checked := false, tag := none } : IPopupMenu.Item).SetChecked checked).SetTag
            callbacks.length)
          (MenuItemBase.select name checked function active)])
    else
      (IPopupMenu.AddItem target
        (({ text := name,
            flags := if active then IPopupMenu.Flags.kNoFlags else IPopupMenu.Flags.kDisabled,
            checked := false, tag := none } : IPopupMenu.Item).SetChecked checked),
        callbacks)
  | target, MenuItemBase.multiSelect items value function active, callbacks =>
    createMultiSelect (MenuItemBase.multiSelect items value function active) value function 0
      items target callbacks
  | target, MenuItemBase.separator, callbacks => (IPopupMenu.AddSeparator target, callbacks)
end

mutual
/-- The items of a popup menu and of its sub-menus, in the order `createMenu` adds them. -/
def IPopupMenu.allItems : List IPopupMenu.Entry → List IPopupMenu.Item
  | [] => []
  | entry :: rest => IPopupMenu.Entry.allItems entry ++ IPopupMenu.allItems rest
/-- The items of one entry of a popup menu: the item itself, or the items of the sub-menu. -/
def IPopupMenu.Entry.allItems : IPopupMenu.Entry → List IPopupMenu.Item
  | IPopupMenu.Entry.item item => [item]
  | IPopupMenu.Entry.subMenu _ menu => IPopupMenu.allItems menu
  | IPopupMenu.Entry.separator => []
end

mutual
/-- The places of a menu and of its sub-menus for which `createMenu` adds a popup item, in the
order it visits them: an action, a title, a select item, and every entry `i` of a multi-select
item, given as the item with `i` (0 where the item has no entries). -/
def Menu.places : List MenuItemBase → List (MenuItemBase × Nat)
  | [] => []
  | itemBase :: rest => MenuItemBase.places itemBase ++ Menu.places rest
/-- The places of one menu item. -/
def MenuItemBase.places : MenuItemBase → List (MenuItemBase × Nat)
  | MenuItemBase.subMenu _ items => Menu.places items
  | MenuItemBase.action name function active => [(MenuItemBase.action name function active, 0)]
  | MenuItemBase.title name => [(MenuItemBase.title name, 0)]
  | MenuItemBase.select name checked function active =>
    [(MenuItemBase.select name checked function active, 0)]
  | MenuItemBase.multiSelect items value function active =>
    (List.range' 0 items.length).map
      (fun i => (MenuItemBase.multiSelect items value function active, i))
  | MenuItemBase.separator => []
end

/-- Whether the claim gives the popup item of a menu item a callback: an action when it is active
and has a function, a select or multi-select item when its function is set. -/
def MenuItemBase.hasCallback : MenuItemBase → Bool
  | MenuItemBase.action _ function active => active && function.isSome
  | MenuItemBase.select _ _ function _ => function.isSome
  | MenuItemBase.multiSelect _ _ function _ => function.isSome
  | _ => false

/-- The text of the popup item of a place: the name of the item, or the entry `i` of a
multi-select item. -/
def MenuItemBase.placeText : MenuItemBase × Nat → String
  | (MenuItemBase.subMenu name _, _) => name
  | (MenuItemBase.action name _ _, _) => name
  | (MenuItemBase.title name, _) => name
  | (MenuItemBase.select name _ _ _, _) => name
  | (MenuItemBase.multiSelect items _ _ _, i) => items.getD i ""
  | (MenuItemBase.separator, _) => ""

/-- The callback built from a place and its popup item. -/
def MenuCallback.of : MenuItemBase × Nat → IPopupMenu.Item → MenuCallback
  | (MenuItemBase.select name checked function active, _), popupItem =>
    MenuCallback.select popupItem (MenuItemBase.select name checked function active)
  | (MenuItemBase.multiSelect items value function active, i), _ =>
    MenuCallback.multiSelect (MenuItemBase.multiSelect items value function active) i
  | (item, _), _ => MenuCallback.action item

/-- A place of the source menu and the popup item added for it agree with `callbacks`: the popup
item shows the text of the place, it has a tag exactly when the place is to have a callback, and
`callbacks[t]` for its tag `t` is the callback built from the place and the popup item. -/
def TagAligned (callbacks : List MenuCallback) (place : MenuItemBase × Nat)
    (popupItem : IPopupMenu.Item) : Prop :=
  popupItem.text = MenuItemBase.placeText place ∧
  popupItem.tag.isSome = place.1.hasCallback ∧
  ∀ t, popupItem.tag = some t → callbacks.get? t = some (MenuCallback.of place popupItem)

/-- What `createMenu` is to do for the places `places` of a source: it appends entries to `target`
and callbacks to `callbacks`, the tags of the items added are, in order, the indices of the
callbacks appended, and place by place the items added agree with the callbacks. -/
def CreatesAligned (places : List (MenuItemBase × Nat)) (target : List IPopupMenu.Entry)
    (callbacks : List MenuCallback)
    (result : List IPopupMenu.Entry × List MenuCallback) : Prop :=
  ∃ created appended, result = (target ++ created, callbacks ++ appended) ∧
    (IPopupMenu.allItems created).filterMap (fun item => item.tag) =
      List.range' callbacks.length appended.length ∧
    List.Forall₂ (TagAligned (callbacks ++ appended)) places (IPopupMenu.allItems created)

/-- A source menu with an active action, a sub-menu holding a select item and an inactive action,
and a multi-select item with two entries; every one of them has a function. -/
def callbackMenu : List MenuItemBase :=
  [MenuItemBase.action "go" (some 5) true,
    MenuItemBase.subMenu "m"
      [MenuItemBase.select "s" true (some 6) false, MenuItemBase.action "off" (some 7) false],
    MenuItemBase.multiSelect ["x", "y"] 1 (some 8) true]

/-! ## Reading a kit -/

/-- Modelled from the spec: `lsdj_vio_t` is declared in `vio.h`, which is not among the sources;
it gives access to a stream through the callbacks `read`, `tell` and `seek`.  Here the stream is
a sequence of bytes, each a number below 256, with a current position. -/
structure lsdj_vio_t where
  data : List Nat
  position : Nat
  deriving DecidableEq, Repr

/-- Modelled from the spec: the callback `tell` answers the current position, as a `long` that is
taken to hold it. -/
def lsdj_vio_t.tell (vio : lsdj_vio_t) : Nat :=
  vio.position

/-- Modelled from the spec: the callback `read` hands over the next `size` bytes, or as many as
the stream still has, and moves the position past them. -/
def lsdj_vio_t.read (vio : lsdj_vio_t) (size : Nat) : List Nat × lsdj_vio_t :=
  ((vio.data.drop vio.position).take size,
    { vio with position := vio.position + ((vio.data.drop vio.position).take size).length })

/-- Modelled from the spec: the callback `seek` with `SEEK_SET` sets the position.  What the
callback does with an offset before the start of the stream is not modelled: the result is `none`
there. -/
def lsdj_vio_t.seek (vio : lsdj_vio_t) (offset : Int) : Option lsdj_vio_t :=
  if 0 ≤ offset then some { vio with position := offset.toNat } else none

/-- The largest value of the C type `int`, taken to have 32 bits. -/
def INT_MAX : Int := 2147483647

/-- The conversion of the `long` that `tell` returns to the `int` that `pos` is in
`lsdj_kit_read`: the value itself when it fits, and otherwise what the conversion to a 32-bit
two's-complement `int` gives, which is what the usual compilers do where C leaves the result to
the implementation. -/
def longToInt (value : Nat) : Int :=
  if value % 4294967296 ≤ 2147483647 then ((value % 4294967296 : Nat) : Int)
  else ((value % 4294967296 : Nat) : Int) - 4294967296

/-- The macro `KIT_NAME_OFFSET` of `kit.c`. -/
def KIT_NAME_OFFSET : Int := 0x52

/-- The macro `KIT_NAME_SIZE` of `kit.c`. -/
def KIT_NAME_SIZE : Nat := 6

/-- The macro `SAMPLE_NAME_OFFSET` of `kit.c`. -/
def SAMPLE_NAME_OFFSET : Int := 0x22

/-- A pointer to a sample, `lsdj_sample_t*`: `none` is the null pointer, `some s` points to the
sample `s`.  The type `lsdj_sample_t` is declared in `sample.h`, which is not among the sources;
a sample is given by a number. -/
abbrev lsdj_sample_ptr := Option Nat

/-- What `*error` holds: `none` for no error, or an error, given by its message. -/
abbrev lsdj_error_ptr := Option String

/-- The type `lsdj_resource_offset_t`, declared outside the sources: the two offsets that
`lsdj_kit_read` writes as `{ pos + SAMPLE_NAME_OFFSET, pos }`, with the values these `int`
expressions have. -/
abbrev lsdj_resource_offset_t := Int × Int

/-- What a call of `lsdj_sample_read` leaves: the pointer it returns, the stream and `*error`. -/
structure SampleRead where
  sample : lsdj_sample_ptr
  vio : lsdj_vio_t
  error : lsdj_error_ptr
  deriving DecidableEq, Repr

/-- The struct `lsdj_kit_t` of `kit.c`. -/
structure lsdj_kit_t where
  name : List Nat
  samples : List lsdj_sample_ptr
  deriving DecidableEq, Repr

/-- The kit under construction, the stream and `*error` during the loop of `lsdj_kit_read`. -/
structure KitRead where
  kit : lsdj_kit_t
  vio : lsdj_vio_t
  error : lsdj_error_ptr
  deriving DecidableEq, Repr

/-- What a call of `lsdj_kit_read` leaves: the pointer it returns (`none` for `NULL`), the stream
and `*error`. -/
structure KitReadResult where
  kit : Option lsdj_kit_t
  vio : lsdj_vio_t
  error : lsdj_error_ptr
  deriving DecidableEq, Repr

/-- The body of the loop of `lsdj_kit_read` for the index `i`:
`kit->samples[i] = lsdj_sample_read(vio, offset, i, error)`.  The function `lsdj_sample_read` is
defined outside the sources and is a parameter. -/
def lsdj_kit_read.sample
    (lsdj_sample_read : lsdj_vio_t → lsdj_resource_offset_t → Nat → lsdj_error_ptr → SampleRead)
    (offset : lsdj_resource_offset_t) (s : KitRead) (i : Nat) : KitRead :=
  { kit :=
      { name := s.kit.name,
        samples := s.kit.samples.set i (lsdj_sample_read s.vio offset i s.error).sample },
    vio := (lsdj_sample_read s.vio offset i s.error).vio,
    error := (lsdj_sample_read s.vio offset i s.error).error }

/-- The kit of `lsdj_kit_read` when the loop starts, with `vio` the stream after the `seek` to
`pos + KIT_NAME_OFFSET`: `malloc` is taken to succeed, `memset` fills the kit with zeros, and the
callback `read` overwrites `name` as far as it gets bytes.  `KIT_SAMPLE_COUNT` is defined in
`kit.h`, which is not among the sources, and is a parameter. -/
def lsdj_kit_read.named (KIT_SAMPLE_COUNT : Nat) (vio : lsdj_vio_t) (error : lsdj_error_ptr) :
    KitRead :=
  { kit :=
      { name := (vio.read KIT_NAME_SIZE).1 ++
          (List.replicate KIT_NAME_SIZE 0).drop (vio.read KIT_NAME_SIZE).1.length,
        samples := List.replicate KIT_SAMPLE_COUNT none },
    vio := (vio.read KIT_NAME_SIZE).2,
    error := error }

/-- The function `lsdj_kit_read` of `kit.c`, with `pos` the `int` that line 21 makes of the
position `tell` answers.  The result is `none` where the behaviour is not defined or not modelled:
when the stream has fewer than two bytes left, so that the test reads bytes of `bank_id` that
were never written; when `pos + KIT_NAME_OFFSET` overflows the type `int`; and when `seek` is
given an offset before the start of the stream. -/
def lsdj_kit_read (KIT_SAMPLE_COUNT : Nat)
    (lsdj_sample_read : lsdj_vio_t → lsdj_resource_offset_t → Nat → lsdj_error_ptr → SampleRead)
    (vio : lsdj_vio_t) (error : lsdj_error_ptr) : Option KitReadResult :=
  match vio.read 2 with
  | ([b0, b1], vio1) =>
    if b0 ≠ 0x60 ∨ b1 ≠ 0x40 then
      some { kit := none, vio := vio1, error := error }
    else if INT_MAX < longToInt vio.tell + KIT_NAME_OFFSET then
      none
    else
      match vio1.seek (longToInt vio.tell + KIT_NAME_OFFSET) with
      | none => none
      | some vio2 =>
        some
          { kit := some ((List.range KIT_SAMPLE_COUNT).foldl
              (lsdj_kit_read.sample lsdj_sample_read
                (longToInt vio.tell + SAMPLE_NAME_OFFSET, longToInt vio.tell))
              (lsdj_kit_read.named KIT_SAMPLE_COUNT vio2 error)).kit,
            vio := ((List.range KIT_SAMPLE_COUNT).foldl
              (lsdj_kit_read.sample lsdj_sample_read
                (longToInt vio.tell + SAMPLE_NAME_OFFSET, longToInt vio.tell))
              (lsdj_kit_read.named KIT_SAMPLE_COUNT vio2 error)).vio,
            error := ((List.range KIT_SAMPLE_COUNT).foldl
              (lsdj_kit_read.sample lsdj_sample_read
                (longToInt vio.tell + SAMPLE_NAME_OFFSET, longToInt vio.tell))
              (lsdj_kit_read.named KIT_SAMPLE_COUNT vio2 error)).error }
  | _ => none

/-- The function `lsdj_kit_get_sample` of `kit.c`: `kit->samples[idx]`, or `none` for an index
outside the array. -/
def lsdj_kit_get_sample (kit : lsdj_kit_t) (idx : Nat) : Option lsdj_sample_ptr :=
  kit.samples.get? idx

/-- The function `lsdj_kit_get_name` of `kit.c`. -/
def lsdj_kit_get_name (kit : lsdj_kit_t) : List Nat :=
  kit.name

/-- The stream and `*error` in which `lsdj_kit_read` makes the call of `lsdj_sample_read` for the
index `i`, when the loop starts with `vio` and `error`: the calls for the indices below `i` were
made before, in their order, each on what the call before it left. -/
def sampleReadState
    (lsdj_sample_read : lsdj_vio_t → lsdj_resource_offset_t → Nat → lsdj_error_ptr → SampleRead)
    (offset : lsdj_resource_offset_t) (vio : lsdj_vio_t) (error : lsdj_error_ptr) :
    Nat → lsdj_vio_t × lsdj_error_ptr
  | 0 => (vio, error)
  | i + 1 =>
    ((lsdj_sample_read (sampleReadState lsdj_sample_read offset vio error i).1 offset i
        (sampleReadState lsdj_sample_read offset vio error i).2).vio,
     (lsdj_sample_read (sampleReadState lsdj_sample_read offset vio error i).1 offset i
        (sampleReadState lsdj_sample_read offset vio error i).2).error)

/-- A stream of 88 bytes that starts with the two bytes of a kit bank and ends with the name
`1 2 3 4 5 6`, read from its start. -/
def kitStream : lsdj_vio_t :=
  { data := [0x60, 0x40] ++ List.replicate 80 0 ++ [1, 2, 3, 4, 5, 6], position := 0 }

/-- A stand-in for `lsdj_sample_read`: it returns the sample numbered by the index, moves the
stream by one byte and leaves `*error` as it is. -/
def indexSample (vio : lsdj_vio_t) (_offset : lsdj_resource_offset_t) (i : Nat)
    (error : lsdj_error_ptr) : SampleRead :=
  { sample := some i, vio := { vio with position := vio.position + 1 }, error := error }

/-- A stream whose current position is 2^32, where it holds the two bytes of a kit bank; all
bytes before them are 0. -/
def farStream : lsdj_vio_t :=
  { data := List.replicate 4294967296 0 ++ [0x60, 0x40], position := 4294967296 }

/-- A stand-in for `lsdj_sample_read` that shows the offset it is given: it returns the sample
numbered by the first offset and leaves the stream and `*error` as they are. -/
def offsetSample (vio : lsdj_vio_t) (offset : lsdj_resource_offset_t) (_i : Nat)
    (error : lsdj_error_ptr) : SampleRead :=
  { sample := some offset.1.toNat, vio := vio, error := error }

/-! ## Theorems -/

open AudioController

/-! ### The scripting layer -/

/-- Removing an instance from the scripting layer twice is the same as removing it once. -/
theorem AudioLuaContext.removeInstance_idem (l : AudioLuaContext) (idx : InstanceIndex) :
    (l.removeInstance idx).removeInstance idx = l.removeInstance idx := by
  simp [AudioLuaContext.removeInstance, List.filter_filter]

/-- The blob of a tracked instance is not empty. -/
theorem AudioLuaContext.serializeInstance_ne_nil (l : AudioLuaContext) (idx : InstanceIndex)
    (ht : l.tracked idx) : l.serializeInstance idx ≠ [] := by
  obtain ⟨e, he, hei⟩ := ht
  intro hnil
  have hmem : e ∈ l.serializeInstance idx := by
    simp [AudioLuaContext.serializeInstance, he, hei]
  rw [hnil] at hmem
  cases hmem

/-! ### The handlers -/

/-- What `SwapLuaContext(c)` leaves when a layer `l` was installed: `c` is installed, the slots
are untouched and `c` holds the records `l` held. -/
theorem onSwapLuaContext_records (ac : AudioController) (l c : LuaId)
    (o : Outcome AudioLuaContextPtr)
    (hlua : ac._lua = some l) (ho : onSwapLuaContext ac (some c) = some o) :
    o.state._lua = some c ∧ o.state._processingContext = ac._processingContext ∧
      (o.state.luas c).instances = (ac.luas l).instances := by
  simp only [onSwapLuaContext, hlua, Option.some.injEq] at ho
  subst ho
  refine ⟨rfl, rfl, ?_⟩
  by_cases hb : (ac.luas l).instances = []
  · simp [AudioLuaContext.serializeInstances, hb, AudioLuaContext.init]
  · simp [AudioLuaContext.serializeInstances, hb, AudioLuaContext.deserializeInstances]

/-- The handlers that use the scripting layer fail in every state without one, whatever the
request. -/
theorem handlers_need_layer (MAX_INSTANCES : Nat) (ac : AudioController) (hlua : ac._lua = none)
    (swap : InstanceSwapDesc) (dup : InstanceDuplicateDesc) (idx : InstanceIndex) (id : Int) :
    onSwapInstance MAX_INSTANCES ac swap = none ∧
    onDuplicateInstance MAX_INSTANCES ac dup = none ∧
    onTakeInstance MAX_INSTANCES ac idx = none ∧
    onSetActive ac idx = none ∧
    onContextMenuResult ac id = none := by
  refine ⟨by simp [onSwapInstance, hlua], ?_, by simp [onTakeInstance, hlua],
    by simp [onSetActive, hlua], by simp [onContextMenuResult, hlua]⟩
  unfold onDuplicateInstance
  cases ac._processingContext.duplicateInstance MAX_INSTANCES ac.plugs dup.sourceIdx
    dup.targetIdx dup.inst with
  | none => rfl
  | some r => simp [hlua]

/-- With a scripting layer installed, `TakeInstance(idx)` on an empty slot `idx < MAX_INSTANCES`
answers the empty pointer and leaves the slot empty, and handling it a second time gives the
same response and the same state. -/
theorem takeInstance_empty_slot_idempotent (MAX_INSTANCES : Nat) (ac : AudioController)
    (l : LuaId) (idx : InstanceIndex)
    (hlua : ac._lua = some l) (hidx : idx < MAX_INSTANCES)
    (hempty : ac._processingContext.instances idx = none) :
    ∃ o1 o2 : Outcome SameBoyPlugPtr,
      onTakeInstance MAX_INSTANCES ac idx = some o1 ∧
      o1.response = none ∧
      o1.state._processingContext.instances idx = none ∧
      onTakeInstance MAX_INSTANCES o1.state idx = some o2 ∧
      o2.response = o1.response ∧ o2.state = o1.state := by
  simp [onTakeInstance, ProcessingContext.removeInstance, hlua, hidx, hempty,
    AudioLuaContext.removeInstance_idem]

/-- The loop of the `FetchState` handler, with a scripting layer `l` installed and over indices
inside the table: it completes, and an entry is overwritten with `serializeInstance` exactly at
the visited indices whose slot is populated. -/
theorem fetchComponents_spec (MAX_INSTANCES : Nat) (ac : AudioController) (l : LuaId)
    (hlua : ac._lua = some l) :
    ∀ (todo : List InstanceIndex) (components : InstanceIndex → Blob) (calls : List Call),
      (∀ i ∈ todo, i < MAX_INSTANCES) →
      ∃ components1 calls1,
        fetchComponents MAX_INSTANCES ac todo components calls = some (components1, calls1) ∧
        ∀ j, components1 j =
          if j ∈ todo ∧ (ac._processingContext.instances j).isSome then
            (ac.luas l).serializeInstance j
          else components j := by
  intro todo
  induction todo with
  | nil => intro components calls _; exact ⟨components, calls, rfl, by simp⟩
  | cons i rest ih =>
    intro components calls hin
    have hi : i < MAX_INSTANCES := hin i (List.mem_cons_self i rest)
    have hrest : ∀ k ∈ rest, k < MAX_INSTANCES := fun k hk => hin k (List.mem_cons_of_mem i hk)
    cases hslot : ac._processingContext.instances i with
    | none =>
      obtain ⟨c1, k1, hrun, hval⟩ := ih components calls hrest
      refine ⟨c1, k1, ?_, ?_⟩
      · simpa [fetchComponents, ProcessingContext.getInstance, hi, hslot] using hrun
      · intro j
        rw [hval j]
        by_cases hj : j = i
        · subst hj; simp [hslot]
        · simp [hj]
    | some p =>
      obtain ⟨c1, k1, hrun, hval⟩ :=
        ih (Function.update components i ((ac.luas l).serializeInstance i))
          (calls ++ [Call.lua l (LuaCall.serializeInstance i)]) hrest
      refine ⟨c1, k1, ?_, ?_⟩
      · simpa [fetchComponents, ProcessingContext.getInstance, hi, hslot, hlua] using hrun
      · intro j
        rw [hval j]
        by_cases hj : j = i
        · subst hj; simp [hslot]
        · simp [hj, Function.update_noteq hj]

/-- The loop of the `FetchState` handler over empty slots completes and writes nothing, with or
without a scripting layer. -/
theorem fetchComponents_of_empty (MAX_INSTANCES : Nat) (ac : AudioController) :
    ∀ (todo : List InstanceIndex) (components : InstanceIndex → Blob) (calls : List Call),
      (∀ i ∈ todo, i < MAX_INSTANCES ∧ ac._processingContext.instances i = none) →
      fetchComponents MAX_INSTANCES ac todo components calls = some (components, calls) := by
  intro todo
  induction todo with
  | nil => intro components calls _; rfl
  | cons i rest ih =>
    intro components calls hin
    obtain ⟨hi, hslot⟩ := hin i (List.mem_cons_self i rest)
    simpa [fetchComponents, ProcessingContext.getInstance, hi, hslot] using
      ih components calls (fun k hk => hin k (List.mem_cons_of_mem i hk))

/-- `FetchState` in any state with a scripting layer `l` installed, on a response whose component
entries start empty: it completes, the entry of a populated slot `i` is `serializeInstance(i)`,
the entry of an empty slot stays empty.  When no populated slot has an empty blob, the
non-empty entries are as many as the populated slots. -/
theorem onFetchState_with_layer (MAX_INSTANCES : Nat) (ac : AudioController)
    (l : LuaId) (req : FetchStateRequest) (state : FetchStateResponse)
    (hlua : ac._lua = some l)
    (hstart : ∀ i, i < MAX_INSTANCES → state.components i = []) :
    ∃ o : Outcome FetchStateResponse,
      onFetchState MAX_INSTANCES ac req state = some o ∧
      o.state = ac ∧
      (∀ i, i < MAX_INSTANCES →
        o.response.components i =
          if (ac._processingContext.instances i).isSome then (ac.luas l).serializeInstance i
          else []) ∧
      ((∀ i, i < MAX_INSTANCES → (ac._processingContext.instances i).isSome →
          (ac.luas l).serializeInstance i ≠ []) →
        (List.range MAX_INSTANCES).countP (fun i => o.response.components i ≠ []) =
          ac._processingContext.populated MAX_INSTANCES) := by
  obtain ⟨c1, k1, hrun, hval⟩ :=
    fetchComponents_spec MAX_INSTANCES ac l hlua (List.range MAX_INSTANCES) state.components []
      (fun i hi => List.mem_range.mp hi)
  have hentry : ∀ i, i < MAX_INSTANCES →
      c1 i = if (ac._processingContext.instances i).isSome then (ac.luas l).serializeInstance i
        else [] := by
    intro i hi
    rw [hval i]
    by_cases hp : (ac._processingContext.instances i).isSome
    · simp [hp, hi]
    · simp [hp, hstart i hi]
  refine ⟨{ state := ac,
            response := ac._processingContext.fetchState MAX_INSTANCES ac.plugs req
              { state with components := c1 },
            calls := k1 }, by simp only [onFetchState, hrun], rfl, ?_, ?_⟩
  · intro i hi
    simpa [ProcessingContext.fetchState] using hentry i hi
  · intro hne
    unfold ProcessingContext.populated
    apply List.countP_congr
    intro i hi
    have hi1 : i < MAX_INSTANCES := List.mem_range.mp hi
    have h := hentry i hi1
    by_cases hp : (ac._processingContext.instances i).isSome
    · have := hne i hi1 hp
      simp [ProcessingContext.fetchState, h, hp, this]
    · simp [ProcessingContext.fetchState, h, hp]

/-! ### The scripting layer covers the processing context -/

/-- A state that differs from one the layer covers neither in `_lua`, nor in the slots, nor in
the records of the installed layer, is covered too. -/
theorem Mirrors.of_same (MAX_INSTANCES : Nat) (ac ac1 : AudioController)
    (hm : Mirrors MAX_INSTANCES ac) (hlua : ac1._lua = ac._lua)
    (hslots : ac1._processingContext.instances = ac._processingContext.instances)
    (hrec : ∀ l, ac._lua = some l → (ac1.luas l).instances = (ac.luas l).instances) :
    Mirrors MAX_INSTANCES ac1 := by
  intro i hi hp
  rw [hslots] at hp
  obtain ⟨l, hl, ht⟩ := hm i hi hp
  exact ⟨l, by rw [hlua, hl], by simpa [AudioLuaContext.tracked, hrec l hl] using ht⟩

/-- Every handler keeps the scripting layer covering the processing context. -/
theorem Mirrors.preserved (MAX_INSTANCES : Nat) (ac ac1 : AudioController)
    (hm : Mirrors MAX_INSTANCES ac) (hs : Step MAX_INSTANCES ac ac1) :
    Mirrors MAX_INSTANCES ac1 := by
  cases hs with
  | swapLuaContext ctx o h =>
    cases ctx with
    | none => simp [onSwapLuaContext] at h
    | some c =>
      intro i hi hp
      cases hlua : ac._lua with
      | none =>
        have hsl : o.state._processingContext = ac._processingContext := by
          simp only [onSwapLuaContext, hlua, Option.some.injEq] at h
          subst h; rfl
        rw [hsl] at hp
        obtain ⟨l, hl, _⟩ := hm i hi hp
        rw [hlua] at hl; cases hl
      | some l =>
        obtain ⟨h1, h2, h3⟩ := onSwapLuaContext_records ac l c o hlua h
        rw [h2] at hp
        obtain ⟨l1, hl1, ht⟩ := hm i hi hp
        rw [hlua] at hl1; cases hl1
        exact ⟨c, h1, by simpa [AudioLuaContext.tracked, h3] using ht⟩
  | swapInstance d o h =>
    cases hlua : ac._lua with
    | none => simp [onSwapInstance, hlua] at h
    | some l =>
      by_cases hidx : d.idx < MAX_INSTANCES
      · simp only [onSwapInstance, hlua, ProcessingContext.swapInstance, hidx, if_true,
          Option.some.injEq] at h
        subst h
        intro i hi hp
        refine ⟨l, rfl, ?_⟩
        by_cases hid : i = d.idx
        · subst hid
          simp [AudioLuaContext.tracked, AudioLuaContext.addInstance]
        · simp only [Function.update_noteq hid] at hp
          obtain ⟨l1, hl1, ht⟩ := hm i hi hp
          rw [hlua] at hl1; cases hl1
          obtain ⟨e, he, hei⟩ := ht
          refine ⟨e, ?_, hei⟩
          simp [AudioLuaContext.addInstance, he, hei, hid]
      · simp [onSwapInstance, hlua, ProcessingContext.swapInstance, hidx] at h
  | duplicateInstance d o h =>
    cases hlua : ac._lua with
    | none =>
      unfold onDuplicateInstance at h
      cases hd : ac._processingContext.duplicateInstance MAX_INSTANCES ac.plugs d.sourceIdx
        d.targetIdx d.inst with
      | none => simp [hd] at h
      | some r => simp [hd, hlua] at h
    | some l =>
      by_cases hidx : d.sourceIdx < MAX_INSTANCES ∧ d.targetIdx < MAX_INSTANCES
      · simp only [onDuplicateInstance, hlua, ProcessingContext.duplicateInstance, hidx.1,
          hidx.2, and_self, if_true, Option.some.injEq] at h
        subst h
        intro i hi hp
        refine ⟨l, rfl, ?_⟩
        by_cases hid : i = d.targetIdx
        · subst hid
          simp [AudioLuaContext.tracked, AudioLuaContext.duplicateInstance]
        · simp only [Function.update_noteq hid] at hp
          obtain ⟨l1, hl1, ht⟩ := hm i hi hp
          rw [hlua] at hl1; cases hl1
          obtain ⟨e, he, hei⟩ := ht
          refine ⟨e, ?_, hei⟩
          simp [AudioLuaContext.duplicateInstance, he, hei, hid]
      · simp [onDuplicateInstance, hlua, ProcessingContext.duplicateInstance, hidx] at h
  | resetInstance d o h =>
    unfold onResetInstance at h
    cases hr : ac._processingContext.resetInstance MAX_INSTANCES ac.plugs d.idx d.model with
    | none => simp [hr] at h
    | some plugs1 =>
      simp only [hr, Option.some.injEq] at h
      subst h
      exact Mirrors.of_same MAX_INSTANCES ac _ hm rfl rfl (fun _ _ => rfl)
  | takeInstance idx o h =>
    cases hlua : ac._lua with
    | none => simp [onTakeInstance, hlua] at h
    | some l =>
      by_cases hidx : idx < MAX_INSTANCES
      · simp only [onTakeInstance, hlua, ProcessingContext.removeInstance, hidx, if_true,
          Option.some.injEq] at h
        subst h
        intro i hi hp
        refine ⟨l, rfl, ?_⟩
        by_cases hid : i = idx
        · subst hid
          simp at hp
        · simp only [Function.update_noteq hid] at hp
          obtain ⟨l1, hl1, ht⟩ := hm i hi hp
          rw [hlua] at hl1; cases hl1
          obtain ⟨e, he, hei⟩ := ht
          refine ⟨e, ?_, hei⟩
          simp [AudioLuaContext.removeInstance, he, hei, hid]
      · simp [onTakeInstance, hlua, ProcessingContext.removeInstance, hidx] at h
  | setActive idx o h =>
    cases hlua : ac._lua with
    | none => simp [onSetActive, hlua] at h
    | some l =>
      simp only [onSetActive, hlua, Option.some.injEq] at h
      subst h
      refine Mirrors.of_same MAX_INSTANCES ac _ hm hlua.symm rfl
        (fun l1 hl1 => ?_)
      rw [hlua] at hl1; cases hl1
      simp [AudioLuaContext.setActive]
  | updateSettings settings o h =>
    simp only [onUpdateSettings, Option.some.injEq] at h
    subst h
    exact Mirrors.of_same MAX_INSTANCES ac _ hm rfl rfl (fun _ _ => rfl)
  | fetchState req state o h =>
    unfold onFetchState at h
    cases hf : fetchComponents MAX_INSTANCES ac (List.range MAX_INSTANCES) state.components []
      with
    | none => simp [hf] at h
    | some r =>
      simp only [hf, Option.some.injEq] at h
      subst h
      exact hm
  | setSram req o h =>
    unfold onSetSram at h
    cases hg : ac._processingContext.getInstance MAX_INSTANCES req.idx with
    | none => simp [hg] at h
    | some inst =>
      cases inst with
      | none =>
        simp only [hg, Option.some.injEq] at h
        subst h
        exact hm
      | some p =>
        cases hb : req.buffer with
        | none => simp [hg, hb] at h
        | some b =>
          simp only [hg, hb, Option.some.injEq] at h
          subst h
          exact Mirrors.of_same MAX_INSTANCES ac _ hm rfl rfl (fun _ _ => rfl)
  | setRom req o h =>
    unfold onSetRom at h
    cases hg : ac._processingContext.getInstance MAX_INSTANCES req.idx with
    | none => simp [hg] at h
    | some inst =>
      cases inst with
      | none =>
        simp only [hg, Option.some.injEq] at h
        subst h
        exact hm
      | some p =>
        cases hreset : req.reset with
        | false =>
          simp only [hg, hreset, Bool.false_eq_true, ↓reduceIte, Option.some.injEq] at h
          subst h
          exact Mirrors.of_same MAX_INSTANCES ac _ hm rfl rfl (fun _ _ => rfl)
        | true =>
          simp only [hg, hreset, Bool.false_eq_true, ↓reduceIte, Option.some.injEq] at h
          subst h
          exact Mirrors.of_same MAX_INSTANCES ac _ hm rfl rfl (fun _ _ => rfl)
  | pressButtons presses o h =>
    unfold onPressButtons at h
    cases hg : ac._processingContext.getInstance MAX_INSTANCES presses.idx with
    | none => simp [hg] at h
    | some inst =>
      cases inst with
      | none =>
        simp only [hg, Option.some.injEq] at h
        subst h
        exact hm
      | some p =>
        simp only [hg, Option.some.injEq] at h
        subst h
        exact hm
  | contextMenuResult id o h =>
    cases hlua : ac._lua with
    | none => simp [onContextMenuResult, hlua] at h
    | some l =>
      simp only [onContextMenuResult, hlua, Option.some.injEq] at h
      subst h
      refine Mirrors.of_same MAX_INSTANCES ac _ hm hlua.symm rfl
        (fun l1 hl1 => ?_)
      rw [hlua] at hl1; cases hl1
      simp [AudioLuaContext.onMenuResult]

/-- In every state the handlers can reach, the scripting layer covers the processing context. -/
theorem Reachable.mirrors (MAX_INSTANCES : Nat) (ac : AudioController)
    (hr : Reachable MAX_INSTANCES ac) : Mirrors MAX_INSTANCES ac := by
  induction hr with
  | initial ac h =>
    intro i hi hp
    rw [h.2 i hi] at hp
    simp at hp
  | step ac ac1 _ hs ih => exact Mirrors.preserved MAX_INSTANCES ac ac1 ih hs

/-- The layer 0 can be installed in the start state. -/
theorem installedState_reachable : Reachable 2 installedState :=
  Reachable.step startState installedState (Reachable.initial startState ⟨rfl, fun _ _ => rfl⟩)
    (Step.swapLuaContext (some 0)
      { state := installedState, response := none,
        calls := [Call.lua 0 (LuaCall.init 0 44100)] } rfl)

/-- The core 7 can then be put into slot 0. -/
theorem runningState_reachable : Reachable 2 runningState :=
  Reachable.step installedState runningState installedState_reachable
    (Step.swapInstance { idx := 0, inst := some 7 }
      { state := runningState, response := none,
        calls := [Call.lua 0 (LuaCall.addInstance 0 (some 7))] } rfl)

/-- The core 7 can then be put into slot 1 as well. -/
theorem sharedState_reachable : Reachable 2 sharedState :=
  Reachable.step runningState sharedState runningState_reachable
    (Step.swapInstance { idx := 1, inst := some 7 }
      { state := sharedState, response := none,
        calls := [Call.lua 0 (LuaCall.addInstance 1 (some 7))] } rfl)

/-! ### The video ring buffer -/

/-- A write that fits into the free space queues the bytes behind those already queued. -/
theorem RingBuffer.write_of_fits (rb : RingBuffer) (data : List Nat)
    (hfit : rb.queued.length + data.length ≤ rb.capacity) :
    rb.write data = { rb with queued := rb.queued ++ data } := by
  have h0 : rb.queued.length + data.length - rb.capacity = 0 := by omega
  simp [RingBuffer.write, h0]

/-- Frames of `size` bytes each that fit into the free space are queued one behind the other. -/
theorem RingBuffer.writeAll_of_fits (size : Nat) :
    ∀ (frames : List (List Nat)) (rb : RingBuffer),
      (∀ f ∈ frames, f.length = size) →
      rb.queued.length + frames.length * size ≤ rb.capacity →
      rb.writeAll frames = { rb with queued := rb.queued ++ frames.flatten } := by
  intro frames
  induction frames with
  | nil => intro rb _ _; simp [RingBuffer.writeAll]
  | cons f rest ih =>
    intro rb hsize hfit
    have hf : f.length = size := hsize f (List.mem_cons_self f rest)
    have hrest : ∀ g ∈ rest, g.length = size := fun g hg => hsize g (List.mem_cons_of_mem f hg)
    have hlen : (f :: rest).length * size = size + rest.length * size := by
      rw [List.length_cons, Nat.succ_mul, Nat.add_comm]
    have hstep : rb.write f = { rb with queued := rb.queued ++ f } :=
      RingBuffer.write_of_fits rb f (by omega)
    have hnext := ih (rb.write f) hrest (by rw [hstep]; simp only [List.length_append]; omega)
    simp only [RingBuffer.writeAll, List.foldl_cons] at hnext ⊢
    rw [hnext, hstep]
    simp

/-! ### The properties of the specification -/

/-- C1. With a scripting layer installed and `idx < MAX_INSTANCES`, handling
`SwapInstance{idx, A}` and then `SwapInstance{idx, B}` succeeds both times, the second call
answers `A`, and afterwards `getInstance(idx)` is `B`. -/
theorem swapInstance_twice_returns_first (MAX_INSTANCES : Nat) (ac : AudioController)
    (l : LuaId) (idx : InstanceIndex) (A B : SameBoyPlugPtr)
    (hlua : ac._lua = some l) (hidx : idx < MAX_INSTANCES) :
    ∃ o1 o2 : Outcome SameBoyPlugPtr,
      onSwapInstance MAX_INSTANCES ac { idx := idx, inst := A } = some o1 ∧
      onSwapInstance MAX_INSTANCES o1.state { idx := idx, inst := B } = some o2 ∧
      o2.response = A ∧
      o2.state._processingContext.getInstance MAX_INSTANCES idx = some B := by
  simp [onSwapInstance, ProcessingContext.swapInstance, ProcessingContext.getInstance, hlua, hidx]

/-- C1, at a concrete input: layer 0 installed, two slots, the cores 5 and 6 swapped into
slot 0. -/
theorem swapInstance_twice_returns_first_witness :
    ∃ o1 o2 : Outcome SameBoyPlugPtr,
      onSwapInstance 2 installedState { idx := 0, inst := some 5 } = some o1 ∧
      onSwapInstance 2 o1.state { idx := 0, inst := some 6 } = some o2 ∧
      o2.response = some 5 ∧
      o2.state._processingContext.getInstance 2 0 = some (some 6) :=
  swapInstance_twice_returns_first 2 installedState 0 0 (some 5) (some 6) rfl (by decide)

/-- C2, as amended. With a scripting layer installed, `idx < MAX_INSTANCES`, and slot `idx`
holding an instance `A` that no other slot holds, handling `TakeInstance(idx)` answers `A`,
and afterwards slot `idx` is empty and no slot holds `A`. -/
theorem takeInstance_moves_owner_out (MAX_INSTANCES : Nat) (ac : AudioController)
    (l : LuaId) (idx : InstanceIndex) (A : PlugId)
    (hlua : ac._lua = some l) (hidx : idx < MAX_INSTANCES)
    (hA : ac._processingContext.instances idx = some A)
    (hsole : ∀ j, j < MAX_INSTANCES → j ≠ idx → ac._processingContext.instances j ≠ some A) :
    ∃ o : Outcome SameBoyPlugPtr,
      onTakeInstance MAX_INSTANCES ac idx = some o ∧
      o.response = some A ∧
      o.state._processingContext.instances idx = none ∧
      ∀ j, j < MAX_INSTANCES → o.state._processingContext.instances j ≠ some A := by
  refine ⟨_, by simp [onTakeInstance, ProcessingContext.removeInstance, hlua, hidx]; rfl, hA,
    by simp, ?_⟩
  intro j hj
  by_cases hji : j = idx
  · subst hji; simp
  · simpa [Function.update_noteq hji] using hsole j hj hji

/-- C2 as amended, at a concrete input: two slots, slot 0 holds the core 7, slot 1 is empty. -/
theorem takeInstance_moves_owner_out_witness :
    ∃ o : Outcome SameBoyPlugPtr,
      onTakeInstance 2 runningState 0 = some o ∧
      o.response = some 7 ∧
      o.state._processingContext.instances 0 = none ∧
      ∀ j, j < 2 → o.state._processingContext.instances j ≠ some 7 :=
  takeInstance_moves_owner_out 2 runningState 0 0 7 rfl (by decide) rfl
    (by
      intro j hj hne
      have hj1 : j = 1 := by omega
      subst hj1
      decide)

/-- C2 as stated fails when two slots hold the same object.  After `SwapLuaContext(0)`,
`SwapInstance{0, 7}` and `SwapInstance{1, 7}` the slots 0 and 1 both hold the core 7;
`TakeInstance(0)` then answers 7 and empties slot 0, yet slot 1 still holds 7. -/
theorem takeInstance_shared_object_stays_in_slot :
    Reachable 2 sharedState ∧
    sharedState._processingContext.instances 0 = some 7 ∧
    (onTakeInstance 2 sharedState 0).map
        (fun o => (o.response, o.state._processingContext.instances 0,
          o.state._processingContext.instances 1)) =
      some (some 7, none, some 7) :=
  ⟨sharedState_reachable, by decide, by decide⟩

/-- C3, at the failing input. Before a scripting layer is installed every slot is empty, and
`TakeInstance(0)` does not complete: the handler calls `removeInstance` through the empty
`_lua`. -/
theorem takeInstance_without_layer_fails :
    Initial 2 startState ∧
    startState._processingContext.instances 0 = none ∧
    (onTakeInstance 2 startState 0).isNone = true :=
  ⟨⟨rfl, fun _ _ => rfl⟩, rfl, rfl⟩

/-- C4. Let `N > 1` frames of `VIDEO_FRAME_SIZE` bytes each be written to the video ring buffer
without a read in between, and let them fit into its free space.  Then the video read of
`EmulatorView::Draw` puts the frame written last at the start of the scratch buffer, leaves the
rest of the scratch buffer as it was, and leaves nothing queued: `readAvailable()` is 0. -/
theorem draw_reads_latest_frame (VIDEO_FRAME_SIZE : Nat) (video : RingBuffer)
    (frames : List (List Nat)) (scratch : List Nat)
    (hmany : 1 < frames.length)
    (hsize : ∀ f ∈ frames, f.length = VIDEO_FRAME_SIZE)
    (hfit : video.readAvailable + frames.length * VIDEO_FRAME_SIZE ≤ video.capacity) :
    ∃ newest,
      frames.getLast? = some newest ∧
      (EmulatorView.drawReadVideo VIDEO_FRAME_SIZE (video.writeAll frames) scratch).2 =
        newest ++ scratch.drop VIDEO_FRAME_SIZE ∧
      (EmulatorView.drawReadVideo VIDEO_FRAME_SIZE (video.writeAll frames) scratch).1.readAvailable
        = 0 := by
  rcases List.eq_nil_or_concat frames with hnil | ⟨older, newest, hcat⟩
  · subst hnil; simp at hmany
  · rw [List.concat_eq_append] at hcat
    subst hcat
    have hnew : newest.length = VIDEO_FRAME_SIZE := hsize newest (by simp)
    have hq := RingBuffer.writeAll_of_fits VIDEO_FRAME_SIZE (older ++ [newest]) video hsize hfit
    have hflat : (older ++ [newest]).flatten = older.flatten ++ newest := by simp
    rw [hq, hflat]
    refine ⟨newest, by simp, ?_⟩
    have hassoc : video.queued ++ (older.flatten ++ newest)
        = (video.queued ++ older.flatten) ++ newest := by simp
    rw [hassoc]
    generalize hpre : video.queued ++ older.flatten = stale
    by_cases hskip : stale.length = 0
    · have hst : stale = [] := List.length_eq_zero.mp hskip
      subst hst
      by_cases hzero : VIDEO_FRAME_SIZE = 0
      · have hn : newest = [] := List.length_eq_zero.mp (by omega)
        subst hn
        simp [EmulatorView.drawReadVideo, RingBuffer.readAvailable, hzero]
      · have hpos : 0 < newest.length := by omega
        simp [EmulatorView.drawReadVideo, RingBuffer.readAvailable, RingBuffer.read, hpos,
          ← hnew]
    · have hpos : 0 < stale.length + newest.length := by omega
      have hgt : VIDEO_FRAME_SIZE < stale.length + newest.length := by omega
      have hdiff : stale.length + newest.length - VIDEO_FRAME_SIZE = stale.length := by omega
      have hstale : 0 < stale.length := by omega
      simp [EmulatorView.drawReadVideo, RingBuffer.readAvailable, RingBuffer.read,
        RingBuffer.advanceRead, hpos, hgt, hdiff, hstale, ← hnew]

/-- C4, at a concrete input: three frames of two bytes written to an empty buffer of eight. -/
theorem draw_reads_latest_frame_witness :
    ∃ newest,
      [[1, 2], [3, 4], [5, 6]].getLast? = some newest ∧
      (EmulatorView.drawReadVideo 2
          (RingBuffer.writeAll { capacity := 8, queued := [] } [[1, 2], [3, 4], [5, 6]])
          [255, 255, 255]).2 = newest ++ [255, 255, 255].drop 2 ∧
      (EmulatorView.drawReadVideo 2
          (RingBuffer.writeAll { capacity := 8, queued := [] } [[1, 2], [3, 4], [5, 6]])
          [255, 255, 255]).1.readAvailable = 0 :=
  draw_reads_latest_frame 2 { capacity := 8, queued := [] } [[1, 2], [3, 4], [5, 6]]
    [255, 255, 255] (by decide) (by decide) (by decide)

/-- C5. In every state, `SwapLuaContext(A)` completes, answers the layer installed before (the
empty pointer when there was none) and leaves `A` installed; a following `SwapLuaContext(B)`
answers `A` and leaves `B` installed. -/
theorem swapLuaContext_returns_previous (ac : AudioController) (A B : LuaId) :
    ∃ o1 o2 : Outcome AudioLuaContextPtr,
      onSwapLuaContext ac (some A) = some o1 ∧
      o1.response = ac._lua ∧ o1.state._lua = some A ∧
      onSwapLuaContext o1.state (some B) = some o2 ∧
      o2.response = some A ∧ o2.state._lua = some B := by
  simp [onSwapLuaContext]

/-- C6. When a scripting layer `l` is installed, `SwapLuaContext(c)` completes and afterwards the
new layer `c` holds the per-instance bookkeeping that `l` held before: the same records, hence
the same tracked indices, the same component data and the same serialised form. -/
theorem swapLuaContext_preserves_bookkeeping (ac : AudioController) (l c : LuaId)
    (hlua : ac._lua = some l) :
    ∃ o : Outcome AudioLuaContextPtr,
      onSwapLuaContext ac (some c) = some o ∧
      (o.state.luas c).instances = (ac.luas l).instances ∧
      (∀ idx, (o.state.luas c).tracked idx ↔ (ac.luas l).tracked idx) ∧
      (∀ idx, (o.state.luas c).componentData idx = (ac.luas l).componentData idx) ∧
      (∀ idx, (o.state.luas c).serializeInstance idx = (ac.luas l).serializeInstance idx) ∧
      (o.state.luas c).serializeInstances = (ac.luas l).serializeInstances := by
  obtain ⟨o, ho⟩ : ∃ o, onSwapLuaContext ac (some c) = some o := by
    simp [onSwapLuaContext]
  have h := (onSwapLuaContext_records ac l c o hlua ho).2.2
  refine ⟨o, ho, h, ?_, ?_, ?_, ?_⟩
  · intro idx; simp [AudioLuaContext.tracked, h]
  · intro idx; simp [AudioLuaContext.componentData, h]
  · intro idx; simp [AudioLuaContext.serializeInstance, h]
  · simp [AudioLuaContext.serializeInstances, h]

/-- C6, at a concrete input: layer 0, which tracks the instance in slot 0, is replaced by
layer 1. -/
theorem swapLuaContext_preserves_bookkeeping_witness :
    ∃ o : Outcome AudioLuaContextPtr,
      onSwapLuaContext runningState (some 1) = some o ∧
      (o.state.luas 1).instances = (runningState.luas 0).instances ∧
      (∀ idx, (o.state.luas 1).tracked idx ↔ (runningState.luas 0).tracked idx) ∧
      (∀ idx, (o.state.luas 1).componentData idx = (runningState.luas 0).componentData idx) ∧
      (∀ idx,
        (o.state.luas 1).serializeInstance idx = (runningState.luas 0).serializeInstance idx) ∧
      (o.state.luas 1).serializeInstances = (runningState.luas 0).serializeInstances :=
  swapLuaContext_preserves_bookkeeping runningState 0 1 rfl

/-- C7. `SwapLuaContext(c)` invokes, in this order: `serializeInstances` on the old layer when
there is one, `init` on the new layer, and `deserializeInstances` on the new layer with the blob
the old layer returned, the last exactly when an old layer exists and that blob is not empty.
Without an old layer, or with an empty blob, the new layer is only initialised. -/
theorem swapLuaContext_call_sequence (ac : AudioController) (c : LuaId) :
    ∃ o : Outcome AudioLuaContextPtr,
      onSwapLuaContext ac (some c) = some o ∧
      o.calls =
        (match ac._lua with
         | none => [Call.lua c (LuaCall.init ac._timeInfo ac._sampleRate)]
         | some l =>
           if (ac.luas l).serializeInstances = [] then
             [Call.lua l LuaCall.serializeInstances,
              Call.lua c (LuaCall.init ac._timeInfo ac._sampleRate)]
           else
             [Call.lua l LuaCall.serializeInstances,
              Call.lua c (LuaCall.init ac._timeInfo ac._sampleRate),
              Call.lua c (LuaCall.deserializeInstances (ac.luas l).serializeInstances)]) ∧
      ((∃ data, Call.lua c (LuaCall.deserializeInstances data) ∈ o.calls) ↔
        ∃ l, ac._lua = some l ∧ (ac.luas l).serializeInstances ≠ []) := by
  cases hlua : ac._lua with
  | none => simp [onSwapLuaContext, hlua]
  | some l =>
    by_cases hb : (ac.luas l).serializeInstances = []
    · simp [onSwapLuaContext, hlua, hb]
    · simp [onSwapLuaContext, hlua, hb]

/-- C8. In every state the handlers can reach, and for every response whose component entries
start empty, `FetchState` completes and leaves the controller state alone; the entry of every
populated slot `i` is non-empty and equal to `serializeInstance(i)` of the scripting layer, the
entry of every empty slot stays empty, and so the number of non-empty entries is the number
`k` of populated slots. -/
theorem fetchState_component_entries (MAX_INSTANCES : Nat) (ac : AudioController)
    (req : FetchStateRequest) (state : FetchStateResponse)
    (hreach : Reachable MAX_INSTANCES ac)
    (hstart : ∀ i, i < MAX_INSTANCES → state.components i = []) :
    ∃ o : Outcome FetchStateResponse,
      onFetchState MAX_INSTANCES ac req state = some o ∧
      o.state = ac ∧
      (∀ i, i < MAX_INSTANCES → (ac._processingContext.instances i).isSome →
        o.response.components i ≠ [] ∧
        ∃ l, ac._lua = some l ∧ o.response.components i = (ac.luas l).serializeInstance i) ∧
      (∀ i, i < MAX_INSTANCES → ac._processingContext.instances i = none →
        o.response.components i = []) ∧
      (List.range MAX_INSTANCES).countP (fun i => o.response.components i ≠ []) =
        ac._processingContext.populated MAX_INSTANCES := by
  have hm := Reachable.mirrors MAX_INSTANCES ac hreach
  cases hlua : ac._lua with
  | some l =>
    have hne : ∀ i, i < MAX_INSTANCES → (ac._processingContext.instances i).isSome →
        (ac.luas l).serializeInstance i ≠ [] := by
      intro i hi hp
      obtain ⟨l1, hl1, ht⟩ := hm i hi hp
      rw [hlua] at hl1; cases hl1
      exact AudioLuaContext.serializeInstance_ne_nil _ i ht
    obtain ⟨o, hrun, hst, hentry, hcount⟩ :=
      onFetchState_with_layer MAX_INSTANCES ac l req state hlua hstart
    refine ⟨o, hrun, hst, ?_, ?_, hcount hne⟩
    · intro i hi hp
      have h := hentry i hi
      rw [if_pos hp] at h
      exact ⟨by rw [h]; exact hne i hi hp, l, rfl, h⟩
    · intro i hi hnone
      have h := hentry i hi
      simpa [hnone] using h
  | none =>
    have hempty : ∀ i, i < MAX_INSTANCES → ac._processingContext.instances i = none := by
      intro i hi
      cases hslot : ac._processingContext.instances i with
      | none => rfl
      | some p =>
        obtain ⟨l, hl, _⟩ := hm i hi (by simp [hslot])
        rw [hlua] at hl; cases hl
    have hrun := fetchComponents_of_empty MAX_INSTANCES ac (List.range MAX_INSTANCES)
      state.components [] (fun i hi => ⟨List.mem_range.mp hi, hempty i (List.mem_range.mp hi)⟩)
    refine ⟨{ state := ac,
              response := ac._processingContext.fetchState MAX_INSTANCES ac.plugs req
                { state with components := state.components },
              calls := [] }, by simp only [onFetchState, hrun], rfl, ?_, ?_, ?_⟩
    · intro i hi hp
      simp [hempty i hi] at hp
    · intro i hi _
      simpa [ProcessingContext.fetchState] using hstart i hi
    · unfold ProcessingContext.populated
      apply List.countP_congr
      intro i hi
      have hi1 : i < MAX_INSTANCES := List.mem_range.mp hi
      simp [ProcessingContext.fetchState, hstart i hi1, hempty i hi1]

/-- C8, at a concrete input: two slots, after `SwapLuaContext(0)` and `SwapInstance{0, 7}`. -/
theorem fetchState_component_entries_witness :
    ∃ o : Outcome FetchStateResponse,
      onFetchState 2 runningState 0 blankResponse = some o ∧
      o.state = runningState ∧
      (∀ i, i < 2 → (runningState._processingContext.instances i).isSome →
        o.response.components i ≠ [] ∧
        ∃ l, runningState._lua = some l ∧
          o.response.components i = (runningState.luas l).serializeInstance i) ∧
      (∀ i, i < 2 → runningState._processingContext.instances i = none →
        o.response.components i = []) ∧
      (List.range 2).countP (fun i => o.response.components i ≠ []) =
        runningState._processingContext.populated 2 :=
  fetchState_component_entries 2 runningState 0 blankResponse runningState_reachable
    (fun _ _ => rfl)

/-- C9, at the failing input. Before a scripting layer is installed, the handlers of
`SwapInstance`, `DuplicateInstance`, `TakeInstance`, `SetActive` and `ContextMenuResult` do not
complete: each calls a member through the empty `_lua`.  Nor does `SwapLuaContext` when the
request carries the empty pointer. -/
theorem handlers_without_layer_fail :
    Initial 2 startState ∧
    (onSwapInstance 2 startState { idx := 0, inst := some 5 }).isNone = true ∧
    (onDuplicateInstance 2 startState { sourceIdx := 0, targetIdx := 1, inst := some 5 }).isNone
      = true ∧
    (onTakeInstance 2 startState 0).isNone = true ∧
    (onSetActive startState 0).isNone = true ∧
    (onContextMenuResult startState 0).isNone = true ∧
    (onSwapLuaContext startState none).isNone = true :=
  ⟨⟨rfl, fun _ _ => rfl⟩, rfl, rfl, rfl, rfl, rfl, rfl⟩

/-- C10. When slot `idx < MAX_INSTANCES` is empty, the handlers of `PressButtons`, `SetRom` and
`SetSram` for `idx` complete, invoke no operation at all and leave the whole controller state
as it was; `SetRom` and `SetSram` answer with the buffer of the request. -/
theorem empty_slot_operations_are_noops (MAX_INSTANCES : Nat) (ac : AudioController)
    (idx : InstanceIndex) (hidx : idx < MAX_INSTANCES)
    (hempty : ac._processingContext.instances idx = none)
    (presses : List Nat) (pressCount : Nat) (buffer : DataBufferPtr) (reset : Bool) :
    onPressButtons MAX_INSTANCES ac { idx := idx, presses := presses, pressCount := pressCount }
      = some { state := ac, response := (), calls := [] } ∧
    onSetRom MAX_INSTANCES ac { idx := idx, buffer := buffer, reset := reset }
      = some { state := ac, response := buffer, calls := [] } ∧
    onSetSram MAX_INSTANCES ac { idx := idx, buffer := buffer, reset := reset }
      = some { state := ac, response := buffer, calls := [] } := by
  simp [onPressButtons, onSetRom, onSetSram, ProcessingContext.getInstance, hidx, hempty]

/-- C10, at a concrete input: slot 1 of `runningState` is empty. -/
theorem empty_slot_operations_are_noops_witness :
    onPressButtons 2 runningState { idx := 1, presses := [1, 0], pressCount := 2 }
      = some { state := runningState, response := (), calls := [] } ∧
    onSetRom 2 runningState { idx := 1, buffer := some [9, 9], reset := true }
      = some { state := runningState, response := some [9, 9], calls := [] } ∧
    onSetSram 2 runningState { idx := 1, buffer := some [9, 9], reset := true }
      = some { state := runningState, response := some [9, 9], calls := [] } :=
  empty_slot_operations_are_noops 2 runningState 1 (by decide) rfl [1, 0] 2 (some [9, 9]) true

/-! ### Call channels -/

/-- Enqueueing keeps the capacity of a channel. -/
theorem CallChannel.enqueue_capacity {α : Type} (ch : CallChannel α) (request : α) :
    (ch.enqueue request).2.capacity = ch.capacity := by
  unfold CallChannel.enqueue
  split <;> rfl

/-- Requests enqueued without a drain in between: the first ones are accepted until the
channel is full, all later ones are rejected, and the accepted ones are pending in the order
they came. -/
theorem CallChannel.enqueueAll_spec {α : Type} :
    ∀ (requests : List α) (ch : CallChannel α),
      (ch.enqueueAll requests).1 =
          List.replicate (min requests.length (ch.capacity - ch.pending.length)) true ++
            List.replicate (requests.length - (ch.capacity - ch.pending.length)) false ∧
      (ch.enqueueAll requests).2 =
        { ch with pending := ch.pending ++ requests.take (ch.capacity - ch.pending.length) } := by
  intro requests
  induction requests with
  | nil => intro ch; simp [CallChannel.enqueueAll]
  | cons r rest ih =>
    intro ch
    by_cases hfree : ch.pending.length < ch.capacity
    · have hen : ch.enqueue r = (true, { ch with pending := ch.pending ++ [r] }) := by
        simp [CallChannel.enqueue, hfree]
      obtain ⟨h1, h2⟩ := ih { ch with pending := ch.pending ++ [r] }
      obtain ⟨k, hk⟩ : ∃ k, ch.capacity - ch.pending.length = k + 1 :=
        ⟨ch.capacity - ch.pending.length - 1, by omega⟩
      have hk1 : ch.capacity - (ch.pending.length + 1) = k := by omega
      simp only [CallChannel.enqueueAll, hen, h1, h2, List.length_append, List.length_cons,
        List.length_nil, hk, hk1, List.take_succ_cons]
      refine ⟨?_, by simp⟩
      rw [Nat.add_sub_add_right, Nat.add_min_add_right, List.replicate_succ, List.cons_append]
    · have hen : ch.enqueue r = (false, ch) := by
        simp [CallChannel.enqueue, hfree]
      obtain ⟨h1, h2⟩ := ih ch
      have h0 : ch.capacity - ch.pending.length = 0 := by omega
      simp only [CallChannel.enqueueAll, hen, h1, h2, h0]
      simp [List.replicate_succ]

/-- C11. The constructor registers `SwapInstance` with capacity 4; a channel of that capacity
accepts four requests enqueued before any drain and rejects the fifth.  In general, on a channel
that holds no more than its capacity, an enqueue is rejected exactly when `capacity` requests
are pending, and neither an enqueue nor a drain lets the pending requests exceed the capacity;
a channel is created empty. -/
theorem swapInstance_channel_rejects_fifth :
    capacityOf RetroPlugController.busOps CallType.SwapInstance = some 4 ∧
    (∀ r1 r2 r3 r4 r5 : InstanceSwapDesc,
      (CallChannel.create InstanceSwapDesc 4).enqueueAll [r1, r2, r3, r4, r5] =
        ([true, true, true, true, false], { capacity := 4, pending := [r1, r2, r3, r4] })) ∧
    (∀ (α : Type) (ch : CallChannel α) (request : α),
      ch.pending.length ≤ ch.capacity →
        ((ch.enqueue request).1 = false ↔ ch.pending.length = ch.capacity) ∧
        (ch.enqueue request).2.capacity = ch.capacity ∧
        (ch.enqueue request).2.pending.length ≤ ch.capacity) ∧
    (∀ (α σ : Type) (ch : CallChannel α) (handler : σ → α → σ) (s : σ),
      (ch.drain handler s).2.capacity = ch.capacity ∧ (ch.drain handler s).2.pending = []) ∧
    (∀ (α : Type) (capacity : Nat) (requests : List α),
      ((CallChannel.create α capacity).enqueueAll requests).2.pending.length ≤ capacity) := by
  refine ⟨by decide, ?_, ?_, ?_, ?_⟩
  · intro r1 r2 r3 r4 r5
    rfl
  · intro α ch request hwf
    by_cases hfree : ch.pending.length < ch.capacity
    · have hen : ch.enqueue request = (true, { ch with pending := ch.pending ++ [request] }) := by
        simp [CallChannel.enqueue, hfree]
      rw [hen]
      refine ⟨?_, rfl, ?_⟩
      · constructor
        · intro h; cases h
        · intro h; omega
      · simp only [List.length_append, List.length_cons, List.length_nil]
        omega
    · have hen : ch.enqueue request = (false, ch) := by
        simp [CallChannel.enqueue, hfree]
      rw [hen]
      refine ⟨?_, rfl, hwf⟩
      constructor
      · intro _; omega
      · intro _; rfl
  · intro α σ ch handler s
    exact ⟨rfl, rfl⟩
  · intro α capacity requests
    rw [(CallChannel.enqueueAll_spec requests (CallChannel.create α capacity)).2]
    simp [CallChannel.create, List.length_take]

/-! ### Setting up the bus -/

/-- C13. In the bus operations of the constructor of `RetroPlugController` there are 14
`addCall`, for 14 different call types, two `createNode` and 12 handler registrations; every
`addCall` is issued before every `createNode` and every handler registration, every other
operation is issued before `start`, and `start` is issued once, so nothing follows it. -/
theorem constructor_freezes_complete_topology :
    (RetroPlugController.busOps.filter BusOp.isAddCall).length = 14 ∧
    (addedCalls RetroPlugController.busOps).length = 14 ∧
    (addedCalls RetroPlugController.busOps).Nodup ∧
    (RetroPlugController.busOps.filter BusOp.isCreateNode).length = 2 ∧
    (RetroPlugController.busOps.filter BusOp.isOn).length = 12 ∧
    Precedes BusOp.isAddCall (fun o => o.isCreateNode || o.isOn) RetroPlugController.busOps ∧
    Precedes (fun o => !o.isStart) BusOp.isStart RetroPlugController.busOps ∧
    (RetroPlugController.busOps.filter BusOp.isStart).length = 1 ∧
    RetroPlugController.busOps.getLast? = some BusOp.start := by
  refine ⟨by decide, by decide, by decide, by decide, by decide, ?_, ?_, by decide, by decide⟩
  · decide
  · decide

/-- C14. The handlers registered on the audio node are those of the twelve call types
`AudioController::setNode` names, each registered once; every one of these call types was given
a capacity by an `addCall`, and every `addCall` is issued before `start`; the Ui node is created
with the Audio node as its peer and the Audio node with the Ui node as its peer. -/
theorem audio_topology_is_wired :
    registeredOn RetroPlugController.busOps NodeTypes.Audio = audioCalls ∧
    audioCalls.length = 12 ∧
    (∀ c, c ∈ audioCalls →
      (registeredOn RetroPlugController.busOps NodeTypes.Audio).count c = 1 ∧
      ∃ capacity, capacityOf RetroPlugController.busOps c = some capacity ∧
        BusOp.addCall c capacity ∈ RetroPlugController.busOps) ∧
    Precedes BusOp.isAddCall BusOp.isStart RetroPlugController.busOps ∧
    Precedes BusOp.isOn BusOp.isStart RetroPlugController.busOps ∧
    BusOp.createNode NodeTypes.Ui [NodeTypes.Audio] ∈ RetroPlugController.busOps ∧
    BusOp.createNode NodeTypes.Audio [NodeTypes.Ui] ∈ RetroPlugController.busOps ∧
    (RetroPlugController.busOps.filter BusOp.isCreateNode).length = 2 := by
  refine ⟨by decide, by decide, ?_, by decide, by decide, by decide, by decide, by decide⟩
  intro c hc
  simp only [audioCalls, List.mem_cons, List.mem_singleton, List.not_mem_nil, or_false] at hc
  rcases hc with h | h | h | h | h | h | h | h | h | h | h | h <;> subst h <;>
    refine ⟨by decide, _, rfl, ?_⟩ <;> decide

/-- C17. `AudioController::setNode` first asks the allocator to reserve 16 chunks of
`160 * 144 * 4 = 92160` bytes, before it registers any handler, and the constructor gives the
`TransmitVideo` channel the capacity 16, which is not more than the 16 chunks reserved. -/
theorem video_chunks_cover_transmit_queue (node : NodeTypes) :
    (AudioController.setNode node).head? = some (BusOp.reserveChunks (160 * 144 * 4) 16) ∧
    160 * 144 * 4 = 92160 ∧
    Precedes (fun o => o == BusOp.reserveChunks 92160 16) BusOp.isOn
      (AudioController.setNode node) ∧
    ((AudioController.setNode node).filter
      (fun o => o == BusOp.reserveChunks 92160 16)).length = 1 ∧
    capacityOf RetroPlugController.busOps CallType.TransmitVideo = some 16 ∧
    (∀ capacity, capacityOf RetroPlugController.busOps CallType.TransmitVideo = some capacity →
      capacity ≤ 16) := by
  refine ⟨rfl, by decide, ?_, ?_, by decide, ?_⟩
  · cases node <;> decide
  · cases node <;> decide
  · intro capacity h
    have h16 : capacityOf RetroPlugController.busOps CallType.TransmitVideo = some 16 := by
      decide
    rw [h16] at h
    cases h
    exact Nat.le_refl 16

/-! ### Requests in a drain -/

/-- Draining the `PressButtons` channel, in the sequential model of the channel: when slot `idx`
holds the core `p` and every pending stream is for `idx`, the drain completes, leaves the
controller state as it was and invokes `pressButtons` on `p` once per stream, in the order the
streams were pending. -/
theorem drainPressButtons_in_order (MAX_INSTANCES : Nat) (ac : AudioController)
    (idx : InstanceIndex) (p : PlugId) (hidx : idx < MAX_INSTANCES)
    (hslot : ac._processingContext.instances idx = some p) (capacity : Nat) :
    ∀ (streams : List ButtonStream), (∀ s ∈ streams, s.idx = idx) →
      drainPressButtons MAX_INSTANCES { capacity := capacity, pending := streams } ac =
        (some (ac, streams.map
            (fun s => Call.core p (CoreCall.pressButtons s.presses s.pressCount))),
          { capacity := capacity, pending := [] }) := by
  have hstep : ∀ (streams : List ButtonStream) (calls : List Call),
      (∀ s ∈ streams, s.idx = idx) →
      streams.foldl
          (fun acc presses =>
            match acc with
            | none => none
            | some (ac1, calls) =>
              match onPressButtons MAX_INSTANCES ac1 presses with
              | none => none
              | some o => some (o.state, calls ++ o.calls))
          (some (ac, calls)) =
        some (ac, calls ++ streams.map
          (fun s => Call.core p (CoreCall.pressButtons s.presses s.pressCount))) := by
    intro streams
    induction streams with
    | nil => intro calls _; simp
    | cons s rest ih =>
      intro calls hall
      have hs : s.idx = idx := hall s (List.mem_cons_self s rest)
      have hrun : onPressButtons MAX_INSTANCES ac s =
          some { state := ac, response := (),
                 calls := [Call.core p (CoreCall.pressButtons s.presses s.pressCount)] } := by
        simp [onPressButtons, ProcessingContext.getInstance, hs, hidx, hslot]
      simp only [List.foldl_cons, hrun]
      rw [ih _ (fun t ht => hall t (List.mem_cons_of_mem s ht))]
      simp
  intro streams hall
  simp only [drainPressButtons, CallChannel.drain]
  rw [hstep streams [] hall]
  simp

/-! ### The scripting layer in sync -/

/-- After `addInstance(idx, _)` the layer tracks `idx` and what it tracked before. -/
theorem AudioLuaContext.tracked_addInstance (l : AudioLuaContext) (idx i : InstanceIndex)
    (inst : SameBoyPlugPtr) : (l.addInstance idx inst).tracked i ↔ (i = idx ∨ l.tracked i) := by
  unfold AudioLuaContext.tracked AudioLuaContext.addInstance
  constructor
  · rintro ⟨e, he, hei⟩
    simp only [List.mem_cons, List.mem_filter] at he
    rcases he with h | ⟨h, _⟩
    · left; rw [← hei, h]
    · right; exact ⟨e, h, hei⟩
  · rintro (h | ⟨e, he, hei⟩)
    · exact ⟨(idx, ""), by simp, h.symm⟩
    · by_cases hidx : i = idx
      · exact ⟨(idx, ""), by simp, hidx.symm⟩
      · refine ⟨e, ?_, hei⟩
        simp [he, hei, hidx]

/-- After `duplicateInstance(_, targetIdx, _)` the layer tracks `targetIdx` and what it tracked
before. -/
theorem AudioLuaContext.tracked_duplicateInstance (l : AudioLuaContext)
    (sourceIdx targetIdx i : InstanceIndex) (inst : SameBoyPlugPtr) :
    (l.duplicateInstance sourceIdx targetIdx inst).tracked i ↔ (i = targetIdx ∨ l.tracked i) := by
  unfold AudioLuaContext.tracked AudioLuaContext.duplicateInstance
  constructor
  · rintro ⟨e, he, hei⟩
    simp only [List.mem_cons, List.mem_filter] at he
    rcases he with h | ⟨h, _⟩
    · left; rw [← hei, h]
    · right; exact ⟨e, h, hei⟩
  · rintro (h | ⟨e, he, hei⟩)
    · exact ⟨(targetIdx, l.componentData sourceIdx), by simp, h.symm⟩
    · by_cases hidx : i = targetIdx
      · exact ⟨(targetIdx, l.componentData sourceIdx), by simp, hidx.symm⟩
      · refine ⟨e, ?_, hei⟩
        simp [he, hei, hidx]

/-- After `removeInstance(idx)` the layer tracks what it tracked before, except `idx`. -/
theorem AudioLuaContext.tracked_removeInstance (l : AudioLuaContext) (idx i : InstanceIndex) :
    (l.removeInstance idx).tracked i ↔ (i ≠ idx ∧ l.tracked i) := by
  unfold AudioLuaContext.tracked AudioLuaContext.removeInstance
  constructor
  · rintro ⟨e, he, hei⟩
    simp only [List.mem_filter, bne_iff_ne, ne_eq] at he
    exact ⟨by rw [← hei]; exact he.2, e, he.1, hei⟩
  · rintro ⟨hne, e, he, hei⟩
    refine ⟨e, ?_, hei⟩
    simp [he, hei, hne]

/-- C15. Let the scripting layer `l` be installed and in sync: it tracks exactly the populated
slots.  Then `SwapInstance` with a non-empty new instance, `DuplicateInstance` with a non-empty
new instance and `TakeInstance`, for indices below `MAX_INSTANCES`, complete and leave `l`
installed and in sync. -/
theorem layer_stays_in_sync (MAX_INSTANCES : Nat) (ac : AudioController) (l : LuaId)
    (hlua : ac._lua = some l) (hsync : InSync MAX_INSTANCES ac l) :
    (∀ (idx : InstanceIndex) (p : PlugId), idx < MAX_INSTANCES →
      ∃ o : Outcome SameBoyPlugPtr,
        onSwapInstance MAX_INSTANCES ac { idx := idx, inst := some p } = some o ∧
        o.state._lua = some l ∧ InSync MAX_INSTANCES o.state l) ∧
    (∀ (sourceIdx targetIdx : InstanceIndex) (p : PlugId),
      sourceIdx < MAX_INSTANCES → targetIdx < MAX_INSTANCES →
      ∃ o : Outcome SameBoyPlugPtr,
        onDuplicateInstance MAX_INSTANCES ac
          { sourceIdx := sourceIdx, targetIdx := targetIdx, inst := some p } = some o ∧
        o.state._lua = some l ∧ InSync MAX_INSTANCES o.state l) ∧
    (∀ (idx : InstanceIndex), idx < MAX_INSTANCES →
      ∃ o : Outcome SameBoyPlugPtr,
        onTakeInstance MAX_INSTANCES ac idx = some o ∧
        o.state._lua = some l ∧ InSync MAX_INSTANCES o.state l) := by
  refine ⟨?_, ?_, ?_⟩
  · intro idx p hidx
    refine ⟨_, by simp [onSwapInstance, ProcessingContext.swapInstance, hlua, hidx]; rfl,
      rfl, ?_⟩
    intro i
    simp only [Function.update_same]
    rw [AudioLuaContext.tracked_addInstance, hsync i]
    by_cases hi : i = idx
    · subst hi; simp [hidx]
    · simp [hi, Function.update_noteq hi]
  · intro sourceIdx targetIdx p hs ht
    refine ⟨_, by
      simp [onDuplicateInstance, ProcessingContext.duplicateInstance, hlua, hs, ht]; rfl,
      rfl, ?_⟩
    intro i
    simp only [Function.update_same]
    rw [AudioLuaContext.tracked_duplicateInstance, hsync i]
    by_cases hi : i = targetIdx
    · subst hi; simp [ht]
    · simp [hi, Function.update_noteq hi]
  · intro idx hidx
    refine ⟨_, by simp [onTakeInstance, ProcessingContext.removeInstance, hlua, hidx]; rfl,
      rfl, ?_⟩
    intro i
    simp only [Function.update_same]
    rw [AudioLuaContext.tracked_removeInstance, hsync i]
    by_cases hi : i = idx
    · subst hi; simp
    · simp [hi, Function.update_noteq hi]

/-- After `SwapLuaContext(0)` and `SwapInstance{0, 7}` the layer 0 is in sync. -/
theorem runningState_inSync : InSync 2 runningState 0 := by
  have hrec : (runningState.luas 0).instances = [(0, "")] := rfl
  have hslots : runningState._processingContext.instances =
      Function.update (fun _ => none) 0 (some 7) := rfl
  intro i
  simp only [AudioLuaContext.tracked, hrec, hslots, List.mem_singleton]
  by_cases hi : i = 0
  · subst hi; simp
  · simp [hi, Function.update_noteq hi, eq_comm]

/-- C15, at a concrete input: two slots, layer 0 installed, slot 0 populated and tracked. -/
theorem layer_stays_in_sync_witness :
    (∀ (idx : InstanceIndex) (p : PlugId), idx < 2 →
      ∃ o : Outcome SameBoyPlugPtr,
        onSwapInstance 2 runningState { idx := idx, inst := some p } = some o ∧
        o.state._lua = some 0 ∧ InSync 2 o.state 0) ∧
    (∀ (sourceIdx targetIdx : InstanceIndex) (p : PlugId),
      sourceIdx < 2 → targetIdx < 2 →
      ∃ o : Outcome SameBoyPlugPtr,
        onDuplicateInstance 2 runningState
          { sourceIdx := sourceIdx, targetIdx := targetIdx, inst := some p } = some o ∧
        o.state._lua = some 0 ∧ InSync 2 o.state 0) ∧
    (∀ (idx : InstanceIndex), idx < 2 →
      ∃ o : Outcome SameBoyPlugPtr,
        onTakeInstance 2 runningState idx = some o ∧
        o.state._lua = some 0 ∧ InSync 2 o.state 0) :=
  layer_stays_in_sync 2 runningState 0 rfl runningState_inSync

/-- C16, amended. On a populated slot `idx`, holding the core `p`:
`SetRom` completes, answers the request's buffer and invokes `setRomData(buffer)` on `p`, followed
by `reset(model, true)` with the model `p` has at that moment exactly when the request's reset
flag is set, and by nothing else; the model of `p` is afterwards what it was.
`SetSram` with a buffer `b` completes, answers it and invokes only
`loadBattery(b, size of b, reset flag)` on `p`, so no reset of its own. -/
theorem setRom_setSram_on_populated_slot (MAX_INSTANCES : Nat) (ac : AudioController)
    (idx : InstanceIndex) (p : PlugId) (hidx : idx < MAX_INSTANCES)
    (hslot : ac._processingContext.instances idx = some p)
    (buffer : DataBufferPtr) (b : DataBuffer) (reset : Bool) :
    (∃ o : Outcome DataBufferPtr,
      onSetRom MAX_INSTANCES ac { idx := idx, buffer := buffer, reset := reset } = some o ∧
      o.response = buffer ∧
      o.calls =
        (if reset = true then
          [Call.core p (CoreCall.setRomData buffer),
           Call.core p (CoreCall.reset (ac.plugs p).getSettings.model true)]
         else [Call.core p (CoreCall.setRomData buffer)]) ∧
      ((∃ model fast, Call.core p (CoreCall.reset model fast) ∈ o.calls) ↔ reset = true) ∧
      (o.state.plugs p).getSettings.model = (ac.plugs p).getSettings.model ∧
      (o.state.plugs p).rom = buffer) ∧
    (∃ o : Outcome DataBufferPtr,
      onSetSram MAX_INSTANCES ac { idx := idx, buffer := some b, reset := reset } = some o ∧
      o.response = some b ∧
      o.calls = [Call.core p (CoreCall.loadBattery b b.length reset)]) := by
  constructor
  · cases reset with
    | true =>
      refine ⟨_, by
        simp [onSetRom, ProcessingContext.getInstance, hidx, hslot]; rfl, rfl, ?_, ?_, ?_, ?_⟩
      · simp [SameBoyPlug.setRomData, SameBoyPlug.getSettings]
      · simp
      · simp [SameBoyPlug.setRomData, SameBoyPlug.getSettings, SameBoyPlug.reset]
      · simp [SameBoyPlug.setRomData, SameBoyPlug.reset]
    | false =>
      refine ⟨_, by
        simp [onSetRom, ProcessingContext.getInstance, hidx, hslot]; rfl, rfl, ?_, ?_, ?_, ?_⟩
      · simp
      · simp
      · simp [SameBoyPlug.setRomData, SameBoyPlug.getSettings]
      · simp [SameBoyPlug.setRomData]
  · exact ⟨_, by simp [onSetSram, ProcessingContext.getInstance, hidx, hslot]; rfl, rfl, rfl⟩

/-- C16, at a concrete input: slot 0 of `runningState` holds the core 7. -/
theorem setRom_setSram_on_populated_slot_witness :
    (∃ o : Outcome DataBufferPtr,
      onSetRom 2 runningState { idx := 0, buffer := some [1, 2], reset := true } = some o ∧
      o.response = some [1, 2] ∧
      o.calls =
        (if true = true then
          [Call.core 7 (CoreCall.setRomData (some [1, 2])),
           Call.core 7 (CoreCall.reset (runningState.plugs 7).getSettings.model true)]
         else [Call.core 7 (CoreCall.setRomData (some [1, 2]))]) ∧
      ((∃ model fast, Call.core 7 (CoreCall.reset model fast) ∈ o.calls) ↔ true = true) ∧
      (o.state.plugs 7).getSettings.model = (runningState.plugs 7).getSettings.model ∧
      (o.state.plugs 7).rom = some [1, 2]) ∧
    (∃ o : Outcome DataBufferPtr,
      onSetSram 2 runningState { idx := 0, buffer := some [3, 4, 5], reset := true } = some o ∧
      o.response = some [3, 4, 5] ∧
      o.calls = [Call.core 7 (CoreCall.loadBattery [3, 4, 5] [3, 4, 5].length true)]) :=
  setRom_setSram_on_populated_slot 2 runningState 0 7 (by decide) rfl (some [1, 2]) [3, 4, 5]
    true

/-- C16 as stated fails for a `SetSram` request that carries no buffer.  Slot 0 of `runningState`
holds the core 7, and `SetSram` with an empty buffer pointer does not complete there, whatever
the reset flag is: the handler calls `data()` through the empty `req.buffer` (line 65). -/
theorem setSram_without_buffer_fails :
    Reachable 2 runningState ∧
    runningState._processingContext.instances 0 = some 7 ∧
    (onSetSram 2 runningState { idx := 0, buffer := none, reset := false }).isNone = true ∧
    (onSetSram 2 runningState { idx := 0, buffer := none, reset := true }).isNone = true :=
  ⟨runningState_reachable, rfl, rfl, rfl⟩

/-! ### The gamepad -/

open RetroPlugController in
/-- One pass of the loop body for axis `i`: the two direction flags of the axis become
`axisTarget` and the other flags stay. -/
theorem axisStep_padButtons (axis : Nat → AxisValue) (s : PadRun) (i b : Nat) :
    (axisStep axis s i)._padButtons b =
      if b = i * 2 then
        (axisTarget (axis i) (s._padButtons (i * 2)) (s._padButtons (i * 2 + 1))).1
      else if b = i * 2 + 1 then
        (axisTarget (axis i) (s._padButtons (i * 2)) (s._padButtons (i * 2 + 1))).2
      else s._padButtons b := by
  have hne : i * 2 + 1 ≠ i * 2 := by omega
  have hne1 : i * 2 ≠ i * 2 + 1 := by omega
  obtain ⟨pad, events⟩ := s
  simp only [axisStep, axisTarget, PadRun.press]
  rcases Bool.eq_false_or_eq_true ((axis i).lt (-AXIS_BUTTON_THRESHOLD)) with hlt | hlt <;>
    rcases Bool.eq_false_or_eq_true ((axis i).gt AXIS_BUTTON_THRESHOLD) with hgt | hgt <;>
    rcases Bool.eq_false_or_eq_true (pad (i * 2)) with hl | hl <;>
    rcases Bool.eq_false_or_eq_true (pad (i * 2 + 1)) with hr | hr <;>
    by_cases h1 : b = i * 2 <;> by_cases h2 : b = i * 2 + 1 <;>
    first
    | omega
    | (subst h1; simp [hlt, hgt, hl, hr, hne, hne1, Function.update_apply])
    | (subst h2; simp [hlt, hgt, hl, hr, hne, hne1, Function.update_apply])
    | simp [hlt, hgt, hl, hr, hne, hne1, h1, h2, Function.update_apply]

open RetroPlugController in
/-- One pass of the loop body for axis `i` issues `axisEvents`. -/
theorem axisStep_events (axis : Nat → AxisValue) (s : PadRun) (i : Nat) :
    (axisStep axis s i).events =
      s.events ++ axisEvents (axis i) i (s._padButtons (i * 2)) (s._padButtons (i * 2 + 1)) := by
  have hne : i * 2 + 1 ≠ i * 2 := by omega
  have hne1 : i * 2 ≠ i * 2 + 1 := by omega
  obtain ⟨pad, events⟩ := s
  simp only [axisStep, axisEvents, PadRun.press]
  rcases Bool.eq_false_or_eq_true ((axis i).lt (-AXIS_BUTTON_THRESHOLD)) with hlt | hlt <;>
    rcases Bool.eq_false_or_eq_true ((axis i).gt AXIS_BUTTON_THRESHOLD) with hgt | hgt <;>
    rcases Bool.eq_false_or_eq_true (pad (i * 2)) with hl | hl <;>
    rcases Bool.eq_false_or_eq_true (pad (i * 2 + 1)) with hr | hr <;>
    simp [hlt, hgt, hl, hr, hne, hne1, Function.update_apply]

open RetroPlugController in
/-- The loop body run over different axes `todo`: the direction flags of each axis visited
become `axisTarget` of their old values, the other flags stay, and the `axisEvents` of the
axes are issued one axis after the other. -/
theorem axisFold_spec (axis : Nat → AxisValue) :
    ∀ (todo : List Nat) (s : PadRun), todo.Nodup →
      (∀ b, (todo.foldl (axisStep axis) s)._padButtons b =
        if b / 2 ∈ todo then
          (if b % 2 = 0 then
            (axisTarget (axis (b / 2)) (s._padButtons (b / 2 * 2))
              (s._padButtons (b / 2 * 2 + 1))).1
           else
            (axisTarget (axis (b / 2)) (s._padButtons (b / 2 * 2))
              (s._padButtons (b / 2 * 2 + 1))).2)
        else s._padButtons b) ∧
      (todo.foldl (axisStep axis) s).events =
        s.events ++ (todo.map (fun i =>
          axisEvents (axis i) i (s._padButtons (i * 2)) (s._padButtons (i * 2 + 1)))).flatten := by
  intro todo
  induction todo with
  | nil => intro s _; simp
  | cons i rest ih =>
    intro s hnodup
    obtain ⟨hi, hrest⟩ := List.nodup_cons.mp hnodup
    obtain ⟨hpad, hev⟩ := ih (axisStep axis s i) hrest
    have hkeep : ∀ k, k ≠ i →
        (axisStep axis s i)._padButtons (k * 2) = s._padButtons (k * 2) ∧
        (axisStep axis s i)._padButtons (k * 2 + 1) = s._padButtons (k * 2 + 1) := by
      intro k hk
      have h1 : k * 2 ≠ i * 2 := by omega
      have h2 : k * 2 ≠ i * 2 + 1 := by omega
      have h3 : k * 2 + 1 ≠ i * 2 := by omega
      have h4 : k * 2 + 1 ≠ i * 2 + 1 := by omega
      simp [axisStep_padButtons, h1, h2, h3, h4]
    constructor
    · intro b
      rw [List.foldl_cons, hpad b]
      by_cases hb : b / 2 ∈ rest
      · have hne : b / 2 ≠ i := fun h => hi (h ▸ hb)
        obtain ⟨k1, k2⟩ := hkeep (b / 2) hne
        simp [hb, k1, k2]
      · by_cases hbi : b / 2 = i
        · have hcase : b = i * 2 ∨ b = i * 2 + 1 := by omega
          rcases hcase with h | h
          · subst h
            have hd : i * 2 / 2 = i := by omega
            have hm : i * 2 % 2 = 0 := by omega
            simp [hd, hm, hi, axisStep_padButtons]
          · subst h
            have hd : (i * 2 + 1) / 2 = i := by omega
            have hm : ¬ (i * 2 + 1) % 2 = 0 := by omega
            have hm1 : (i * 2 + 1) % 2 = 1 := by omega
            simp [hd, hm1, hi, axisStep_padButtons]
        · have h1 : b ≠ i * 2 := by omega
          have h2 : b ≠ i * 2 + 1 := by omega
          simp [hb, hbi, axisStep_padButtons, h1, h2]
    · rw [List.foldl_cons, hev, axisStep_events, List.map_cons, List.flatten_cons,
        List.append_assoc]
      congr 2
      congr 1
      apply List.map_congr_left
      intro k hk
      have hne : k ≠ i := fun h => hi (h ▸ hk)
      obtain ⟨k1, k2⟩ := hkeep k hne
      rw [k1, k2]

/-- A reading below the negative threshold is not above the positive one. -/
theorem AxisValue.lt_neg_threshold_not_gt (val : AxisValue)
    (h : val.lt (-AXIS_BUTTON_THRESHOLD) = true) : val.gt AXIS_BUTTON_THRESHOLD = false := by
  cases val with
  | nan => simp [AxisValue.lt] at h
  | negInf => rfl
  | posInf => simp [AxisValue.lt] at h
  | finite value =>
    simp only [AxisValue.lt, AxisValue.gt, AXIS_BUTTON_THRESHOLD, decide_eq_true_eq,
      decide_eq_false_iff_not] at h ⊢
    intro hgt
    linarith

/-- Flags that are not both set become: left exactly when the reading is below the negative
threshold, right exactly when it is above the positive one. -/
theorem axisTarget_of_not_both (val : AxisValue) (l r : Bool) (h : ¬(l = true ∧ r = true)) :
    (axisTarget val l r).1 = val.lt (-AXIS_BUTTON_THRESHOLD) ∧
    (axisTarget val l r).2 = val.gt AXIS_BUTTON_THRESHOLD := by
  rcases Bool.eq_false_or_eq_true (val.lt (-AXIS_BUTTON_THRESHOLD)) with hlt | hlt
  · have hgt := AxisValue.lt_neg_threshold_not_gt val hlt
    cases l <;> cases r <;> simp_all [axisTarget]
  · rcases Bool.eq_false_or_eq_true (val.gt AXIS_BUTTON_THRESHOLD) with hgt | hgt <;>
      cases l <;> cases r <;> simp_all [axisTarget]

/-- A second pass with the same reading changes nothing and issues nothing. -/
theorem axisTarget_idem (val : AxisValue) (i : Nat) (l r : Bool) :
    axisTarget val (axisTarget val l r).1 (axisTarget val l r).2 = axisTarget val l r ∧
    axisEvents val i (axisTarget val l r).1 (axisTarget val l r).2 = [] := by
  rcases Bool.eq_false_or_eq_true (val.lt (-AXIS_BUTTON_THRESHOLD)) with hlt | hlt <;>
    rcases Bool.eq_false_or_eq_true (val.gt AXIS_BUTTON_THRESHOLD) with hgt | hgt <;>
    cases l <;> cases r <;> simp [axisTarget, axisEvents, hlt, hgt]

/-- The calls issued for an axis concern its two direction flags only. -/
theorem axisEvents_button (val : AxisValue) (i : Nat) (l r : Bool) :
    ∀ e ∈ axisEvents val i l r, e.1 / 2 = i := by
  intro e he
  have h0 : i * 2 / 2 = i := by omega
  have h1 : (i * 2 + 1) / 2 = i := by omega
  rcases Bool.eq_false_or_eq_true (val.lt (-AXIS_BUTTON_THRESHOLD)) with hlt | hlt <;>
    rcases Bool.eq_false_or_eq_true (val.gt AXIS_BUTTON_THRESHOLD) with hgt | hgt <;>
    cases l <;> cases r <;>
    simp [axisEvents, hlt, hgt] at he <;>
    (try rcases he with he | he) <;> (try subst he) <;> simp [h0, h1]

/-- The calls issued for an axis are edge-triggered: one call for a direction flag that
changes, carrying its new value, and none for a flag that keeps its value. -/
theorem axisEvents_filter (val : AxisValue) (i b : Nat) (l r : Bool) :
    (axisEvents val i l r).filter (fun e => e.1 = b) =
      if b = i * 2 then
        (if (axisTarget val l r).1 = l then [] else [(i * 2, (axisTarget val l r).1)])
      else if b = i * 2 + 1 then
        (if (axisTarget val l r).2 = r then [] else [(i * 2 + 1, (axisTarget val l r).2)])
      else [] := by
  have hne : i * 2 + 1 ≠ i * 2 := by omega
  have hne1 : i * 2 ≠ i * 2 + 1 := by omega
  by_cases h1 : b = i * 2
  · subst h1
    rcases Bool.eq_false_or_eq_true (val.lt (-AXIS_BUTTON_THRESHOLD)) with hlt | hlt <;>
      rcases Bool.eq_false_or_eq_true (val.gt AXIS_BUTTON_THRESHOLD) with hgt | hgt <;>
      cases l <;> cases r <;>
      simp [axisTarget, axisEvents, hlt, hgt, hne, hne1, List.filter_cons]
  · by_cases h2 : b = i * 2 + 1
    · subst h2
      rcases Bool.eq_false_or_eq_true (val.lt (-AXIS_BUTTON_THRESHOLD)) with hlt | hlt <;>
        rcases Bool.eq_false_or_eq_true (val.gt AXIS_BUTTON_THRESHOLD) with hgt | hgt <;>
        cases l <;> cases r <;>
        simp [axisTarget, axisEvents, hlt, hgt, hne, hne1, List.filter_cons]
    · have h3 : i * 2 ≠ b := fun h => h1 h.symm
      have h4 : i * 2 + 1 ≠ b := fun h => h2 h.symm
      rcases Bool.eq_false_or_eq_true (val.lt (-AXIS_BUTTON_THRESHOLD)) with hlt | hlt <;>
        rcases Bool.eq_false_or_eq_true (val.gt AXIS_BUTTON_THRESHOLD) with hgt | hgt <;>
        cases l <;> cases r <;>
        simp [axisEvents, hlt, hgt, h1, h2, h3, h4, List.filter_cons]

/-- Among the calls issued for different axes, those for the flags of axis `i` are the calls
issued for axis `i`. -/
theorem axisEvents_flatten_filter (chunk : Nat → List (Nat × Bool))
    (hchunk : ∀ k, ∀ e ∈ chunk k, e.1 / 2 = k) (i : Nat) :
    ∀ (todo : List Nat), todo.Nodup →
      ((todo.map chunk).flatten).filter (fun e => e.1 / 2 = i) =
        if i ∈ todo then chunk i else [] := by
  intro todo
  induction todo with
  | nil => intro _; simp
  | cons k rest ih =>
    intro hnodup
    obtain ⟨hk, hrest⟩ := List.nodup_cons.mp hnodup
    rw [List.map_cons, List.flatten_cons, List.filter_append, ih hrest]
    by_cases hki : k = i
    · subst hki
      have hall : (chunk k).filter (fun e => e.1 / 2 = k) = chunk k := by
        apply List.filter_eq_self.mpr
        intro e he
        simpa using hchunk k e he
      simp [hall, hk]
    · have hnone : (chunk k).filter (fun e => e.1 / 2 = i) = [] := by
        apply List.filter_eq_nil_iff.mpr
        intro e he
        have := hchunk k e he
        simp only [decide_eq_true_eq]
        omega
      have hik : ¬ i = k := fun h => hki h.symm
      simp [hnone, hik]

open RetroPlugController in
/-- The axis loop: the direction flags of the four axes become `axisTarget` of their old values,
the other flags stay, and the `axisEvents` of the axes 0 to 3 are issued in this order. -/
theorem axisLoop_spec (axis : Nat → AxisValue) (pad : Nat → Bool) :
    (∀ b, (axisLoop axis { _padButtons := pad, events := [] })._padButtons b =
      if b < AxisButtons.COUNT then
        (if b % 2 = 0 then (axisTarget (axis (b / 2)) (pad (b / 2 * 2)) (pad (b / 2 * 2 + 1))).1
         else (axisTarget (axis (b / 2)) (pad (b / 2 * 2)) (pad (b / 2 * 2 + 1))).2)
      else pad b) ∧
    (axisLoop axis { _padButtons := pad, events := [] }).events =
      ((List.range (AxisButtons.COUNT / 2)).map (fun i =>
        axisEvents (axis i) i (pad (i * 2)) (pad (i * 2 + 1)))).flatten := by
  obtain ⟨hpad, hev⟩ := axisFold_spec axis (List.range (AxisButtons.COUNT / 2))
    { _padButtons := pad, events := [] } (List.nodup_range _)
  constructor
  · intro b
    have hmem : b / 2 ∈ List.range (AxisButtons.COUNT / 2) ↔ b < AxisButtons.COUNT := by
      simp only [List.mem_range, AxisButtons.COUNT]
      omega
    unfold axisLoop
    rw [hpad b]
    by_cases hb : b < AxisButtons.COUNT
    · rw [if_pos (hmem.mpr hb), if_pos hb]
    · rw [if_neg (fun h => hb (hmem.mp h)), if_neg hb]
  · unfold axisLoop
    rw [hev]
    simp

open RetroPlugController in
/-- The button loop leaves the flags below `PadButtonStart` alone. -/
theorem buttonLoop_keeps_lower (PadButtonStart PadButtonCount_ : Nat) (button : Nat → Bool)
    (b : Nat) (hb : b < PadButtonStart) (s : PadRun) :
    (buttonLoop PadButtonStart PadButtonCount_ button s)._padButtons b = s._padButtons b := by
  unfold buttonLoop
  generalize List.range PadButtonCount_ = todo
  induction todo generalizing s with
  | nil => rfl
  | cons i rest ih =>
    rw [List.foldl_cons, ih]
    have hne : b ≠ PadButtonStart + i := by omega
    by_cases hch : s._padButtons (PadButtonStart + i) ≠ button (PadButtonStart + i)
    · simp [hch, PadRun.press, Function.update_noteq hne]
    · simp [hch]

open RetroPlugController in
/-- C18. For an axis `i < 4` whose two direction flags `_padButtons[i * 2]` and
`_padButtons[i * 2 + 1]` are not both set, the axis loop leaves the first set exactly when the
reading is below `-AXIS_BUTTON_THRESHOLD` and the second exactly when it is above
`AXIS_BUTTON_THRESHOLD`.  Hence, the button loop starting above the axis flags, in every
state `processPad` reaches from the all-clear flags no axis has both direction flags set. -/
theorem axis_flags_follow_reading (PadButtonStart PadButtonCount_ : Nat)
    (hstart : AxisButtons.COUNT ≤ PadButtonStart) :
    (∀ (pad : Nat → Bool) (axis : Nat → AxisValue) (i : Nat), i < AxisButtons.COUNT / 2 →
      ¬(pad (i * 2) = true ∧ pad (i * 2 + 1) = true) →
      ((axisLoop axis { _padButtons := pad, events := [] })._padButtons (i * 2) = true ↔
        (axis i).lt (-AXIS_BUTTON_THRESHOLD) = true) ∧
      ((axisLoop axis { _padButtons := pad, events := [] })._padButtons (i * 2 + 1) = true ↔
        (axis i).gt AXIS_BUTTON_THRESHOLD = true)) ∧
    (∀ (pad : Nat → Bool), PadReachable PadButtonStart PadButtonCount_ pad →
      ∀ i, i < AxisButtons.COUNT / 2 → ¬(pad (i * 2) = true ∧ pad (i * 2 + 1) = true)) := by
  have hloop : ∀ (pad : Nat → Bool) (axis : Nat → AxisValue) (i : Nat),
      i < AxisButtons.COUNT / 2 →
      (axisLoop axis { _padButtons := pad, events := [] })._padButtons (i * 2) =
        (axisTarget (axis i) (pad (i * 2)) (pad (i * 2 + 1))).1 ∧
      (axisLoop axis { _padButtons := pad, events := [] })._padButtons (i * 2 + 1) =
        (axisTarget (axis i) (pad (i * 2)) (pad (i * 2 + 1))).2 := by
    intro pad axis i hi
    have hpad := (axisLoop_spec axis pad).1
    simp only [AxisButtons.COUNT] at hi hpad
    have h0 : i * 2 < 8 := by omega
    have h1 : i * 2 + 1 < 8 := by omega
    have hd0 : i * 2 / 2 = i := by omega
    have hd1 : (i * 2 + 1) / 2 = i := by omega
    have hm0 : i * 2 % 2 = 0 := by omega
    have hm1 : (i * 2 + 1) % 2 = 1 := by omega
    constructor
    · rw [hpad (i * 2)]
      simp [h0, hd0, hm0]
    · rw [hpad (i * 2 + 1)]
      simp [h1, hd1, hm1]
  constructor
  · intro pad axis i hi hnot
    obtain ⟨hl, hr⟩ := hloop pad axis i hi
    obtain ⟨tl, tr⟩ := axisTarget_of_not_both (axis i) (pad (i * 2)) (pad (i * 2 + 1)) hnot
    rw [hl, hr, tl, tr]
    exact ⟨Iff.rfl, Iff.rfl⟩
  · intro pad hreach
    induction hreach with
    | clear => intro i _ h; simp at h
    | step pad axis button _ ih =>
      intro i hi
      have hlow0 : i * 2 < PadButtonStart := by
        simp only [AxisButtons.COUNT] at hi hstart; omega
      have hlow1 : i * 2 + 1 < PadButtonStart := by
        simp only [AxisButtons.COUNT] at hi hstart; omega
      obtain ⟨hl, hr⟩ := hloop pad axis i hi
      obtain ⟨tl, tr⟩ := axisTarget_of_not_both (axis i) (pad (i * 2)) (pad (i * 2 + 1))
        (ih i hi)
      simp only [processPad, buttonLoop_keeps_lower _ _ _ _ hlow0,
        buttonLoop_keeps_lower _ _ _ _ hlow1, hl, hr, tl, tr]
      intro hboth
      have := AxisValue.lt_neg_threshold_not_gt (axis i) hboth.1
      rw [hboth.2] at this
      cases this

open RetroPlugController in
/-- C18, at a concrete input: the button loop starts at flag 40, all flags are clear and every
stick is pushed fully to the negative side. -/
theorem axis_flags_follow_reading_witness :
    AxisButtons.COUNT ≤ 40 ∧
    (((axisLoop (fun _ => AxisValue.finite (-1))
          { _padButtons := fun _ => false, events := [] })._padButtons (0 * 2) = true ↔
        (AxisValue.finite (-1)).lt (-AXIS_BUTTON_THRESHOLD) = true) ∧
      ((axisLoop (fun _ => AxisValue.finite (-1))
          { _padButtons := fun _ => false, events := [] })._padButtons (0 * 2 + 1) = true ↔
        (AxisValue.finite (-1)).gt AXIS_BUTTON_THRESHOLD = true)) ∧
    ¬((processPad 40 20 (fun _ => AxisValue.finite (-1)) (fun _ => false)
          (fun _ => false))._padButtons (0 * 2) = true ∧
      (processPad 40 20 (fun _ => AxisValue.finite (-1)) (fun _ => false)
          (fun _ => false))._padButtons (0 * 2 + 1) = true) :=
  ⟨by decide,
    (axis_flags_follow_reading 40 20 (by decide)).1 (fun _ => false)
      (fun _ => AxisValue.finite (-1)) 0 (by decide) (by simp),
    (axis_flags_follow_reading 40 20 (by decide)).2 _
      (PadReachable.step (fun _ => false) (fun _ => AxisValue.finite (-1)) (fun _ => false)
        PadReachable.clear) 0 (by decide)⟩

open RetroPlugController in
/-- C19. The calls `onPadButton` of the axis loop are edge-triggered.  For every prior value of
the flags and every reading, and for every flag `b`, the calls issued for `b` are: one call
carrying the new value when the loop changes the flag, no call when it keeps its value.  When a
stick flips from one direction to the other, the calls for its axis are the release of the old
direction followed by the press of the new one.  In a second call of `processPad` with the same
axis readings the axis loop issues no call; here the button loop is taken to start above the
axis flags. -/
theorem axis_events_edge_triggered (PadButtonStart PadButtonCount_ : Nat)
    (hstart : AxisButtons.COUNT ≤ PadButtonStart) (pad : Nat → Bool) (axis : Nat → AxisValue) :
    (∀ b, (axisLoop axis { _padButtons := pad, events := [] }).events.filter
        (fun e => e.1 = b) =
      if (axisLoop axis { _padButtons := pad, events := [] })._padButtons b = pad b then []
      else [(b, (axisLoop axis { _padButtons := pad, events := [] })._padButtons b)]) ∧
    (∀ i, i < AxisButtons.COUNT / 2 → pad (i * 2) = false → pad (i * 2 + 1) = true →
      (axis i).lt (-AXIS_BUTTON_THRESHOLD) = true →
      (axisLoop axis { _padButtons := pad, events := [] }).events.filter
          (fun e => e.1 = i * 2 ∨ e.1 = i * 2 + 1) =
        [(i * 2 + 1, false), (i * 2, true)]) ∧
    (∀ i, i < AxisButtons.COUNT / 2 → pad (i * 2) = true → pad (i * 2 + 1) = false →
      (axis i).gt AXIS_BUTTON_THRESHOLD = true →
      (axisLoop axis { _padButtons := pad, events := [] }).events.filter
          (fun e => e.1 = i * 2 ∨ e.1 = i * 2 + 1) =
        [(i * 2, false), (i * 2 + 1, true)]) ∧
    (∀ button, (axisLoop axis
      { _padButtons := (processPad PadButtonStart PadButtonCount_ axis button pad)._padButtons,
        events := [] }).events = []) := by
  obtain ⟨hpad, hev⟩ := axisLoop_spec axis pad
  have hof : ∀ i, ((axisLoop axis { _padButtons := pad, events := [] }).events).filter
      (fun e => e.1 / 2 = i) =
      if i ∈ List.range (AxisButtons.COUNT / 2) then
        axisEvents (axis i) i (pad (i * 2)) (pad (i * 2 + 1)) else [] := by
    intro i
    rw [hev]
    exact axisEvents_flatten_filter
      (fun k => axisEvents (axis k) k (pad (k * 2)) (pad (k * 2 + 1)))
      (fun k => axisEvents_button (axis k) k (pad (k * 2)) (pad (k * 2 + 1))) i
      (List.range (AxisButtons.COUNT / 2)) (List.nodup_range _)
  have haxis : ∀ i, ((axisLoop axis { _padButtons := pad, events := [] }).events).filter
      (fun e => e.1 = i * 2 ∨ e.1 = i * 2 + 1) =
      ((axisLoop axis { _padButtons := pad, events := [] }).events).filter
        (fun e => e.1 / 2 = i) := by
    intro i
    apply List.filter_congr
    intro e _
    simp only [decide_eq_decide]
    omega
  refine ⟨?_, ?_, ?_, ?_⟩
  · intro b
    have hsplit : ((axisLoop axis { _padButtons := pad, events := [] }).events).filter
        (fun e => e.1 = b) =
        (((axisLoop axis { _padButtons := pad, events := [] }).events).filter
          (fun e => e.1 / 2 = b / 2)).filter (fun e => e.1 = b) := by
      rw [List.filter_filter]
      apply List.filter_congr
      intro e _
      by_cases h : e.1 = b
      · simp [h]
      · simp [h]
    rw [hsplit, hof (b / 2), hpad b]
    have hmem : b / 2 ∈ List.range (AxisButtons.COUNT / 2) ↔ b < AxisButtons.COUNT := by
      simp only [List.mem_range, AxisButtons.COUNT]
      omega
    by_cases hb : b < AxisButtons.COUNT
    · rw [if_pos (hmem.mpr hb), if_pos hb, axisEvents_filter]
      by_cases hm : b % 2 = 0
      · have hb0 : b = b / 2 * 2 := by omega
        rw [if_pos hb0, if_pos hm, ← hb0]
      · have hb0 : ¬ b = b / 2 * 2 := by omega
        have hb1 : b = b / 2 * 2 + 1 := by omega
        rw [if_neg hb0, if_pos hb1, if_neg hm, ← hb1]
    · rw [if_neg (fun h => hb (hmem.mp h)), if_neg hb]
      simp
  · intro i hi hl hr hlt
    rw [haxis i, hof i, if_pos (List.mem_range.mpr hi)]
    simp [axisEvents, hl, hr, hlt]
  · intro i hi hl hr hgt
    have hlt : (axis i).lt (-AXIS_BUTTON_THRESHOLD) = false := by
      rcases Bool.eq_false_or_eq_true ((axis i).lt (-AXIS_BUTTON_THRESHOLD)) with h | h
      · have := AxisValue.lt_neg_threshold_not_gt (axis i) h
        rw [hgt] at this
        cases this
      · exact h
    rw [haxis i, hof i, if_pos (List.mem_range.mpr hi)]
    simp [axisEvents, hl, hr, hlt, hgt]
  · intro button
    rw [(axisLoop_spec axis _).2]
    apply List.flatten_eq_nil_iff.mpr
    intro chunk hchunk
    obtain ⟨i, hi, rfl⟩ := List.mem_map.mp hchunk
    have hi4 : i < AxisButtons.COUNT / 2 := List.mem_range.mp hi
    simp only [AxisButtons.COUNT] at hi4
    have h0 : i * 2 < AxisButtons.COUNT := by simp only [AxisButtons.COUNT]; omega
    have h1 : i * 2 + 1 < AxisButtons.COUNT := by simp only [AxisButtons.COUNT]; omega
    simp only [processPad]
    rw [buttonLoop_keeps_lower PadButtonStart PadButtonCount_ button (i * 2) (by omega),
      buttonLoop_keeps_lower PadButtonStart PadButtonCount_ button (i * 2 + 1) (by omega)]
    have hd0 : i * 2 / 2 = i := by omega
    have hd1 : (i * 2 + 1) / 2 = i := by omega
    have hm0 : i * 2 % 2 = 0 := by omega
    have hm1 : ¬ (i * 2 + 1) % 2 = 0 := by omega
    rw [hpad (i * 2), hpad (i * 2 + 1), if_pos h0, if_pos h1, if_pos hm0, if_neg hm1, hd0, hd1]
    exact (axisTarget_idem (axis i) i (pad (i * 2)) (pad (i * 2 + 1))).2

open RetroPlugController in
/-- C19, at a concrete input: the button loop starts at flag 40, the first stick was held to the
positive side and is now read fully negative, the other sticks rest at 0. -/
theorem axis_events_edge_triggered_witness :
    AxisButtons.COUNT ≤ 40 ∧
    (axisLoop (fun i => if i = 0 then AxisValue.finite (-1) else AxisValue.finite 0)
        { _padButtons := fun b => decide (b = 1), events := [] }).events.filter
          (fun e => e.1 = 0 * 2 ∨ e.1 = 0 * 2 + 1) =
        [(0 * 2 + 1, false), (0 * 2, true)] ∧
    (axisLoop (fun i => if i = 0 then AxisValue.finite (-1) else AxisValue.finite 0)
      { _padButtons := (processPad 40 20
          (fun i => if i = 0 then AxisValue.finite (-1) else AxisValue.finite 0)
          (fun _ => false) (fun b => decide (b = 1)))._padButtons,
        events := [] }).events = [] :=
  ⟨by decide,
    (axis_events_edge_triggered 40 20 (by decide) (fun b => decide (b = 1))
      (fun i => if i = 0 then AxisValue.finite (-1) else AxisValue.finite 0)).2.1 0
      (by decide) (by decide) (by decide)
      (by norm_num [AxisValue.lt, AXIS_BUTTON_THRESHOLD]),
    (axis_events_edge_triggered 40 20 (by decide) (fun b => decide (b = 1))
      (fun i => if i = 0 then AxisValue.finite (-1) else AxisValue.finite 0)).2.2.2
      (fun _ => false)⟩

/-! ### Menus -/

theorem set_length_append_singleton {α : Type} (l : List α) (a b : α) :
    (l ++ [a]).set l.length b = l ++ [b] := by
  induction l with
  | nil => rfl
  | cons x xs ih => simp [List.set, ih]

theorem mergeMenuItem_subMenu_none (name : String) (items : List MenuItemBase)
    (separated : Bool) (target : List MenuItemBase) (h : findSubMenu target name = none) :
    mergeMenuItem (MenuItemBase.subMenu name items) separated target =
      (true, Menu.separate separated target ++
        [MenuItemBase.subMenu name (mergeMenu items [])]) := by
  simp [mergeMenuItem, h, Menu.subMenu, set_length_append_singleton, mergeMenu]

theorem mergeMenuItem_subMenu_some (name : String) (items : List MenuItemBase)
    (separated : Bool) (target : List MenuItemBase) (i : Nat)
    (targetItems : List MenuItemBase) (h : findSubMenu target name = some (i, targetItems)) :
    mergeMenuItem (MenuItemBase.subMenu name items) separated target =
      (separated, target.set i (MenuItemBase.subMenu name (mergeMenu items targetItems))) := by
  simp [mergeMenuItem, h, mergeMenu]

theorem subMenuCount_append (n : String) (a b : List MenuItemBase) :
    subMenuCount n (a ++ b) = subMenuCount n a + subMenuCount n b := by
  simp [subMenuCount]

theorem subMenuCount_separate (n : String) (separated : Bool) (target : List MenuItemBase) :
    subMenuCount n (Menu.separate separated target) = subMenuCount n target := by
  cases separated <;>
    simp [Menu.separate, Menu.separator, subMenuCount, MenuItemBase.isSubMenuNamed]

theorem findSubMenu_none_count (n : String) (target : List MenuItemBase)
    (h : findSubMenu target n = none) : subMenuCount n target = 0 := by
  induction target with
  | nil => rfl
  | cons x xs ih =>
    cases x with
    | subMenu m items =>
      by_cases hm : m = n
      · simp [findSubMenu, hm] at h
      · simp only [findSubMenu, hm, if_false, Option.map_eq_none'] at h
        simp [subMenuCount, MenuItemBase.isSubMenuNamed, hm] at ih ⊢
        exact ih h
    | _ =>
      simp only [findSubMenu, Option.map_eq_none'] at h
      simp [subMenuCount, MenuItemBase.isSubMenuNamed] at ih ⊢
      exact ih h

theorem findSubMenu_some_count (n : String) (target : List MenuItemBase) (i : Nat)
    (items : List MenuItemBase) (h : findSubMenu target n = some (i, items)) :
    1 ≤ subMenuCount n target := by
  induction target generalizing i with
  | nil => simp [findSubMenu] at h
  | cons x xs ih =>
    cases x with
    | subMenu m its =>
      by_cases hm : m = n
      · simp [subMenuCount, MenuItemBase.isSubMenuNamed, hm]
      · simp only [findSubMenu, hm, if_false, Option.map_eq_some'] at h
        obtain ⟨⟨j, its1⟩, hj, heq⟩ := h
        simp only [Prod.mk.injEq] at heq
        obtain ⟨h0, h1⟩ := heq
        subst h0
        subst h1
        have := ih j hj
        simp [subMenuCount, MenuItemBase.isSubMenuNamed, hm] at this ⊢
        exact this
    | _ =>
      simp only [findSubMenu, Option.map_eq_some'] at h
      obtain ⟨⟨j, its1⟩, hj, heq⟩ := h
      simp only [Prod.mk.injEq] at heq
      obtain ⟨h0, h1⟩ := heq
      subst h0
      subst h1
      have := ih j hj
      simp [subMenuCount, MenuItemBase.isSubMenuNamed] at this ⊢
      exact this

theorem subMenuCount_set_found (n nm : String) (target : List MenuItemBase) (i : Nat)
    (items new : List MenuItemBase) (h : findSubMenu target nm = some (i, items)) :
    subMenuCount n (target.set i (MenuItemBase.subMenu nm new)) = subMenuCount n target := by
  induction target generalizing i with
  | nil => simp [findSubMenu] at h
  | cons x xs ih =>
    cases x with
    | subMenu m its =>
      by_cases hm : m = nm
      · simp only [findSubMenu, hm, if_true, Option.some.injEq, Prod.mk.injEq] at h
        obtain ⟨h0, _⟩ := h
        subst h0
        simp [subMenuCount, MenuItemBase.isSubMenuNamed, hm, List.countP_cons]
      · simp only [findSubMenu, hm, if_false, Option.map_eq_some'] at h
        obtain ⟨⟨j, its1⟩, hj, heq⟩ := h
        simp only [Prod.mk.injEq] at heq
        obtain ⟨h0, h1⟩ := heq
        subst h0
        subst h1
        have := ih j hj
        simp only [subMenuCount, List.set_cons_succ, List.countP_cons] at this ⊢
        rw [this]
    | _ =>
      simp only [findSubMenu, Option.map_eq_some'] at h
      obtain ⟨⟨j, its1⟩, hj, heq⟩ := h
      simp only [Prod.mk.injEq] at heq
      obtain ⟨h0, h1⟩ := heq
      subst h0
      subst h1
      have := ih j hj
      simp only [subMenuCount, List.set_cons_succ, List.countP_cons] at this ⊢
      rw [this]

theorem findSubMenu_append (n : String) (target extra : List MenuItemBase)
    (found : Nat × List MenuItemBase) (h : findSubMenu target n = some found) :
    findSubMenu (target ++ extra) n = some found := by
  induction target generalizing found with
  | nil => simp [findSubMenu] at h
  | cons x xs ih =>
    cases x with
    | subMenu m its =>
      by_cases hm : m = n
      · simpa [findSubMenu, hm] using h
      · simp only [findSubMenu, hm, if_false, Option.map_eq_some'] at h
        obtain ⟨r, hr, heq⟩ := h
        simp [findSubMenu, hm, ih r hr, heq]
    | _ =>
      simp only [findSubMenu, Option.map_eq_some'] at h
      obtain ⟨r, hr, heq⟩ := h
      simp [findSubMenu, ih r hr, heq]

theorem findSubMenu_separate (n : String) (separated : Bool) (target : List MenuItemBase)
    (found : Nat × List MenuItemBase) (h : findSubMenu target n = some found) :
    findSubMenu (Menu.separate separated target) n = some found := by
  cases separated
  · exact findSubMenu_append n target _ found h
  · exact h

theorem findSubMenu_set_same (n : String) (target : List MenuItemBase) (i : Nat)
    (items new : List MenuItemBase) (h : findSubMenu target n = some (i, items)) :
    findSubMenu (target.set i (MenuItemBase.subMenu n new)) n = some (i, new) := by
  induction target generalizing i with
  | nil => simp [findSubMenu] at h
  | cons x xs ih =>
    cases x with
    | subMenu m its =>
      by_cases hm : m = n
      · simp only [findSubMenu, hm, if_true, Option.some.injEq, Prod.mk.injEq] at h
        obtain ⟨h0, _⟩ := h
        subst h0
        simp [findSubMenu]
      · simp only [findSubMenu, hm, if_false, Option.map_eq_some'] at h
        obtain ⟨⟨j, its1⟩, hj, heq⟩ := h
        simp only [Prod.mk.injEq] at heq
        obtain ⟨h0, h1⟩ := heq
        subst h0
        subst h1
        simp [findSubMenu, hm, ih j hj]
    | _ =>
      simp only [findSubMenu, Option.map_eq_some'] at h
      obtain ⟨⟨j, its1⟩, hj, heq⟩ := h
      simp only [Prod.mk.injEq] at heq
      obtain ⟨h0, h1⟩ := heq
      subst h0
      subst h1
      simp [findSubMenu, ih j hj]

theorem findSubMenu_set_other (n nm : String) (hne : nm ≠ n) (target : List MenuItemBase)
    (i : Nat) (items new : List MenuItemBase) (h : findSubMenu target nm = some (i, items)) :
    findSubMenu (target.set i (MenuItemBase.subMenu nm new)) n = findSubMenu target n := by
  induction target generalizing i with
  | nil => simp [findSubMenu] at h
  | cons x xs ih =>
    cases x with
    | subMenu m its =>
      by_cases hm : m = nm
      · simp only [findSubMenu, hm, if_true, Option.some.injEq, Prod.mk.injEq] at h
        obtain ⟨h0, _⟩ := h
        subst h0
        simp [findSubMenu, hm, hne]
      · simp only [findSubMenu, hm, if_false, Option.map_eq_some'] at h
        obtain ⟨⟨j, its1⟩, hj, heq⟩ := h
        simp only [Prod.mk.injEq] at heq
        obtain ⟨h0, h1⟩ := heq
        subst h0
        subst h1
        simp [findSubMenu, ih j hj]
    | _ =>
      simp only [findSubMenu, Option.map_eq_some'] at h
      obtain ⟨⟨j, its1⟩, hj, heq⟩ := h
      simp only [Prod.mk.injEq] at heq
      obtain ⟨h0, h1⟩ := heq
      subst h0
      subst h1
      simp [findSubMenu, ih j hj]

/-- One pass of the loop body of `mergeMenu` changes the number of top-level sub-menus named `n`
only when the source item is a sub-menu named `n` and the target has none. -/
theorem mergeMenuItem_count (n : String) (itemBase : MenuItemBase) (separated : Bool)
    (target : List MenuItemBase) :
    subMenuCount n (mergeMenuItem itemBase separated target).2 =
      if itemBase.isSubMenuNamed n = true then max (subMenuCount n target) 1
      else subMenuCount n target := by
  cases itemBase with
  | subMenu name items =>
    cases hfind : findSubMenu target name with
    | none =>
      rw [mergeMenuItem_subMenu_none name items separated target hfind]
      simp only [subMenuCount_append, subMenuCount_separate]
      by_cases hn : name = n
      · subst hn
        rw [findSubMenu_none_count name target hfind]
        simp [MenuItemBase.isSubMenuNamed, subMenuCount]
      · simp [MenuItemBase.isSubMenuNamed, hn, subMenuCount]
    | some found =>
      obtain ⟨i, targetItems⟩ := found
      rw [mergeMenuItem_subMenu_some name items separated target i targetItems hfind]
      simp only [subMenuCount_set_found n name target i targetItems _ hfind]
      by_cases hn : name = n
      · subst hn
        have := findSubMenu_some_count name target i targetItems hfind
        simp [MenuItemBase.isSubMenuNamed]
        omega
      · simp [MenuItemBase.isSubMenuNamed, hn]
  | action name function active =>
    simp [mergeMenuItem, Menu.action, subMenuCount_append, subMenuCount_separate,
      MenuItemBase.isSubMenuNamed]
    simp [subMenuCount, MenuItemBase.isSubMenuNamed]
  | title name =>
    simp [mergeMenuItem, Menu.title, subMenuCount_append, subMenuCount_separate,
      MenuItemBase.isSubMenuNamed]
    simp [subMenuCount, MenuItemBase.isSubMenuNamed]
  | select name checked function active =>
    simp [mergeMenuItem, Menu.select, subMenuCount_append, subMenuCount_separate,
      MenuItemBase.isSubMenuNamed]
    simp [subMenuCount, MenuItemBase.isSubMenuNamed]
  | multiSelect items value function active =>
    simp [mergeMenuItem, Menu.multiSelect, subMenuCount_append, subMenuCount_separate,
      MenuItemBase.isSubMenuNamed]
    simp [subMenuCount, MenuItemBase.isSubMenuNamed]
  | separator =>
    simp [mergeMenuItem, Menu.separator, subMenuCount_append, MenuItemBase.isSubMenuNamed]
    simp [subMenuCount, MenuItemBase.isSubMenuNamed]

theorem mergeMenuLoop_count (n : String) (source : List MenuItemBase) :
    ∀ (separated : Bool) (target : List MenuItemBase),
      subMenuCount n (mergeMenuLoop source separated target) =
        if source.any (MenuItemBase.isSubMenuNamed n) = true then max (subMenuCount n target) 1
        else subMenuCount n target := by
  induction source with
  | nil => intro separated target; simp [mergeMenuLoop]
  | cons x xs ih =>
    intro separated target
    have hstep := mergeMenuItem_count n x separated target
    rw [mergeMenuLoop]
    rw [ih, hstep]
    rcases Bool.eq_false_or_eq_true (x.isSubMenuNamed n) with hx | hx <;>
      rcases Bool.eq_false_or_eq_true (xs.any (MenuItemBase.isSubMenuNamed n)) with hxs | hxs <;>
      simp [hx, hxs]

/-- One pass of the loop body of `mergeMenu` keeps the first sub-menu named `n` of the target in
its place, and changes its items only when the source item is a sub-menu named `n`, by merging
that sub-menu into them. -/
theorem mergeMenuItem_found (n : String) (itemBase : MenuItemBase) (separated : Bool)
    (target : List MenuItemBase) (i : Nat) (targetItems : List MenuItemBase)
    (h : findSubMenu target n = some (i, targetItems)) :
    findSubMenu (mergeMenuItem itemBase separated target).2 n =
      some (i, (subMenusNamed n [itemBase]).foldl (fun t sub => mergeMenu sub t) targetItems) := by
  cases itemBase with
  | subMenu name items =>
    by_cases hn : name = n
    · subst hn
      rw [mergeMenuItem_subMenu_some name items separated target i targetItems h]
      simp [subMenusNamed, findSubMenu_set_same name target i targetItems _ h]
    · cases hfind : findSubMenu target name with
      | none =>
        rw [mergeMenuItem_subMenu_none name items separated target hfind]
        simp only [subMenusNamed, hn, if_false, List.foldl_nil]
        exact findSubMenu_append n _ _ _ (findSubMenu_separate n separated target _ h)
      | some found =>
        obtain ⟨j, otherItems⟩ := found
        rw [mergeMenuItem_subMenu_some name items separated target j otherItems hfind]
        simp only [subMenusNamed, hn, if_false, List.foldl_nil]
        rw [findSubMenu_set_other n name hn target j otherItems _ hfind]
        exact h
  | action name function active =>
    simp only [mergeMenuItem, Menu.action, subMenusNamed, List.foldl_nil]
    exact findSubMenu_append n _ _ _ (findSubMenu_separate n separated target _ h)
  | title name =>
    simp only [mergeMenuItem, Menu.title, subMenusNamed, List.foldl_nil]
    exact findSubMenu_append n _ _ _ (findSubMenu_separate n separated target _ h)
  | select name checked function active =>
    simp only [mergeMenuItem, Menu.select, subMenusNamed, List.foldl_nil]
    exact findSubMenu_append n _ _ _ (findSubMenu_separate n separated target _ h)
  | multiSelect items value function active =>
    simp only [mergeMenuItem, Menu.multiSelect, subMenusNamed, List.foldl_nil]
    exact findSubMenu_append n _ _ _ (findSubMenu_separate n separated target _ h)
  | separator =>
    simp only [mergeMenuItem, Menu.separator, subMenusNamed, List.foldl_nil]
    exact findSubMenu_append n _ _ _ h

theorem subMenusNamed_cons (n : String) (x : MenuItemBase) (xs : List MenuItemBase) :
    subMenusNamed n (x :: xs) = subMenusNamed n [x] ++ subMenusNamed n xs := by
  cases x with
  | subMenu m items =>
    by_cases hm : m = n <;> simp [subMenusNamed, hm]
  | _ => simp [subMenusNamed]

theorem mergeMenuLoop_found (n : String) (source : List MenuItemBase) :
    ∀ (separated : Bool) (target : List MenuItemBase) (i : Nat)
      (targetItems : List MenuItemBase),
      findSubMenu target n = some (i, targetItems) →
      findSubMenu (mergeMenuLoop source separated target) n =
        some (i, (subMenusNamed n source).foldl (fun t sub => mergeMenu sub t) targetItems) := by
  induction source with
  | nil => intro separated target i targetItems h; simpa [mergeMenuLoop, subMenusNamed] using h
  | cons x xs ih =>
    intro separated target i targetItems h
    have hstep := mergeMenuItem_found n x separated target i targetItems h
    rw [mergeMenuLoop, subMenusNamed_cons, List.foldl_append]
    exact ih _ _ i _ hstep

theorem findSubMenu_some_get (n : String) (target : List MenuItemBase) (i : Nat)
    (items : List MenuItemBase) (h : findSubMenu target n = some (i, items)) :
    target.get? i = some (MenuItemBase.subMenu n items) ∧
      ∀ j, j < i → (target.get? j).any (MenuItemBase.isSubMenuNamed n) = false := by
  induction target generalizing i with
  | nil => simp [findSubMenu] at h
  | cons x xs ih =>
    cases x with
    | subMenu m its =>
      by_cases hm : m = n
      · simp only [findSubMenu, hm, if_true, Option.some.injEq, Prod.mk.injEq] at h
        obtain ⟨h0, h1⟩ := h
        subst h0
        subst h1
        simp [hm]
      · simp only [findSubMenu, hm, if_false, Option.map_eq_some'] at h
        obtain ⟨⟨j, its1⟩, hj, heq⟩ := h
        simp only [Prod.mk.injEq] at heq
        obtain ⟨h0, h1⟩ := heq
        subst h0
        subst h1
        obtain ⟨hget, hbefore⟩ := ih j hj
        refine ⟨by simpa using hget, ?_⟩
        intro k hk
        cases k with
        | zero => simp [MenuItemBase.isSubMenuNamed, hm]
        | succ k => simpa using hbefore k (by omega)
    | _ =>
      simp only [findSubMenu, Option.map_eq_some'] at h
      obtain ⟨⟨j, its1⟩, hj, heq⟩ := h
      simp only [Prod.mk.injEq] at heq
      obtain ⟨h0, h1⟩ := heq
      subst h0
      subst h1
      obtain ⟨hget, hbefore⟩ := ih j hj
      refine ⟨by simpa using hget, ?_⟩
      intro k hk
      cases k with
      | zero => simp [MenuItemBase.isSubMenuNamed]
      | succ k => simpa using hbefore k (by omega)

/-- C20. `mergeMenu` never duplicates a sub-menu.  For every source, every target and every name
`n`, the number of top-level sub-menus of the target named `n` after `mergeMenu(source, target)`
is `max k 1` when the source has a top-level sub-menu named `n`, and `k` otherwise, `k` being the
number before the call.  When the target already has a sub-menu named `n`, the first of them (the
one `findSubMenu` returns, at position `i`) is still the first one afterwards, at the same
position, and its items are the outcome of merging the source sub-menus named `n` into it, one
after the other. -/
theorem mergeMenu_never_duplicates_subMenu (source target : List MenuItemBase) (n : String) :
    subMenuCount n (mergeMenu source target) =
      (if source.any (MenuItemBase.isSubMenuNamed n) = true then max (subMenuCount n target) 1
        else subMenuCount n target) ∧
    ∀ i targetItems, findSubMenu target n = some (i, targetItems) →
      (target.get? i = some (MenuItemBase.subMenu n targetItems) ∧
        ∀ j, j < i → (target.get? j).any (MenuItemBase.isSubMenuNamed n) = false) ∧
      findSubMenu (mergeMenu source target) n =
        some (i, (subMenusNamed n source).foldl (fun t sub => mergeMenu sub t) targetItems) ∧
      (mergeMenu source target).get? i =
        some (MenuItemBase.subMenu n
          ((subMenusNamed n source).foldl (fun t sub => mergeMenu sub t) targetItems)) :=
  ⟨mergeMenuLoop_count n source false target, fun i targetItems h =>
    ⟨findSubMenu_some_get n target i targetItems h,
      mergeMenuLoop_found n source false target i targetItems h,
      (findSubMenu_some_get n _ i _
        (mergeMenuLoop_found n source false target i targetItems h)).1⟩⟩

/-- C20, at a concrete input: the target has two sub-menus named `a`, the source has two sub-menus
named `a` and one named `b`.  The target ends with two sub-menus named `a` and one named `b`, and
both source sub-menus named `a` went into the first one of the target. -/
theorem mergeMenu_never_duplicates_subMenu_witness :
    subMenuCount "a" (mergeMenu sourceMenu targetMenu) = 2 ∧
      subMenuCount "b" (mergeMenu sourceMenu targetMenu) = 1 ∧
      (mergeMenu sourceMenu targetMenu).get? 1 =
        some (MenuItemBase.subMenu "a"
          [MenuItemBase.action "x" none true, MenuItemBase.separator,
            MenuItemBase.action "y" (some 1) true, MenuItemBase.separator,
            MenuItemBase.title "t"]) :=
  ⟨(mergeMenu_never_duplicates_subMenu sourceMenu targetMenu "a").1.trans (by decide),
    (mergeMenu_never_duplicates_subMenu sourceMenu targetMenu "b").1.trans (by decide),
    ((mergeMenu_never_duplicates_subMenu sourceMenu targetMenu "a").2 1
      [MenuItemBase.action "x" none true] rfl).2.2.trans rfl⟩

/-! ### Merging only appends -/

theorem get?_length_append_cons {α : Type} (l : List α) (a : α) (r : List α) :
    (l ++ a :: r).get? l.length = some a := by
  induction l with
  | nil => rfl
  | cons x xs ih => simpa using ih

theorem separate_append (separated : Bool) (target : List MenuItemBase) (x : MenuItemBase) :
    ∃ first rest, Menu.separate separated target ++ [x] = target ++ first :: rest ∧
      (separated = false → first = MenuItemBase.separator) := by
  cases separated
  · exact ⟨MenuItemBase.separator, [x], by simp [Menu.separate, Menu.separator], fun _ => rfl⟩
  · exact ⟨x, [], by simp [Menu.separate], fun h => by cases h⟩

/-- One pass of the loop body of `mergeMenu` either merges a source sub-menu into the sub-menu of
the target that `findSubMenu` returns, in place and without a change of `separated`, or appends
at least one item, the first of them a separator unless `separated` was set. -/
theorem mergeMenuItem_shape (itemBase : MenuItemBase) (separated : Bool)
    (target : List MenuItemBase) :
    (itemBase.isPresentSubMenu target = true ∧
      ∃ name items i targetItems, itemBase = MenuItemBase.subMenu name items ∧
        findSubMenu target name = some (i, targetItems) ∧
        mergeMenuItem itemBase separated target =
          (separated, target.set i (MenuItemBase.subMenu name (mergeMenu items targetItems)))) ∨
    (itemBase.isPresentSubMenu target = false ∧
      ∃ first rest, mergeMenuItem itemBase separated target = (true, target ++ first :: rest) ∧
        (separated = false → first = MenuItemBase.separator)) := by
  cases itemBase with
  | subMenu name items =>
    cases hfind : findSubMenu target name with
    | none =>
      right
      refine ⟨by simp [MenuItemBase.isPresentSubMenu, hfind], ?_⟩
      rw [mergeMenuItem_subMenu_none name items separated target hfind]
      obtain ⟨first, rest, heq, hsep⟩ := separate_append separated target
        (MenuItemBase.subMenu name (mergeMenu items []))
      exact ⟨first, rest, by rw [heq], hsep⟩
    | some found =>
      obtain ⟨i, targetItems⟩ := found
      left
      exact ⟨by simp [MenuItemBase.isPresentSubMenu, hfind], name, items, i, targetItems, rfl,
        hfind, mergeMenuItem_subMenu_some name items separated target i targetItems hfind⟩
  | action name function active =>
    right
    obtain ⟨first, rest, heq, hsep⟩ := separate_append separated target
      (MenuItemBase.action name function true)
    exact ⟨rfl, first, rest, by simp only [mergeMenuItem, Menu.action]; rw [heq], hsep⟩
  | title name =>
    right
    obtain ⟨first, rest, heq, hsep⟩ := separate_append separated target
      (MenuItemBase.title name)
    exact ⟨rfl, first, rest, by simp only [mergeMenuItem, Menu.title]; rw [heq], hsep⟩
  | select name checked function active =>
    right
    obtain ⟨first, rest, heq, hsep⟩ := separate_append separated target
      (MenuItemBase.select name checked function true)
    exact ⟨rfl, first, rest, by simp only [mergeMenuItem, Menu.select]; rw [heq], hsep⟩
  | multiSelect items value function active =>
    right
    obtain ⟨first, rest, heq, hsep⟩ := separate_append separated target
      (MenuItemBase.multiSelect items value function true)
    exact ⟨rfl, first, rest, by simp only [mergeMenuItem, Menu.multiSelect]; rw [heq], hsep⟩
  | separator =>
    right
    exact ⟨rfl, MenuItemBase.separator, [], by simp [mergeMenuItem, Menu.separator],
      fun _ => rfl⟩

theorem outline_set_found (nm : String) (target : List MenuItemBase) (i : Nat)
    (items new : List MenuItemBase) (h : findSubMenu target nm = some (i, items)) :
    (target.set i (MenuItemBase.subMenu nm new)).map MenuItemBase.outline =
      target.map MenuItemBase.outline := by
  obtain ⟨hget, _⟩ := findSubMenu_some_get nm target i items h
  apply List.ext_get?
  intro k
  by_cases hk : k = i
  · subst hk
    have hlt : k < target.length := by
      rcases Nat.lt_or_ge k target.length with hlt | hge
      · exact hlt
      · rw [List.get?_eq_none.mpr hge] at hget
        cases hget
    simp [List.getElem?_set, hlt, MenuItemBase.outline] at hget ⊢
    simp [hget, MenuItemBase.outline]
  · have hk2 : ¬ i = k := fun h => hk h.symm
    simp [List.getElem?_set, hk2]

/-- The loop of `mergeMenu` keeps the items the target has, in their order and in front, up to
what the sub-menus among them hold. -/
theorem mergeMenuLoop_outline (source : List MenuItemBase) :
    ∀ (separated : Bool) (target : List MenuItemBase),
      ∃ extra, (mergeMenuLoop source separated target).map MenuItemBase.outline =
        target.map MenuItemBase.outline ++ extra := by
  induction source with
  | nil => intro separated target; exact ⟨[], by simp [mergeMenuLoop]⟩
  | cons x xs ih =>
    intro separated target
    rw [mergeMenuLoop]
    rcases mergeMenuItem_shape x separated target with
      ⟨_, name, items, i, targetItems, _, hfind, hstep⟩ | ⟨_, first, rest, hstep, _⟩
    · rw [hstep]
      obtain ⟨extra, hextra⟩ := ih separated
        (target.set i (MenuItemBase.subMenu name (mergeMenu items targetItems)))
      refine ⟨extra, ?_⟩
      rw [hextra, outline_set_found name target i targetItems _ hfind]
    · rw [hstep]
      obtain ⟨extra, hextra⟩ := ih true (target ++ first :: rest)
      refine ⟨(first :: rest).map MenuItemBase.outline ++ extra, ?_⟩
      rw [hextra, List.map_append, List.append_assoc]

theorem mergeMenuLoop_length_le (source : List MenuItemBase) (separated : Bool)
    (target : List MenuItemBase) :
    target.length ≤ (mergeMenuLoop source separated target).length := by
  obtain ⟨extra, hextra⟩ := mergeMenuLoop_outline source separated target
  have := congrArg List.length hextra
  simp only [List.length_map, List.length_append] at this
  omega

theorem outline_eq_separator (item : MenuItemBase)
    (h : item.outline = MenuItemBase.separator) : item = MenuItemBase.separator := by
  cases item <;> simp [MenuItemBase.outline] at h ⊢

/-- Started with `separated` unset, the loop of `mergeMenu` puts a separator first when it
appends at all. -/
theorem mergeMenuLoop_separator_first (source : List MenuItemBase) :
    ∀ (target : List MenuItemBase) (first : MenuItemBase),
      (mergeMenuLoop source false target).get? target.length = some first →
      first = MenuItemBase.separator := by
  induction source with
  | nil =>
    intro target first h
    simp [mergeMenuLoop] at h
  | cons x xs ih =>
    intro target first h
    rw [mergeMenuLoop] at h
    rcases mergeMenuItem_shape x false target with
      ⟨_, name, items, i, targetItems, _, hfind, hstep⟩ | ⟨_, added, rest, hstep, hsep⟩
    · rw [hstep] at h
      have hlen : (target.set i (MenuItemBase.subMenu name (mergeMenu items targetItems))).length
          = target.length := by simp
      rw [← hlen] at h
      exact ih _ first h
    · rw [hstep] at h
      have hadded := hsep rfl
      subst hadded
      obtain ⟨extra, hextra⟩ := mergeMenuLoop_outline xs true
        (target ++ MenuItemBase.separator :: rest)
      have hmap : ((mergeMenuLoop xs true (target ++ MenuItemBase.separator :: rest)).map
          MenuItemBase.outline).get? target.length = some first.outline := by
        simp only [List.get?_eq_getElem?, List.getElem?_map] at h ⊢
        rw [h]
        rfl
      have hsep : ((target ++ MenuItemBase.separator :: rest).map MenuItemBase.outline ++
          extra).get? target.length = some MenuItemBase.separator := by
        have hat := get?_length_append_cons (target.map MenuItemBase.outline)
          MenuItemBase.separator (rest.map MenuItemBase.outline ++ extra)
        rw [List.length_map] at hat
        rw [List.map_append, List.map_cons, List.append_assoc, List.cons_append]
        exact hat
      rw [hextra, hsep] at hmap
      exact outline_eq_separator first (Option.some.inj hmap).symm

theorem isPresentSubMenu_set_found (nm : String) (target : List MenuItemBase) (i : Nat)
    (items new : List MenuItemBase) (h : findSubMenu target nm = some (i, items))
    (x : MenuItemBase) :
    x.isPresentSubMenu (target.set i (MenuItemBase.subMenu nm new)) =
      x.isPresentSubMenu target := by
  cases x with
  | subMenu n its =>
    by_cases hn : nm = n
    · subst hn
      simp [MenuItemBase.isPresentSubMenu, findSubMenu_set_same nm target i items new h, h]
    · simp [MenuItemBase.isPresentSubMenu, findSubMenu_set_other n nm hn target i items new h]
  | _ => rfl

/-- The loop of `mergeMenu` leaves the number of items of the target as it is exactly when every
source item is a sub-menu the target already has. -/
theorem mergeMenuLoop_length_eq (source : List MenuItemBase) :
    ∀ (separated : Bool) (target : List MenuItemBase),
      (mergeMenuLoop source separated target).length = target.length ↔
        source.all (MenuItemBase.isPresentSubMenu target) = true := by
  induction source with
  | nil => intro separated target; simp [mergeMenuLoop]
  | cons x xs ih =>
    intro separated target
    rw [mergeMenuLoop]
    rcases mergeMenuItem_shape x separated target with
      ⟨hpresent, name, items, i, targetItems, _, hfind, hstep⟩ | ⟨habsent, first, rest, hstep, _⟩
    · rw [hstep]
      have hlen : (target.set i (MenuItemBase.subMenu name (mergeMenu items targetItems))).length
          = target.length := by simp
      have hall : xs.all (MenuItemBase.isPresentSubMenu
          (target.set i (MenuItemBase.subMenu name (mergeMenu items targetItems)))) =
          xs.all (MenuItemBase.isPresentSubMenu target) := by
        congr 1
        funext y
        exact isPresentSubMenu_set_found name target i targetItems _ hfind y
      rw [← hlen, ih separated _, hall]
      simp [hpresent]
    · rw [hstep]
      have hle := mergeMenuLoop_length_le xs true (target ++ first :: rest)
      simp only [List.length_append, List.length_cons] at hle
      show (mergeMenuLoop xs true (target ++ first :: rest)).length = target.length ↔ _
      constructor
      · intro h
        omega
      · intro h
        simp [habsent] at h

theorem findSubMenu_of_get (n : String) (target : List MenuItemBase) (j : Nat)
    (items : List MenuItemBase) (h : target.get? j = some (MenuItemBase.subMenu n items)) :
    ∃ i targetItems, findSubMenu target n = some (i, targetItems) := by
  induction target generalizing j with
  | nil => simp at h
  | cons x xs ih =>
    cases j with
    | zero =>
      simp at h
      subst h
      exact ⟨0, items, by simp [findSubMenu]⟩
    | succ j =>
      simp at h
      obtain ⟨i, targetItems, hfind⟩ := ih j (by simpa using h)
      cases x with
      | subMenu m its =>
        by_cases hm : m = n
        · exact ⟨0, its, by simp [findSubMenu, hm]⟩
        · exact ⟨i + 1, targetItems, by simp [findSubMenu, hm, hfind]⟩
      | _ => exact ⟨i + 1, targetItems, by simp [findSubMenu, hfind]⟩

theorem subMenusNamed_of_absent (n : String) (target : List MenuItemBase) (x : MenuItemBase)
    (habsent : x.isPresentSubMenu target = false) (i : Nat) (targetItems : List MenuItemBase)
    (h : findSubMenu target n = some (i, targetItems)) : subMenusNamed n [x] = [] := by
  cases x with
  | subMenu m its =>
    by_cases hm : m = n
    · subst hm
      simp [MenuItemBase.isPresentSubMenu, h] at habsent
    · simp [subMenusNamed, hm]
  | _ => simp [subMenusNamed]

/-- What the loop of `mergeMenu` leaves in the place of a sub-menu of the target: the first
sub-menu of a name receives the source sub-menus of that name, one after the other, and every
other sub-menu is left as it is. -/
theorem mergeMenuLoop_get_subMenu (source : List MenuItemBase) :
    ∀ (separated : Bool) (target : List MenuItemBase) (j : Nat) (n : String)
      (items : List MenuItemBase),
      target.get? j = some (MenuItemBase.subMenu n items) →
      (mergeMenuLoop source separated target).get? j =
        some (MenuItemBase.subMenu n
          (if (findSubMenu target n).map Prod.fst = some j then
            (subMenusNamed n source).foldl (fun t sub => mergeMenu sub t) items
          else items)) := by
  induction source with
  | nil =>
    intro separated target j n items h
    simpa [mergeMenuLoop, subMenusNamed] using h
  | cons x xs ih =>
    intro separated target j n items h
    obtain ⟨i0, items0, hfound⟩ := findSubMenu_of_get n target j items h
    have hjlt : j < target.length := by
      rcases Nat.lt_or_ge j target.length with hlt | hge
      · exact hlt
      · rw [List.get?_eq_none.mpr hge] at h
        cases h
    rw [mergeMenuLoop, subMenusNamed_cons, List.foldl_append]
    rcases mergeMenuItem_shape x separated target with
      ⟨_, name, sub, i, targetItems, hx, hfind, hstep⟩ | ⟨habsent, first, rest, hstep, _⟩
    · rw [hstep]
      subst hx
      obtain ⟨hgeti, _⟩ := findSubMenu_some_get name target i targetItems hfind
      by_cases hn : name = n
      · subst hn
        rw [hfind] at hfound
        simp only [Option.some.injEq, Prod.mk.injEq] at hfound
        obtain ⟨h0, h1⟩ := hfound
        subst h0
        subst h1
        have hfind1 := findSubMenu_set_same name target i targetItems
          (mergeMenu sub targetItems) hfind
        by_cases hij : i = j
        · subst hij
          rw [hgeti] at h
          simp only [Option.some.injEq, MenuItemBase.subMenu.injEq, true_and] at h
          subst h
          have hget1 : (target.set i (MenuItemBase.subMenu name
              (mergeMenu sub targetItems))).get? i =
              some (MenuItemBase.subMenu name (mergeMenu sub targetItems)) := by
            simp [List.getElem?_set, hjlt]
          rw [ih separated _ i name _ hget1, hfind1, hfind]
          simp [subMenusNamed]
        · have hget1 : (target.set i (MenuItemBase.subMenu name
              (mergeMenu sub targetItems))).get? j =
              some (MenuItemBase.subMenu name items) := by
            simp [List.getElem?_set, hij]
            simpa using h
          rw [ih separated _ j name _ hget1, hfind1, hfind]
          simp [hij]
      · have hij : ¬ i = j := by
          intro hij
          subst hij
          rw [hgeti] at h
          simp only [Option.some.injEq, MenuItemBase.subMenu.injEq] at h
          exact hn h.1
        have hget1 : (target.set i (MenuItemBase.subMenu name
            (mergeMenu sub targetItems))).get? j =
            some (MenuItemBase.subMenu n items) := by
          simp [List.getElem?_set, hij]
          simpa using h
        rw [ih separated _ j n _ hget1,
          findSubMenu_set_other n name hn target i targetItems _ hfind]
        simp [subMenusNamed, hn]
    · rw [hstep]
      have hget1 : (target ++ first :: rest).get? j = some (MenuItemBase.subMenu n items) := by
        simp only [List.get?_eq_getElem?] at h ⊢
        rw [List.getElem?_append_left hjlt]
        exact h
      rw [ih true _ j n _ hget1, findSubMenu_append n target _ _ hfound, hfound,
        subMenusNamed_of_absent n target x habsent i0 items0 hfound]
      simp

/-- C21. `mergeMenu` only appends, and sets what it appends off with a separator.  For every
source and every target, with `k` the number of items the target has before the call: the first
`k` items afterwards are the items the target had, in their order, up to what the sub-menus among
them hold; a sub-menu among them holds what it held, and when it is the first of its name (the one
`findSubMenu` returns) the source sub-menus of that name are merged into it, one after the other;
the first item after these `k`, if there is one, is a separator; and nothing comes after these
`k` items exactly when every source item is a sub-menu whose name is found in the target, which
is so for an empty source. -/
theorem mergeMenu_only_appends (source target : List MenuItemBase) :
    ((mergeMenu source target).take target.length).map MenuItemBase.outline =
      target.map MenuItemBase.outline ∧
    (∀ j n items, target.get? j = some (MenuItemBase.subMenu n items) →
      (mergeMenu source target).get? j =
        some (MenuItemBase.subMenu n
          (if (findSubMenu target n).map Prod.fst = some j then
            (subMenusNamed n source).foldl (fun t sub => mergeMenu sub t) items
          else items))) ∧
    (∀ first, ((mergeMenu source target).drop target.length).head? = some first →
      first = MenuItemBase.separator) ∧
    ((mergeMenu source target).drop target.length = [] ↔
      source.all (MenuItemBase.isPresentSubMenu target) = true) ∧
    mergeMenu [] target = target := by
  refine ⟨?_, ?_, ?_, ?_, rfl⟩
  · obtain ⟨extra, hextra⟩ := mergeMenuLoop_outline source false target
    rw [List.map_take, mergeMenu, hextra]
    simp
  · intro j n items h
    exact mergeMenuLoop_get_subMenu source false target j n items h
  · intro first h
    apply mergeMenuLoop_separator_first source target first
    rw [← h, mergeMenu, List.head?_drop]
    simp
  · rw [← mergeMenuLoop_length_eq source false target, mergeMenu, List.drop_eq_nil_iff]
    have := mergeMenuLoop_length_le source false target
    omega

/-- C21, at a concrete input: merging one sub-menu named `a` into `targetMenu`, which has two
sub-menus of that name, appends nothing, and the second sub-menu named `a` stays empty. -/
theorem mergeMenu_only_appends_witness :
    (mergeMenu [MenuItemBase.subMenu "a" [MenuItemBase.title "t"]] targetMenu).drop
        targetMenu.length = [] ∧
      (mergeMenu [MenuItemBase.subMenu "a" [MenuItemBase.title "t"]] targetMenu).get? 2 =
        some (MenuItemBase.subMenu "a" []) ∧
      (mergeMenu [MenuItemBase.subMenu "a" [MenuItemBase.title "t"]] targetMenu).get? 1 =
        some (MenuItemBase.subMenu "a"
          [MenuItemBase.action "x" none true, MenuItemBase.separator,
            MenuItemBase.title "t"]) :=
  ⟨(mergeMenu_only_appends [MenuItemBase.subMenu "a" [MenuItemBase.title "t"]]
      targetMenu).2.2.2.1.mpr (by decide),
    ((mergeMenu_only_appends [MenuItemBase.subMenu "a" [MenuItemBase.title "t"]]
      targetMenu).2.1 2 "a" [] rfl).trans rfl,
    ((mergeMenu_only_appends [MenuItemBase.subMenu "a" [MenuItemBase.title "t"]]
      targetMenu).2.1 1 "a" [MenuItemBase.action "x" none true] rfl).trans rfl⟩

/-! ### Popup menus -/

theorem allItems_append (a b : List IPopupMenu.Entry) :
    IPopupMenu.allItems (a ++ b) = IPopupMenu.allItems a ++ IPopupMenu.allItems b := by
  induction a with
  | nil => simp [IPopupMenu.allItems]
  | cons x xs ih => simp [IPopupMenu.allItems, ih]

theorem TagAligned.mono (callbacks more : List MenuCallback) (place : MenuItemBase × Nat)
    (popupItem : IPopupMenu.Item) (h : TagAligned callbacks place popupItem) :
    TagAligned (callbacks ++ more) place popupItem := by
  obtain ⟨htext, htag, hcb⟩ := h
  refine ⟨htext, htag, ?_⟩
  intro t ht
  have := hcb t ht
  simp only [List.get?_eq_getElem?] at this ⊢
  have hlt : t < callbacks.length := by
    rcases Nat.lt_or_ge t callbacks.length with hlt | hge
    · exact hlt
    · rw [List.getElem?_eq_none hge] at this
      cases this
  rw [List.getElem?_append_left hlt]
  exact this

theorem forall₂_append {α β : Type} (R : α → β → Prop) (a1 a2 : List α) (b1 b2 : List β)
    (h1 : List.Forall₂ R a1 b1) (h2 : List.Forall₂ R a2 b2) :
    List.Forall₂ R (a1 ++ a2) (b1 ++ b2) := by
  induction h1 with
  | nil => exact h2
  | cons h _ ih => exact List.Forall₂.cons h ih

theorem CreatesAligned.nil (target : List IPopupMenu.Entry) (callbacks : List MenuCallback) :
    CreatesAligned [] target callbacks (target, callbacks) :=
  ⟨[], [], by simp, by simp [IPopupMenu.allItems], by simp [IPopupMenu.allItems]⟩

theorem CreatesAligned.separator (target : List IPopupMenu.Entry)
    (callbacks : List MenuCallback) :
    CreatesAligned [] target callbacks (IPopupMenu.AddSeparator target, callbacks) :=
  ⟨[IPopupMenu.Entry.separator], [], by simp [IPopupMenu.AddSeparator],
    by simp [IPopupMenu.allItems, IPopupMenu.Entry.allItems],
    by simp [IPopupMenu.allItems, IPopupMenu.Entry.allItems]⟩

theorem CreatesAligned.untagged (place : MenuItemBase × Nat) (item : IPopupMenu.Item)
    (target : List IPopupMenu.Entry) (callbacks : List MenuCallback)
    (htext : item.text = MenuItemBase.placeText place) (htag : item.tag = none)
    (hcb : place.1.hasCallback = false) :
    CreatesAligned [place] target callbacks (IPopupMenu.AddItem target item, callbacks) := by
  refine ⟨[IPopupMenu.Entry.item item], [], by simp [IPopupMenu.AddItem],
    by simp [IPopupMenu.allItems, IPopupMenu.Entry.allItems, htag], ?_⟩
  simp only [IPopupMenu.allItems, IPopupMenu.Entry.allItems, List.append_nil,
    List.singleton_append]
  refine List.Forall₂.cons ⟨htext, by simp [htag, hcb], ?_⟩ List.Forall₂.nil
  intro t ht
  rw [htag] at ht
  cases ht

theorem CreatesAligned.tagged (place : MenuItemBase × Nat) (item : IPopupMenu.Item)
    (target : List IPopupMenu.Entry) (callbacks : List MenuCallback)
    (htext : item.text = MenuItemBase.placeText place) (htag : item.tag = some callbacks.length)
    (hcb : place.1.hasCallback = true) :
    CreatesAligned [place] target callbacks
      (IPopupMenu.AddItem target item, callbacks ++ [MenuCallback.of place item]) := by
  refine ⟨[IPopupMenu.Entry.item item], [MenuCallback.of place item],
    by simp [IPopupMenu.AddItem],
    by simp [IPopupMenu.allItems, IPopupMenu.Entry.allItems, htag, List.range'], ?_⟩
  simp only [IPopupMenu.allItems, IPopupMenu.Entry.allItems, List.append_nil,
    List.singleton_append]
  refine List.Forall₂.cons ⟨htext, by simp [htag, hcb], ?_⟩ List.Forall₂.nil
  intro t ht
  rw [htag] at ht
  cases ht
  simp

theorem CreatesAligned.seq (places1 places2 : List (MenuItemBase × Nat))
    (target target1 : List IPopupMenu.Entry) (callbacks callbacks1 : List MenuCallback)
    (result : List IPopupMenu.Entry × List MenuCallback)
    (h1 : CreatesAligned places1 target callbacks (target1, callbacks1))
    (h2 : CreatesAligned places2 target1 callbacks1 result) :
    CreatesAligned (places1 ++ places2) target callbacks result := by
  obtain ⟨created1, appended1, heq1, htags1, hal1⟩ := h1
  obtain ⟨created2, appended2, heq2, htags2, hal2⟩ := h2
  simp only [Prod.mk.injEq] at heq1
  obtain ⟨ht1, hc1⟩ := heq1
  subst ht1
  subst hc1
  refine ⟨created1 ++ created2, appended1 ++ appended2, by simp [heq2], ?_, ?_⟩
  · rw [allItems_append, List.filterMap_append, htags1, htags2, List.length_append,
      List.length_append, List.range'_append_1, Nat.add_comm appended2.length]
  · rw [allItems_append, ← List.append_assoc]
    exact forall₂_append _ _ _ _ _
      (List.Forall₂.imp (fun a b hab => TagAligned.mono _ appended2 a b hab) hal1) hal2

theorem CreatesAligned.sub (places : List (MenuItemBase × Nat)) (name : String)
    (target subMenu : List IPopupMenu.Entry) (callbacks callbacks1 : List MenuCallback)
    (h : CreatesAligned places [] callbacks (subMenu, callbacks1)) :
    CreatesAligned places target callbacks
      (IPopupMenu.AddSubMenu target name subMenu, callbacks1) := by
  obtain ⟨created, appended, heq, htags, hal⟩ := h
  simp only [Prod.mk.injEq, List.nil_append] at heq
  obtain ⟨ht, hc⟩ := heq
  subst ht
  subst hc
  exact ⟨[IPopupMenu.Entry.subMenu name subMenu], appended, by simp [IPopupMenu.AddSubMenu],
    by simpa [IPopupMenu.allItems, IPopupMenu.Entry.allItems] using htags,
    by simpa [IPopupMenu.allItems, IPopupMenu.Entry.allItems] using hal⟩

theorem getD_of_drop (items names : List String) (itemName : String) (i : Nat)
    (h : items.drop i = itemName :: names) :
    items.getD i "" = itemName ∧ items.drop (i + 1) = names := by
  induction items generalizing i with
  | nil => simp at h
  | cons x xs ih =>
    cases i with
    | zero =>
      simp at h
      simp [h]
    | succ i =>
      simp at h
      simpa using ih i h

/-- The loop of the `MultiSelect` case adds one popup item for every entry that is still to come
and keeps tags and callbacks aligned. -/
theorem createMultiSelect_spec (items : List String) (value : Int) (function : Option Nat)
    (active : Bool) :
    ∀ (names : List String) (i : Nat) (target : List IPopupMenu.Entry)
      (callbacks : List MenuCallback), items.drop i = names →
      CreatesAligned
        ((List.range' i names.length).map
          (fun k => (MenuItemBase.multiSelect items value function active, k)))
        target callbacks
        (createMultiSelect (MenuItemBase.multiSelect items value function active) value function
          i names target callbacks) := by
  intro names
  induction names with
  | nil =>
    intro i target callbacks _
    simpa [createMultiSelect] using CreatesAligned.nil target callbacks
  | cons itemName names ih =>
    intro i target callbacks hdrop
    obtain ⟨hget, hdrop1⟩ := getD_of_drop items names itemName i hdrop
    have hplaces : (List.range' i (itemName :: names).length).map
        (fun k => (MenuItemBase.multiSelect items value function active, k)) =
        [(MenuItemBase.multiSelect items value function active, i)] ++
          (List.range' (i + 1) names.length).map
            (fun k => (MenuItemBase.multiSelect items value function active, k)) := by
      simp [List.range']
    rw [hplaces]
    rcases Bool.eq_false_or_eq_true function.isSome with hf | hf
    · rw [createMultiSelect, if_pos hf]
      refine CreatesAligned.seq _ _ target _ callbacks _ _ ?_ (ih (i + 1) _ _ hdrop1)
      exact CreatesAligned.tagged (MenuItemBase.multiSelect items value function active, i) _
        target callbacks (by
          simp only [MenuItemBase.placeText, IPopupMenu.Item.SetTag, IPopupMenu.Item.SetChecked]
          exact hget.symm) rfl (by simp [MenuItemBase.hasCallback, hf])
    · rw [createMultiSelect, if_neg (by simp [hf])]
      refine CreatesAligned.seq _ _ target _ callbacks _ _ ?_ (ih (i + 1) _ _ hdrop1)
      exact CreatesAligned.untagged (MenuItemBase.multiSelect items value function active, i) _
        target callbacks (by
          simp only [MenuItemBase.placeText, IPopupMenu.Item.SetChecked]
          exact hget.symm)
        rfl (by simp [MenuItemBase.hasCallback, hf])

mutual
/-- The function `createMenu` keeps tags and callbacks aligned over the places of the source. -/
theorem createMenu_spec : ∀ (source : List MenuItemBase) (target : List IPopupMenu.Entry)
    (callbacks : List MenuCallback),
    CreatesAligned (Menu.places source) target callbacks (createMenu target source callbacks)
  | [], target, callbacks => by
    simpa [createMenu, Menu.places] using CreatesAligned.nil target callbacks
  | itemBase :: rest, target, callbacks => by
    have h1 := createMenuItem_spec itemBase target callbacks
    have h2 := createMenu_spec rest (createMenuItem target itemBase callbacks).1
      (createMenuItem target itemBase callbacks).2
    rw [createMenu, Menu.places]
    exact CreatesAligned.seq _ _ target _ callbacks _ _ h1 h2
/-- The body of the loop of `createMenu` keeps tags and callbacks aligned over the places of one
source item. -/
theorem createMenuItem_spec : ∀ (itemBase : MenuItemBase) (target : List IPopupMenu.Entry)
    (callbacks : List MenuCallback),
    CreatesAligned (MenuItemBase.places itemBase) target callbacks
      (createMenuItem target itemBase callbacks)
  | MenuItemBase.subMenu name items, target, callbacks => by
    have h := createMenu_spec items [] callbacks
    rw [createMenuItem, MenuItemBase.places]
    exact CreatesAligned.sub _ name target _ callbacks _ h
  | MenuItemBase.action name function active, target, callbacks => by
    rw [MenuItemBase.places]
    rcases Bool.eq_false_or_eq_true (active && function.isSome) with h | h
    · rw [createMenuItem, if_pos h]
      exact CreatesAligned.tagged (MenuItemBase.action name function active, 0) _ target
        callbacks rfl rfl h
    · rw [createMenuItem, if_neg (by simp [h])]
      exact CreatesAligned.untagged (MenuItemBase.action name function active, 0) _ target
        callbacks rfl rfl h
  | MenuItemBase.title name, target, callbacks => by
    rw [createMenuItem, MenuItemBase.places]
    exact CreatesAligned.untagged (MenuItemBase.title name, 0) _ target callbacks rfl rfl rfl
  | MenuItemBase.select name checked function active, target, callbacks => by
    rw [MenuItemBase.places]
    rcases Bool.eq_false_or_eq_true function.isSome with h | h
    · rw [createMenuItem, if_pos h]
      exact CreatesAligned.tagged (MenuItemBase.select name checked function active, 0) _ target
        callbacks rfl rfl h
    · rw [createMenuItem, if_neg (by simp [h])]
      exact CreatesAligned.untagged (MenuItemBase.select name checked function active, 0) _
        target callbacks rfl rfl h
  | MenuItemBase.multiSelect items value function active, target, callbacks => by
    rw [createMenuItem, MenuItemBase.places]
    exact createMultiSelect_spec items value function active items 0 target callbacks rfl
  | MenuItemBase.separator, target, callbacks => by
    rw [createMenuItem, MenuItemBase.places]
    exact CreatesAligned.separator target callbacks
end

theorem length_filter_tag (items : List IPopupMenu.Item) :
    (items.filter (fun item => item.tag.isSome)).length =
      (items.filterMap (fun item => item.tag)).length := by
  induction items with
  | nil => rfl
  | cons x xs ih =>
    cases h : x.tag with
    | none => simp [List.filter_cons, List.filterMap_cons, h, ih]
    | some t => simp [List.filter_cons, List.filterMap_cons, h, ih]

/-- The menu `callbackMenu` made into a popup menu, with one callback there before: the active
action, the select item and the two entries of the multi-select item get the tags 1 to 4 and
their callbacks, the inactive action gets neither. -/
theorem createMenu_callbackMenu :
    createMenu [] callbackMenu [MenuCallback.action (MenuItemBase.title "old")] =
      ([IPopupMenu.Entry.item
          { text := "go", flags := IPopupMenu.Flags.kNoFlags, checked := false, tag := some 1 },
        IPopupMenu.Entry.subMenu "m"
          [IPopupMenu.Entry.item
            { text := "s", flags := IPopupMenu.Flags.kDisabled, checked := true,
              tag := some 2 },
          IPopupMenu.Entry.item
            { text := "off", flags := IPopupMenu.Flags.kDisabled, checked := false,
              tag := none }],
        IPopupMenu.Entry.item
          { text := "x", flags := IPopupMenu.Flags.kNoFlags, checked := false, tag := some 3 },
        IPopupMenu.Entry.item
          { text := "y", flags := IPopupMenu.Flags.kNoFlags, checked := true, tag := some 4 }],
       [MenuCallback.action (MenuItemBase.title "old"),
        MenuCallback.action (MenuItemBase.action "go" (some 5) true),
        MenuCallback.select
          { text := "s", flags := IPopupMenu.Flags.kDisabled, checked := true, tag := some 2 }
          (MenuItemBase.select "s" true (some 6) false),
        MenuCallback.multiSelect (MenuItemBase.multiSelect ["x", "y"] 1 (some 8) true) 0,
        MenuCallback.multiSelect (MenuItemBase.multiSelect ["x", "y"] 1 (some 8) true) 1]) := by
  rfl

/-- C22. `createMenu` keeps tags and callbacks aligned.  For every target, every source and every
list `callbacks`, of length `n`, the call `createMenu(target, source, callbacks)` appends entries
to `target` and callbacks to `callbacks`, and
the number of popup items added that have a tag is the number of callbacks appended;
the tags of the popup items added are, in the order the items are added, `n`, `n + 1`, up to the
last index of `callbacks` after the call, so they are distinct and are exactly these values;
place by place of the source, the popup item added for it shows its text, has a tag exactly for an
action that is active and has a function and for a select item or an entry of a multi-select item
whose function is set, and `callbacks[t]` for its tag `t` is the callback built from that place
and that popup item. -/
theorem createMenu_tags_match_callbacks (target : List IPopupMenu.Entry)
    (source : List MenuItemBase) (callbacks : List MenuCallback) :
    ∃ created appended,
      createMenu target source callbacks = (target ++ created, callbacks ++ appended) ∧
      ((IPopupMenu.allItems created).filter (fun item => item.tag.isSome)).length =
        appended.length ∧
      (IPopupMenu.allItems created).filterMap (fun item => item.tag) =
        List.range' callbacks.length appended.length ∧
      List.Forall₂
        (fun place popupItem =>
          popupItem.text = MenuItemBase.placeText place ∧
          popupItem.tag.isSome = place.1.hasCallback ∧
          ∀ t, popupItem.tag = some t →
            (callbacks ++ appended).get? t = some (MenuCallback.of place popupItem))
        (Menu.places source) (IPopupMenu.allItems created) := by
  obtain ⟨created, appended, heq, htags, hal⟩ := createMenu_spec source target callbacks
  refine ⟨created, appended, heq, ?_, htags, hal⟩
  rw [length_filter_tag, htags, List.length_range']

/-! ### Reading a kit -/

/-- The loop of `lsdj_kit_read` after the indices below `n`: the name is as before, the array of
samples keeps its size, the slot of every index below `n` holds what `lsdj_sample_read` returned
for that index, and the stream and `*error` are what these calls left. -/
theorem lsdj_kit_read_loop
    (lsdj_sample_read : lsdj_vio_t → lsdj_resource_offset_t → Nat → lsdj_error_ptr → SampleRead)
    (offset : lsdj_resource_offset_t) (s : KitRead) (n : Nat) (hn : n ≤ s.kit.samples.length) :
    ((List.range n).foldl (lsdj_kit_read.sample lsdj_sample_read offset) s).kit.name =
        s.kit.name ∧
    ((List.range n).foldl (lsdj_kit_read.sample lsdj_sample_read offset) s).kit.samples.length =
        s.kit.samples.length ∧
    (((List.range n).foldl (lsdj_kit_read.sample lsdj_sample_read offset) s).vio,
      ((List.range n).foldl (lsdj_kit_read.sample lsdj_sample_read offset) s).error) =
        sampleReadState lsdj_sample_read offset s.vio s.error n ∧
    (∀ i, i < n →
      ((List.range n).foldl (lsdj_kit_read.sample lsdj_sample_read offset) s).kit.samples.get? i
        = some (lsdj_sample_read (sampleReadState lsdj_sample_read offset s.vio s.error i).1
            offset i (sampleReadState lsdj_sample_read offset s.vio s.error i).2).sample) ∧
    (∀ i, n ≤ i →
      ((List.range n).foldl (lsdj_kit_read.sample lsdj_sample_read offset) s).kit.samples.get? i
        = s.kit.samples.get? i) := by
  induction n with
  | zero => simp [sampleReadState]
  | succ n ih =>
    obtain ⟨hname, hlen, hstate, hbelow, habove⟩ := ih (by omega)
    rw [List.range_succ, List.foldl_append]
    simp only [List.foldl_cons, List.foldl_nil]
    have hvio : (sampleReadState lsdj_sample_read offset s.vio s.error n).1 =
        ((List.range n).foldl (lsdj_kit_read.sample lsdj_sample_read offset) s).vio := by
      rw [← hstate]
    have herr : (sampleReadState lsdj_sample_read offset s.vio s.error n).2 =
        ((List.range n).foldl (lsdj_kit_read.sample lsdj_sample_read offset) s).error := by
      rw [← hstate]
    refine ⟨by simpa [lsdj_kit_read.sample] using hname,
      by simpa [lsdj_kit_read.sample] using hlen, ?_, ?_, ?_⟩
    · simp only [lsdj_kit_read.sample, sampleReadState, hvio, herr]
    · intro i hi
      by_cases hin : i = n
      · subst hin
        simp only [lsdj_kit_read.sample, List.get?_eq_getElem?]
        rw [List.getElem?_set_self (by omega), hvio, herr]
      · have hlt : i < n := by omega
        simp only [lsdj_kit_read.sample, List.get?_eq_getElem?]
        rw [List.getElem?_set_ne (by omega)]
        simpa using hbelow i hlt
    · intro i hi
      simp only [lsdj_kit_read.sample, List.get?_eq_getElem?]
      rw [List.getElem?_set_ne (by omega)]
      simpa using habove i (by omega)

theorem read_two (vio : lsdj_vio_t) (b0 b1 : Nat)
    (hb0 : vio.data.get? vio.position = some b0)
    (hb1 : vio.data.get? (vio.position + 1) = some b1) :
    vio.read 2 = ([b0, b1], { vio with position := vio.position + 2 }) := by
  have hdrop : ∀ (data : List Nat) (p : Nat), data.get? p = some b0 →
      data.get? (p + 1) = some b1 → ∃ rest, data.drop p = b0 :: b1 :: rest := by
    intro data
    induction data with
    | nil => intro p h; simp at h
    | cons x xs ih =>
      intro p h0 h1
      cases p with
      | zero =>
        cases xs with
        | nil => simp at h1
        | cons y ys =>
          simp at h0 h1
          exact ⟨ys, by simp [h0, h1]⟩
      | succ p =>
        simp at h0 h1
        obtain ⟨rest, hrest⟩ := ih p (by simpa using h0) (by simpa using h1)
        exact ⟨rest, by simpa using hrest⟩
  obtain ⟨rest, hrest⟩ := hdrop vio.data vio.position hb0 hb1
  simp [lsdj_vio_t.read, hrest]

theorem name_byte (data : List Nat) (p k : Nat) (b : Nat) (hk : k < KIT_NAME_SIZE)
    (hb : data.get? (p + k) = some b) :
    (((data.drop p).take KIT_NAME_SIZE) ++
      (List.replicate KIT_NAME_SIZE 0).drop ((data.drop p).take KIT_NAME_SIZE).length).get? k =
      some b := by
  have hlt : p + k < data.length := by
    rcases Nat.lt_or_ge (p + k) data.length with hlt | hge
    · exact hlt
    · rw [List.get?_eq_none.mpr hge] at hb
      cases hb
  simp only [List.get?_eq_getElem?] at hb ⊢
  rw [List.getElem?_append_left (by simp [List.length_take, List.length_drop]; omega)]
  rw [List.getElem?_take_of_lt hk, List.getElem?_drop]
  exact hb

theorem longToInt_of_le (value : Nat) (h : (value : Int) ≤ INT_MAX) :
    longToInt value = (value : Int) := by
  simp only [INT_MAX] at h
  have hmod : value % 4294967296 = value := Nat.mod_eq_of_lt (by omega)
  simp only [longToInt, hmod]
  rw [if_pos (by omega)]

/-- What `lsdj_kit_read` returns on a stream that starts with the two bytes of a kit bank, when
`pos + KIT_NAME_OFFSET` is the offset `seekTo` from the start of the stream: the kit read at
`seekTo`, with every sample read for the offset `(pos + SAMPLE_NAME_OFFSET, pos)`. -/
theorem lsdj_kit_read_of_kit (KIT_SAMPLE_COUNT : Nat)
    (lsdj_sample_read : lsdj_vio_t → lsdj_resource_offset_t → Nat → lsdj_error_ptr → SampleRead)
    (vio : lsdj_vio_t) (error : lsdj_error_ptr)
    (hb0 : vio.data.get? vio.position = some 0x60)
    (hb1 : vio.data.get? (vio.position + 1) = some 0x40) (seekTo : Nat)
    (hseek : longToInt vio.position + KIT_NAME_OFFSET = (seekTo : Int))
    (hfits : longToInt vio.position + KIT_NAME_OFFSET ≤ INT_MAX) :
    ∃ kit after error1,
      lsdj_kit_read KIT_SAMPLE_COUNT lsdj_sample_read vio error =
        some { kit := some kit, vio := after, error := error1 } ∧
      kit.name = ((vio.data.drop seekTo).take KIT_NAME_SIZE) ++
        (List.replicate KIT_NAME_SIZE 0).drop ((vio.data.drop seekTo).take KIT_NAME_SIZE).length ∧
      kit.samples.length = KIT_SAMPLE_COUNT ∧
      ∀ i, i < KIT_SAMPLE_COUNT →
        kit.samples.get? i =
          some (lsdj_sample_read
            (sampleReadState lsdj_sample_read
              (longToInt vio.position + SAMPLE_NAME_OFFSET, longToInt vio.position)
              { vio with position := seekTo + ((vio.data.drop seekTo).take KIT_NAME_SIZE).length }
              error i).1
            (longToInt vio.position + SAMPLE_NAME_OFFSET, longToInt vio.position) i
            (sampleReadState lsdj_sample_read
              (longToInt vio.position + SAMPLE_NAME_OFFSET, longToInt vio.position)
              { vio with position := seekTo + ((vio.data.drop seekTo).take KIT_NAME_SIZE).length }
              error i).2).sample := by
  have hread := read_two vio 0x60 0x40 hb0 hb1
  have hseek2 : ({ vio with position := vio.position + 2 } : lsdj_vio_t).seek
      (longToInt vio.position + KIT_NAME_OFFSET) =
      some { vio with position := seekTo } := by
    rw [hseek]
    simp [lsdj_vio_t.seek]
  obtain ⟨hname, hlen, _, hbelow, _⟩ := lsdj_kit_read_loop lsdj_sample_read
    (longToInt vio.position + SAMPLE_NAME_OFFSET, longToInt vio.position)
    (lsdj_kit_read.named KIT_SAMPLE_COUNT { vio with position := seekTo } error)
    KIT_SAMPLE_COUNT (by simp [lsdj_kit_read.named])
  obtain ⟨final, hfinal⟩ : ∃ final, (List.range KIT_SAMPLE_COUNT).foldl
      (lsdj_kit_read.sample lsdj_sample_read
        (longToInt vio.position + SAMPLE_NAME_OFFSET, longToInt vio.position))
      (lsdj_kit_read.named KIT_SAMPLE_COUNT { vio with position := seekTo } error) = final :=
    ⟨_, rfl⟩
  rw [hfinal] at hname hlen hbelow
  refine ⟨final.kit, final.vio, final.error, ?_, ?_, ?_, ?_⟩
  · simp only [lsdj_kit_read, hread, lsdj_vio_t.tell]
    rw [if_neg (by simp), if_neg (by omega), hseek2]
    simp only [hfinal]
  · rw [hname]
    rfl
  · rw [hlen]
    simp [lsdj_kit_read.named]
  · intro i hi
    exact hbelow i hi

/-- C23, amended. Let the stream hold the bytes `b0` and `b1` at its current position `pos` and
the one after it, and let `pos + 0x52` be no more than `INT_MAX`, so that the `int` of line 21
holds the position.  Then `lsdj_kit_read` returns, and it returns `NULL` exactly when the two
bytes are not `0x60` followed by `0x40`.  Otherwise the kit it returns has a name of 6 bytes,
which are the bytes of the stream at `pos + 0x52` to `pos + 0x57` as far as the stream has them,
and `KIT_SAMPLE_COUNT` samples: `lsdj_kit_get_sample(kit, i)` is what `lsdj_sample_read` returned
for the index `i`, called with the offset `(pos + 0x22, pos)` after the calls for the indices
below `i`, in their order, starting on the stream as the read of the name left it. -/
theorem lsdj_kit_read_spec (KIT_SAMPLE_COUNT : Nat)
    (lsdj_sample_read : lsdj_vio_t → lsdj_resource_offset_t → Nat → lsdj_error_ptr → SampleRead)
    (vio : lsdj_vio_t) (error : lsdj_error_ptr) (b0 b1 : Nat)
    (hb0 : vio.data.get? vio.position = some b0)
    (hb1 : vio.data.get? (vio.position + 1) = some b1)
    (hpos : (vio.position : Int) + 0x52 ≤ INT_MAX) :
    ∃ r, lsdj_kit_read KIT_SAMPLE_COUNT lsdj_sample_read vio error = some r ∧
      (r.kit = none ↔ ¬(b0 = 0x60 ∧ b1 = 0x40)) ∧
      ∀ kit, r.kit = some kit →
        (lsdj_kit_get_name kit).length = 6 ∧
        (∀ k b, k < 6 → vio.data.get? (vio.position + 0x52 + k) = some b →
          (lsdj_kit_get_name kit).get? k = some b) ∧
        kit.samples.length = KIT_SAMPLE_COUNT ∧
        ∀ i, i < KIT_SAMPLE_COUNT →
          lsdj_kit_get_sample kit i =
            some (lsdj_sample_read
              (sampleReadState lsdj_sample_read ((vio.position : Int) + 0x22, vio.position)
                { vio with position := vio.position + 0x52 +
                    ((vio.data.drop (vio.position + 0x52)).take 6).length }
                error i).1
              ((vio.position : Int) + 0x22, vio.position) i
              (sampleReadState lsdj_sample_read ((vio.position : Int) + 0x22, vio.position)
                { vio with position := vio.position + 0x52 +
                    ((vio.data.drop (vio.position + 0x52)).take 6).length }
                error i).2).sample := by
  have hconv : longToInt vio.position = (vio.position : Int) :=
    longToInt_of_le vio.position (by simp only [INT_MAX] at hpos ⊢; omega)
  by_cases hid : b0 = 0x60 ∧ b1 = 0x40
  · obtain ⟨h0, h1⟩ := hid
    subst h0
    subst h1
    obtain ⟨kit, after, error1, heq, hname, hlen, hsamples⟩ :=
      lsdj_kit_read_of_kit KIT_SAMPLE_COUNT lsdj_sample_read vio error hb0 hb1
        (vio.position + 0x52)
        (by rw [hconv]; simp [KIT_NAME_OFFSET])
        (by rw [hconv]; simpa [KIT_NAME_OFFSET] using hpos)
    rw [hconv] at hsamples
    refine ⟨_, heq, by simp, ?_⟩
    intro kit1 hkit
    simp only [Option.some.injEq] at hkit
    subst hkit
    refine ⟨?_, ?_, hlen, ?_⟩
    · rw [lsdj_kit_get_name, hname]
      simp [KIT_NAME_SIZE, List.length_take, List.length_drop]
    · intro k b hk hb
      rw [lsdj_kit_get_name, hname]
      exact name_byte vio.data (vio.position + 0x52) k b hk hb
    · intro i hi
      exact hsamples i hi
  · refine ⟨{ kit := none, vio := { vio with position := vio.position + 2 }, error := error },
      ?_, by simp [hid], by intro kit h; cases h⟩
    have hread := read_two vio b0 b1 hb0 hb1
    have hor : b0 ≠ 0x60 ∨ b1 ≠ 0x40 := by
      by_cases h0 : b0 = 0x60
      · right
        intro h1
        exact hid ⟨h0, h1⟩
      · left
        exact h0
    simp only [lsdj_kit_read, hread]
    rw [if_pos hor]

/-- The stream `kitStream` read with the stand-in `indexSample` and three samples: the kit has
the name at the bytes 0x52 to 0x57 and the samples of the indices 0, 1 and 2, in this order. -/
theorem lsdj_kit_read_kitStream :
    lsdj_kit_read 3 indexSample kitStream none =
      some { kit := some { name := [1, 2, 3, 4, 5, 6], samples := [some 0, some 1, some 2] },
             vio := { data := kitStream.data, position := 91 },
             error := none } := by
  decide

/-- A stream that does not start with the two bytes of a kit bank is no kit. -/
theorem lsdj_kit_read_other_bank :
    (lsdj_kit_read 3 indexSample { data := [0x60, 0x41, 0, 0], position := 0 } none).map
      (fun r => r.kit) = some none := by
  decide

/-- C23, at a concrete input: the stream `kitStream`, which starts with `0x60 0x40` at the
position 0, read with the stand-in `indexSample` for `lsdj_sample_read` and three samples. -/
theorem lsdj_kit_read_spec_witness :
    kitStream.data.get? kitStream.position = some 0x60 ∧
    kitStream.data.get? (kitStream.position + 1) = some 0x40 ∧
    (kitStream.position : Int) + 0x52 ≤ INT_MAX ∧
    ∃ r, lsdj_kit_read 3 indexSample kitStream none = some r ∧
      (r.kit = none ↔ ¬(0x60 = 0x60 ∧ 0x40 = 0x40)) ∧
      ∀ kit, r.kit = some kit →
        (lsdj_kit_get_name kit).length = 6 ∧
        (∀ k b, k < 6 → kitStream.data.get? (kitStream.position + 0x52 + k) = some b →
          (lsdj_kit_get_name kit).get? k = some b) ∧
        kit.samples.length = 3 ∧
        ∀ i, i < 3 →
          lsdj_kit_get_sample kit i =
            some (indexSample
              (sampleReadState indexSample
                ((kitStream.position : Int) + 0x22, kitStream.position)
                { kitStream with position := kitStream.position + 0x52 +
                    ((kitStream.data.drop (kitStream.position + 0x52)).take 6).length }
                none i).1
              ((kitStream.position : Int) + 0x22, kitStream.position) i
              (sampleReadState indexSample
                ((kitStream.position : Int) + 0x22, kitStream.position)
                { kitStream with position := kitStream.position + 0x52 +
                    ((kitStream.data.drop (kitStream.position + 0x52)).take 6).length }
                none i).2).sample :=
  ⟨by decide, by decide, by decide,
    lsdj_kit_read_spec 3 indexSample kitStream none 0x60 0x40 (by decide) (by decide)
      (by decide)⟩

theorem farStream_bytes :
    farStream.data.get? farStream.position = some 0x60 ∧
    farStream.data.get? (farStream.position + 1) = some 0x40 := by
  have h0 := get?_length_append_cons (List.replicate 4294967296 0) 0x60 [0x40]
  have h1 := get?_length_append_cons (List.replicate 4294967296 0 ++ [0x60]) 0x40 []
  rw [List.length_replicate] at h0
  rw [List.length_append, List.length_replicate, List.append_assoc] at h1
  exact ⟨h0, h1⟩

/-- C23 as stated fails when the position does not fit the `int` of line 21.  The stream
`farStream` is at the position 2^32 and holds `0x60 0x40` there; `pos` becomes 0, and
`lsdj_sample_read` is called with the offset `(0x22, 0)`, so that the stand-in `offsetSample`
returns the sample 34, where the offset `(2^32 + 0x22, 2^32)` of the claim gives the sample
4294967330. -/
theorem lsdj_kit_read_position_wraps :
    farStream.data.get? farStream.position = some 0x60 ∧
    farStream.data.get? (farStream.position + 1) = some 0x40 ∧
    (lsdj_kit_read 1 offsetSample farStream none).map
        (fun r => r.kit.map (fun kit => lsdj_kit_get_sample kit 0)) =
      some (some (some (some 34))) ∧
    (offsetSample farStream ((farStream.position : Int) + 0x22, farStream.position) 0
        none).sample = some 4294967330 := by
  have hconv : longToInt farStream.position = 0 := by decide
  obtain ⟨kit, after, error1, heq, _, _, hsamples⟩ :=
    lsdj_kit_read_of_kit 1 offsetSample farStream none farStream_bytes.1 farStream_bytes.2 82
      (by rw [hconv]; decide) (by rw [hconv]; decide)
  refine ⟨farStream_bytes.1, farStream_bytes.2, ?_, by decide⟩
  rw [heq]
  have h0 := hsamples 0 (by decide)
  rw [hconv] at h0
  simp only [Option.map_some', lsdj_kit_get_sample, h0]
  rfl

end RetroPlug
